import Mathlib

/-!
# Verification of the RankRumble tournament / rating engine

Shallow embedding of the Python modules `app/core/elo.py`,
`app/models/project.py` and `app/models/tournament.py`.

Modelling conventions:
* Python floats are modelled as real numbers (the ELO functions are pure
  numeric code); the integer-rounded rating update applied by
  `submit_battle` is abstracted as an explicit function parameter
  `elo_pair`, since the bracket engine never inspects its values.
* Python dicts are modelled as association lists preserving insertion
  order; `d[k]` lookups become `dget`, in-place mutation becomes `dmodify`,
  assignment `d[k] = v` becomes `dset`.
* The file-backed project store is modelled as an `Option Project` value
  threaded explicitly through every operation (`none` = file absent);
  re-loading the project from disk after `submit_battle` saved it is
  modelled by using the store value returned by `submit_battle`.
* `generate_id` produces fresh random string ids; they are modelled as
  deterministically assigned fresh natural numbers (match ids 0..28 in
  creation order, 29 for the grand final, 30 for the reset match,
  battle ids by history position, tournament ids by table position).
* Timestamps (`created_at`, `updated_at`, `timestamp`) and the derived
  display statistic `win_rate` are omitted: no verified property mentions
  them.
-/

namespace RankRumble

/-! ## `app/core/elo.py` -/

/-- `expected_score(rating_a, rating_b)`:
`1.0 / (1.0 + 10 ** ((rating_b - rating_a) / 400.0))`,
with floats modelled as reals. -/
noncomputable def expected_score (rating_a rating_b : ℝ) : ℝ :=
  1 / (1 + (10 : ℝ) ^ ((rating_b - rating_a) / 400))

/-- `update_elo(rating_a, rating_b, score_a, k=32)`:
`rating_a + k * (score_a - expected_score(rating_a, rating_b))`. -/
noncomputable def update_elo (rating_a rating_b score_a k : ℝ) : ℝ :=
  rating_a + k * (score_a - expected_score rating_a rating_b)

theorem expected_score_pos_aux (x : ℝ) : (0 : ℝ) < (10 : ℝ) ^ x :=
  Real.rpow_pos_of_pos (by norm_num) x

theorem expected_score_symm (a b : ℝ) :
    expected_score a b + expected_score b a = 1 := by
  unfold expected_score
  have h1 : (0 : ℝ) < (10 : ℝ) ^ ((b - a) / 400) := expected_score_pos_aux _
  have h2 : (0 : ℝ) < (10 : ℝ) ^ ((a - b) / 400) := expected_score_pos_aux _
  have h3 : (10 : ℝ) ^ ((a - b) / 400) * (10 : ℝ) ^ ((b - a) / 400) = 1 := by
    rw [← Real.rpow_add (by norm_num : (0:ℝ) < 10)]
    have : (a - b) / 400 + (b - a) / 400 = 0 := by ring
    rw [this, Real.rpow_zero]
  have hne1 : (1 : ℝ) + (10 : ℝ) ^ ((b - a) / 400) ≠ 0 := by positivity
  have hne2 : (1 : ℝ) + (10 : ℝ) ^ ((a - b) / 400) ≠ 0 := by positivity
  field_simp
  nlinarith [h1, h2, h3]

theorem expected_score_self (a : ℝ) : expected_score a a = 1 / 2 := by
  unfold expected_score
  rw [sub_self, zero_div, Real.rpow_zero]
  norm_num

/-- **C10.** For all ratings `a` and `b`,
`expected_score(a,b) + expected_score(b,a) = 1` (hence
`expected_score(a,a) = 0.5`), and
`update_elo(rating_a, rating_b, score_a, k) =
 rating_a + k*(score_a − expected_score(rating_a, rating_b))`;
in particular `update_elo(1000,1000,1.0,k=32) = 1016` and
`update_elo(1000,1000,0.5,k=32) = 1000`. -/
theorem c10_elo_laws :
    (∀ a b : ℝ, expected_score a b + expected_score b a = 1) ∧
    (∀ a : ℝ, expected_score a a = 1 / 2) ∧
    (∀ a b s k : ℝ, update_elo a b s k = a + k * (s - expected_score a b)) ∧
    update_elo 1000 1000 1 32 = 1016 ∧
    update_elo 1000 1000 (1 / 2) 32 = 1000 := by
  refine ⟨expected_score_symm, expected_score_self, fun a b s k => rfl, ?_, ?_⟩
  · unfold update_elo
    rw [expected_score_self]
    norm_num
  · unfold update_elo
    rw [expected_score_self]
    norm_num

/-! ## Data model -/

/-- A tournament match dict, as built by `_create_match` in
`app/models/tournament.py`.  (`TMatch` because `match` is a Lean keyword.) -/
structure TMatch where
  id : Nat
  item_a_id : Option String
  item_b_id : Option String
  winner_id : Option String
  loser_id : Option String
  battle_id : Option Nat
deriving DecidableEq

/-- The `grand_final` sub-dict of a tournament
(`gf_match` is the `'match'` key). -/
structure GrandFinal where
  gf_match : TMatch
  reset_match : Option TMatch
deriving DecidableEq

/-- The tournament dict built by `create_tournament`.
`results` models the `{'1st': …, '2nd': …}` dict. -/
structure Tournament where
  id : Nat
  name : String
  status : String
  participants : List String
  seeding : List String
  winners_bracket : List (List TMatch)
  losers_bracket : List (List TMatch)
  grand_final : GrandFinal
  champion_id : Option String
  results : Option (Option String × Option String)
  match_count : Nat
  total_matches : Nat
deriving DecidableEq

/-- An item dict of a project (`add_item` in `app/models/project.py`),
with the `stats` sub-dict flattened; `win_rate` and the timestamps of
`rating_history` entries are omitted (display only). -/
structure Item where
  id : String
  name : String
  rating : Int
  wins : Nat
  losses : Nat
  ties : Nat
  total_battles : Nat
  rating_history : List Int
deriving DecidableEq

/-- A battle record as built by `submit_battle`. -/
structure BattleRecord where
  id : Nat
  item_a_id : String
  item_b_id : String
  item_a_name : String
  item_b_name : String
  winner_id : Option String
  result : String
  ratings_before : Int × Int
  ratings_after : Int × Int
  rating_changes : Int × Int
deriving DecidableEq

/-- A project dict; `settings` is flattened to the one field the engine
reads (`k_factor`), `statistics['total_battles']` is `total_battles_stat`. -/
structure Project where
  id : String
  items : List (String × Item)
  battle_history : List BattleRecord
  tournaments : List (Nat × Tournament)
  k_factor : Int
  total_battles_stat : Nat
deriving DecidableEq

/-! ## Ordered-dict operations -/

/-- Python dict lookup `d.get(k)` / `d[k]` over an insertion-ordered
association list. -/
def dget {κ β : Type} [DecidableEq κ] (l : List (κ × β)) (k : κ) : Option β :=
  (l.find? (fun kv => decide (kv.1 = k))).map (·.2)

/-- In-place mutation of the value at an existing key (`d[k]` is aliased
and mutated in Python). -/
def dmodify {κ β : Type} [DecidableEq κ] (l : List (κ × β)) (k : κ)
    (f : β → β) : List (κ × β) :=
  l.map (fun kv => if kv.1 = k then (kv.1, f kv.2) else kv)

/-- Python dict assignment `d[k] = v`: update the existing key, else
append. -/
def dset {κ β : Type} [DecidableEq κ] (l : List (κ × β)) (k : κ) (v : β) :
    List (κ × β) :=
  if (l.find? (fun kv => decide (kv.1 = k))).isSome then
    l.map (fun kv => if kv.1 = k then (k, v) else kv)
  else l ++ [(k, v)]

/-- In-place list element update `xs[i] = f xs[i]` (no-op out of range,
which never happens in guarded code). -/
def lmodify {α : Type} (l : List α) (i : Nat) (f : α → α) : List α :=
  match l, i with
  | [], _ => []
  | a :: rest, 0 => f a :: rest
  | a :: rest, n + 1 => a :: lmodify rest n f

theorem lmodify_length {α : Type} (l : List α) (i : Nat) (f : α → α) :
    (lmodify l i f).length = l.length := by
  induction l generalizing i with
  | nil => rfl
  | cons a rest ih =>
    cases i with
    | zero => rfl
    | succ n => simp [lmodify, ih]

theorem lmodify_getD_eq {α : Type} (l : List α) (i : Nat) (f : α → α)
    (d : α) (h : i < l.length) :
    (lmodify l i f).getD i d = f (l.getD i d) := by
  induction l generalizing i with
  | nil => simp at h
  | cons a rest ih =>
    cases i with
    | zero => rfl
    | succ n =>
      simp only [lmodify, List.getD_cons_succ]
      exact ih n (by simpa using h)

theorem lmodify_getD_ne {α : Type} (l : List α) (i j : Nat) (f : α → α)
    (d : α) (h : j ≠ i) :
    (lmodify l i f).getD j d = l.getD j d := by
  induction l generalizing i j with
  | nil => rfl
  | cons a rest ih =>
    cases i with
    | zero =>
      cases j with
      | zero => exact absurd rfl h
      | succ m => rfl
    | succ n =>
      cases j with
      | zero => rfl
      | succ m =>
        simp only [lmodify, List.getD_cons_succ]
        exact ih n m (fun hc => h (by omega))

/-! ## `app/models/tournament.py` — definitions -/

/-- `SEED_MATCHUPS`: standard 16-seed bracket matchups, 0-indexed. -/
def SEED_MATCHUPS : List (Nat × Nat) :=
  [(0, 15), (7, 8), (4, 11), (3, 12), (5, 10), (2, 13), (6, 9), (1, 14)]

/-- `PLAY_ORDER`: `(bracket_type, round_index)` entries. -/
def PLAY_ORDER : List (String × Nat) :=
  [("w", 0), ("l", 0), ("w", 1), ("l", 1), ("l", 2), ("w", 2),
   ("l", 3), ("l", 4), ("w", 3), ("l", 5), ("gf", 0), ("reset", 0)]

/-- `_create_match(item_a_id, item_b_id)`; the fresh random id is supplied
by the caller (see the id-modelling convention above). -/
def create_match (id : Nat) (item_a_id item_b_id : Option String) : TMatch :=
  { id := id, item_a_id := item_a_id, item_b_id := item_b_id,
    winner_id := none, loser_id := none, battle_id := none }

/-- `project['items'][item_id]['rating']`; the default is unreachable
because `create_tournament` checks membership first. -/
def rating_of (project : Project) (item_id : String) : Int :=
  match dget project.items item_id with
  | some it => it.rating
  | none => 0

/-- One insertion step of the stable descending sort: `x` passes exactly
the elements with strictly greater rating, so among equal ratings it
stays after earlier elements and before later ones. -/
def insert_desc (x : String × Int) :
    List (String × Int) → List (String × Int)
  | [] => [x]
  | y :: ys => if x.2 < y.2 then y :: insert_desc x ys else x :: y :: ys

/-- Python's `items_with_rating.sort(key=lambda x: x[1], reverse=True)`:
the stable sort by rating descending (Python guarantees exactly
stability plus the ordering, which determines the result uniquely; this
structurally-recursive insertion sort realises it). -/
def sort_desc : List (String × Int) → List (String × Int)
  | [] => []
  | x :: xs => insert_desc x (sort_desc xs)

/-- `create_tournament(user_id, project_id, item_ids, name)`;
the `(user_id, project_id)`-addressed store is the explicit
`Option Project` argument. -/
def create_tournament (store : Option Project) (item_ids : List String)
    (name : Option String) : Option Project × Option Tournament :=
  match store with
  | none => (store, none)
  | some project =>
    if item_ids.length ≠ 16 then (store, none)
    else if item_ids.any (fun i => (dget project.items i).isNone) then
      (store, none)
    else
      let items_with_rating : List (String × Int) :=
        item_ids.map (fun i => (i, rating_of project i))
      let seeding : List String :=
        (sort_desc items_with_rating).map (·.1)
      let wb_r1 := SEED_MATCHUPS.enum.map (fun ji =>
        create_match ji.1 (some (seeding.getD ji.2.1 ""))
          (some (seeding.getD ji.2.2 "")))
      let wb_r2 := (List.range 4).map (fun j => create_match (8 + j) none none)
      let wb_r3 := (List.range 2).map (fun j => create_match (12 + j) none none)
      let wb_r4 := [create_match 14 none none]
      let lb_r1 := (List.range 4).map (fun j => create_match (15 + j) none none)
      let lb_r2 := (List.range 4).map (fun j => create_match (19 + j) none none)
      let lb_r3 := (List.range 2).map (fun j => create_match (23 + j) none none)
      let lb_r4 := (List.range 2).map (fun j => create_match (25 + j) none none)
      let lb_r5 := [create_match 27 none none]
      let lb_r6 := [create_match 28 none none]
      let tournament : Tournament :=
        { id := project.tournaments.length,
          name := name.getD ("Sweet Sixteen #" ++
            toString (project.tournaments.length + 1)),
          status := "in_progress",
          participants := item_ids,
          seeding := seeding,
          winners_bracket := [wb_r1, wb_r2, wb_r3, wb_r4],
          losers_bracket := [lb_r1, lb_r2, lb_r3, lb_r4, lb_r5, lb_r6],
          grand_final := { gf_match := create_match 29 none none,
                           reset_match := none },
          champion_id := none,
          results := none,
          match_count := 0,
          total_matches := 30 }
      let project' : Project := { project with
        tournaments := dset project.tournaments tournament.id tournament }
      (some project', some tournament)

/-- A match location: the Python tuples `('w', r, i)`, `('l', r, i)`,
`('gf', 0, 0)`, `('reset', 0, 0)`. -/
inductive Loc where
  | w (r i : Nat)
  | l (r i : Nat)
  | gf
  | reset
deriving DecidableEq

/-- Scan one round for a match id (inner loop of `_find_match`). -/
def find_in_round (ms : List TMatch) (match_id : Nat) (i : Nat) :
    Option (TMatch × Nat) :=
  match ms with
  | [] => none
  | m :: rest =>
    if m.id = match_id then some (m, i)
    else find_in_round rest match_id (i + 1)

/-- Scan a bracket for a match id (outer loop of `_find_match`). -/
def find_in_rounds (rounds : List (List TMatch)) (match_id : Nat) (r : Nat) :
    Option (TMatch × Nat × Nat) :=
  match rounds with
  | [] => none
  | ms :: rest =>
    match find_in_round ms match_id 0 with
    | some (m, i) => some (m, r, i)
    | none => find_in_rounds rest match_id (r + 1)

/-- `_find_match(tournament, match_id)`. -/
def find_match (t : Tournament) (match_id : Nat) : Option (TMatch × Loc) :=
  match find_in_rounds t.winners_bracket match_id 0 with
  | some (m, r, i) => some (m, Loc.w r i)
  | none =>
    match find_in_rounds t.losers_bracket match_id 0 with
    | some (m, r, i) => some (m, Loc.l r i)
    | none =>
      if t.grand_final.gf_match.id = match_id then
        some (t.grand_final.gf_match, Loc.gf)
      else
        match t.grand_final.reset_match with
        | some reset =>
          if reset.id = match_id then some (reset, Loc.reset) else none
        | none => none

/-- `bracket[r][i]['…'] = …`: in-place update of one match of a bracket. -/
def upd2 (rounds : List (List TMatch)) (r i : Nat) (f : TMatch → TMatch) :
    List (List TMatch) :=
  lmodify rounds r (fun ms => lmodify ms i f)

/-- In-place update of the match at a location. -/
def set_match_at (t : Tournament) (loc : Loc) (f : TMatch → TMatch) :
    Tournament :=
  match loc with
  | Loc.w r i => { t with winners_bracket := upd2 t.winners_bracket r i f }
  | Loc.l r i => { t with losers_bracket := upd2 t.losers_bracket r i f }
  | Loc.gf => { t with grand_final :=
      ({ t.grand_final with gf_match := f t.grand_final.gf_match }) }
  | Loc.reset => { t with grand_final :=
      ({ t.grand_final with
         reset_match := t.grand_final.reset_match.map f }) }

/-- `_advance_winners_bracket(tournament, round_idx, match_idx,
winner_id, loser_id)`. -/
def advance_winners_bracket (t : Tournament) (round_idx match_idx : Nat)
    (winner_id loser_id : Option String) : Tournament :=
  let t1 :=
    if round_idx < 3 then
      let next_match_idx := match_idx / 2
      if match_idx % 2 = 0 then
        { t with winners_bracket :=
            (upd2 t.winners_bracket (round_idx + 1) next_match_idx
              (fun m => { m with item_a_id := winner_id })) }
      else
        { t with winners_bracket :=
            (upd2 t.winners_bracket (round_idx + 1) next_match_idx
              (fun m => { m with item_b_id := winner_id })) }
    else
      { t with grand_final :=
          ({ t.grand_final with gf_match :=
              ({ t.grand_final.gf_match with item_a_id := winner_id }) }) }
  if round_idx = 0 then
    let lb_match_idx := match_idx / 2
    if match_idx % 2 = 0 then
      { t1 with losers_bracket :=
          (upd2 t1.losers_bracket 0 lb_match_idx
            (fun m => { m with item_a_id := loser_id })) }
    else
      { t1 with losers_bracket :=
          (upd2 t1.losers_bracket 0 lb_match_idx
            (fun m => { m with item_b_id := loser_id })) }
  else if round_idx = 1 then
    { t1 with losers_bracket :=
        (upd2 t1.losers_bracket 1 match_idx
          (fun m => { m with item_b_id := loser_id })) }
  else if round_idx = 2 then
    { t1 with losers_bracket :=
        (upd2 t1.losers_bracket 3 match_idx
          (fun m => { m with item_b_id := loser_id })) }
  else if round_idx = 3 then
    { t1 with losers_bracket :=
        (upd2 t1.losers_bracket 5 0
          (fun m => { m with item_b_id := loser_id })) }
  else t1

/-- `_advance_losers_bracket(tournament, round_idx, match_idx, winner_id)`. -/
def advance_losers_bracket (t : Tournament) (round_idx match_idx : Nat)
    (winner_id : Option String) : Tournament :=
  if round_idx = 0 then
    { t with losers_bracket :=
        (upd2 t.losers_bracket 1 match_idx
          (fun m => { m with item_a_id := winner_id })) }
  else if round_idx = 1 then
    let next_match_idx := match_idx / 2
    if match_idx % 2 = 0 then
      { t with losers_bracket :=
          (upd2 t.losers_bracket 2 next_match_idx
            (fun m => { m with item_a_id := winner_id })) }
    else
      { t with losers_bracket :=
          (upd2 t.losers_bracket 2 next_match_idx
            (fun m => { m with item_b_id := winner_id })) }
  else if round_idx = 2 then
    { t with losers_bracket :=
        (upd2 t.losers_bracket 3 match_idx
          (fun m => { m with item_a_id := winner_id })) }
  else if round_idx = 3 then
    let next_match_idx := match_idx / 2
    if match_idx % 2 = 0 then
      { t with losers_bracket :=
          (upd2 t.losers_bracket 4 next_match_idx
            (fun m => { m with item_a_id := winner_id })) }
    else
      { t with losers_bracket :=
          (upd2 t.losers_bracket 4 next_match_idx
            (fun m => { m with item_b_id := winner_id })) }
  else if round_idx = 4 then
    { t with losers_bracket :=
        (upd2 t.losers_bracket 5 0
          (fun m => { m with item_a_id := winner_id })) }
  else if round_idx = 5 then
    { t with grand_final :=
        ({ t.grand_final with gf_match :=
            ({ t.grand_final.gf_match with item_b_id := winner_id }) }) }
  else t

/-- `_handle_grand_final(tournament, match)`: create the reset match iff
the grand-final winner differs from the WB champion (`item_a` of the
grand final); the reset match gets the fresh id 30. -/
def handle_grand_final (t : Tournament) (m : TMatch) : Tournament :=
  let wb_champion_id := t.grand_final.gf_match.item_a_id
  if m.winner_id ≠ wb_champion_id then
    { t with
      grand_final :=
        ({ t.grand_final with reset_match :=
            (some (create_match 30 wb_champion_id m.winner_id)) }),
      total_matches := 31 }
  else t

/-- `_advance_bracket(tournament, location, match)`. -/
def advance_bracket (t : Tournament) (location : Loc) (m : TMatch) :
    Tournament :=
  match location with
  | Loc.w r i => advance_winners_bracket t r i m.winner_id m.loser_id
  | Loc.l r i => advance_losers_bracket t r i m.winner_id
  | Loc.gf => handle_grand_final t m
  | Loc.reset => t

/-- `_is_complete(tournament)`.  Python's
`reset['winner_id'] is not None` becomes `isSome`. -/
def is_complete (t : Tournament) : Bool :=
  let gf := t.grand_final
  if gf.gf_match.winner_id = none then false
  else if gf.gf_match.winner_id = gf.gf_match.item_a_id then true
  else
    match gf.reset_match with
    | some reset => reset.winner_id.isSome
    | none => false

/-- The completion block of `submit_tournament_match` (the body of
`if self._is_complete(tournament): …`): freeze status, set champion and
results.  Python's truthiness test `if reset and reset['winner_id']` on a
nonempty-string-or-None id is `isSome`. -/
def complete_tournament (t : Tournament) : Tournament :=
  let gf := t.grand_final
  match gf.reset_match with
  | some reset =>
    if reset.winner_id.isSome then
      { t with
        status := "completed",
        champion_id := reset.winner_id,
        results := some (reset.winner_id, reset.loser_id) }
    else
      { t with
        status := "completed",
        champion_id := gf.gf_match.winner_id,
        results := some (gf.gf_match.winner_id, gf.gf_match.loser_id) }
  | none =>
    { t with
      status := "completed",
      champion_id := gf.gf_match.winner_id,
      results := some (gf.gf_match.winner_id, gf.gf_match.loser_id) }

/-- The match-context dict returned by `get_next_match`
(`m` is the `'match'` key). -/
structure MatchInfo where
  m : TMatch
  bracket : String
  bracket_label : String
  round_idx : Nat
  round_name : String
  match_idx : Nat
  match_number : Nat
  total_in_round : Nat
  item_a : Option Item
  item_b : Option Item
deriving DecidableEq

/-- The playability test of `get_next_match`:
`winner_id is None and item_a_id is not None and item_b_id is not None`. -/
def find_playable (ms : List TMatch) (i : Nat) : Option (Nat × TMatch) :=
  match ms with
  | [] => none
  | m :: rest =>
    if m.winner_id.isNone && m.item_a_id.isSome && m.item_b_id.isSome then
      some (i, m)
    else find_playable rest (i + 1)

def wb_round_names : List String :=
  ["Round 1", "Quarterfinals", "Semifinals", "Final"]

def lb_round_names : List String :=
  ["Round 1", "Round 2", "Round 3", "Round 4", "Semifinal", "Final"]

/-- The scan loop of `get_next_match` over `PLAY_ORDER`. -/
def get_next_match_go (t : Tournament) (project : Project) :
    List (String × Nat) → Option MatchInfo
  | [] => none
  | (bracket_type, round_idx) :: rest =>
    if bracket_type = "w" then
      let round_matches := t.winners_bracket.getD round_idx []
      match find_playable round_matches 0 with
      | some (match_idx, m) =>
        some { m := m, bracket := "winners",
               bracket_label := "Winners Bracket",
               round_idx := round_idx,
               round_name := wb_round_names.getD round_idx "",
               match_idx := match_idx, match_number := match_idx + 1,
               total_in_round := round_matches.length,
               item_a := m.item_a_id.bind (dget project.items),
               item_b := m.item_b_id.bind (dget project.items) }
      | none => get_next_match_go t project rest
    else if bracket_type = "l" then
      let round_matches := t.losers_bracket.getD round_idx []
      match find_playable round_matches 0 with
      | some (match_idx, m) =>
        some { m := m, bracket := "losers",
               bracket_label := "Losers Bracket",
               round_idx := round_idx,
               round_name := lb_round_names.getD round_idx "",
               match_idx := match_idx, match_number := match_idx + 1,
               total_in_round := round_matches.length,
               item_a := m.item_a_id.bind (dget project.items),
               item_b := m.item_b_id.bind (dget project.items) }
      | none => get_next_match_go t project rest
    else if bracket_type = "gf" then
      let m := t.grand_final.gf_match
      if m.winner_id.isNone && m.item_a_id.isSome && m.item_b_id.isSome then
        some { m := m, bracket := "grand_final",
               bracket_label := "Grand Final",
               round_idx := 0, round_name := "Grand Final",
               match_idx := 0, match_number := 1, total_in_round := 1,
               item_a := m.item_a_id.bind (dget project.items),
               item_b := m.item_b_id.bind (dget project.items) }
      else get_next_match_go t project rest
    else if bracket_type = "reset" then
      match t.grand_final.reset_match with
      | some reset =>
        if reset.winner_id.isNone then
          some { m := reset, bracket := "reset",
                 bracket_label := "True Final",
                 round_idx := 0, round_name := "True Final",
                 match_idx := 0, match_number := 1, total_in_round := 1,
                 item_a := reset.item_a_id.bind (dget project.items),
                 item_b := reset.item_b_id.bind (dget project.items) }
        else get_next_match_go t project rest
      | none => get_next_match_go t project rest
    else get_next_match_go t project rest

/-- `get_next_match(tournament, project)`. -/
def get_next_match (t : Tournament) (project : Project) : Option MatchInfo :=
  if t.status = "completed" then none
  else get_next_match_go t project PLAY_ORDER

/-! ## `app/models/project.py` — `submit_battle` -/

/-- The external numeric rating update of `submit_battle`:
`elo_pair k old_a old_b result = (round(update_elo(old_a, old_b, score_a, k)),
round(update_elo(old_b, old_a, score_b, k)))`.  The bracket engine is
parametric in it; theorems about the real-valued `update_elo` are in the
ELO section. -/
def EloPair : Type := Int → Int → Int → String → Int × Int

/-- Stats update for side A (the `item_a['stats']` block). -/
def stats_update_a (result : String) (new_a : Int) (it : Item) : Item :=
  let it1 := { it with total_battles := it.total_battles + 1 }
  let it2 :=
    if result = "a_wins" then { it1 with wins := it1.wins + 1 }
    else if result = "b_wins" then { it1 with losses := it1.losses + 1 }
    else { it1 with ties := it1.ties + 1 }
  { it2 with rating_history := it2.rating_history ++ [new_a] }

/-- Stats update for side B (the `item_b['stats']` block). -/
def stats_update_b (result : String) (new_b : Int) (it : Item) : Item :=
  let it1 := { it with total_battles := it.total_battles + 1 }
  let it2 :=
    if result = "b_wins" then { it1 with wins := it1.wins + 1 }
    else if result = "a_wins" then { it1 with losses := it1.losses + 1 }
    else { it1 with ties := it1.ties + 1 }
  { it2 with rating_history := it2.rating_history ++ [new_b] }

/-- `ProjectManager.submit_battle`.  The item ids are `Option String`
because `submit_tournament_match` passes possibly-null slot ids; a null
id is never a dict key, so it fails the membership test.  The four
sequential `dmodify` calls reproduce Python's in-place mutation order
(ratings a, b; then stats a; then stats b), which matters when both ids
alias the same item. -/
def submit_battle (elo_pair : EloPair) (store : Option Project)
    (item_a_id item_b_id : Option String) (result : String) :
    Option Project × Option BattleRecord :=
  match store with
  | none => (store, none)
  | some project =>
    match item_a_id, item_b_id with
    | some a_id, some b_id =>
      match dget project.items a_id, dget project.items b_id with
      | some item_a, some item_b =>
        let k := project.k_factor
        let old_a := item_a.rating
        let old_b := item_b.rating
        let new_ab := elo_pair k old_a old_b result
        let new_a := new_ab.1
        let new_b := new_ab.2
        let battle_record : BattleRecord :=
          { id := project.battle_history.length,
            item_a_id := a_id, item_b_id := b_id,
            item_a_name := item_a.name, item_b_name := item_b.name,
            winner_id :=
              if result = "a_wins" then some a_id
              else if result = "b_wins" then some b_id
              else none,
            result := result,
            ratings_before := (old_a, old_b),
            ratings_after := (new_a, new_b),
            rating_changes := (new_a - old_a, new_b - old_b) }
        let items1 := dmodify project.items a_id
          (fun it => { it with rating := new_a })
        let items2 := dmodify items1 b_id
          (fun it => { it with rating := new_b })
        let items3 := dmodify items2 a_id (stats_update_a result new_a)
        let items4 := dmodify items3 b_id (stats_update_b result new_b)
        let project' : Project := { project with
          items := items4,
          battle_history := project.battle_history ++ [battle_record],
          total_battles_stat := project.battle_history.length + 1 }
        (some project', some battle_record)
      | _, _ => (store, none)
    | _, _ => (store, none)

/-! ## `submit_tournament_match` -/

/-- `submit_tournament_match(user_id, project_id, tournament_id, match_id,
winner_side)`.  The three inner `none` branches after `submit_battle` are
unreachable (the store stays present and the tournament structure is
untouched by `submit_battle`); they model the Python crash-on-None paths. -/
def submit_tournament_match (elo_pair : EloPair) (store : Option Project)
    (tournament_id match_id : Nat) (winner_side : String) :
    Option Project × Option BattleRecord :=
  match store with
  | none => (store, none)
  | some project =>
    match dget project.tournaments tournament_id with
    | none => (store, none)
    | some tournament =>
      if tournament.status = "completed" then (store, none)
      else
        match find_match tournament match_id with
        | none => (store, none)
        | some (m, location) =>
          let m1 :=
            if winner_side = "a" then
              { m with winner_id := m.item_a_id, loser_id := m.item_b_id }
            else
              { m with winner_id := m.item_b_id, loser_id := m.item_a_id }
          let result := if winner_side = "a" then "a_wins" else "b_wins"
          let sb := submit_battle elo_pair store m.item_a_id m.item_b_id result
          let store1 := sb.1
          let battle_record := sb.2
          let m2 :=
            match battle_record with
            | some record => { m1 with battle_id := some record.id }
            | none => m1
          match store1 with
          | none => (store1, battle_record)
          | some project2 =>
            match dget project2.tournaments tournament_id with
            | none => (store1, battle_record)
            | some tournament2 =>
              match find_match tournament2 match_id with
              | none => (store1, battle_record)
              | some (_, location2) =>
                let t3 := set_match_at tournament2 location2 (fun mr =>
                  { mr with
                    winner_id := m1.winner_id,
                    loser_id := m1.loser_id,
                    battle_id := m2.battle_id })
                let t4 := { t3 with match_count := t3.match_count + 1 }
                let t5 := advance_bracket t4 location m2
                let t6 := if is_complete t5 then complete_tournament t5 else t5
                let project3 : Project := { project2 with
                  tournaments := dset project2.tournaments tournament_id t6 }
                (some project3, battle_record)

/-! ## Location getters and update lemmas -/

/-- Out-of-range placeholder (never observed under the shape invariant). -/
def dummy_match : TMatch := create_match 999 none none

/-- The match stored at a location. -/
def mAt (t : Tournament) : Loc → TMatch
  | Loc.w r i => (t.winners_bracket.getD r []).getD i dummy_match
  | Loc.l r i => (t.losers_bracket.getD r []).getD i dummy_match
  | Loc.gf => t.grand_final.gf_match
  | Loc.reset => t.grand_final.reset_match.getD dummy_match

/-- A location denotes an actually present match. -/
def loc_ok (t : Tournament) : Loc → Prop
  | Loc.w r i =>
    r < t.winners_bracket.length ∧ i < (t.winners_bracket.getD r []).length
  | Loc.l r i =>
    r < t.losers_bracket.length ∧ i < (t.losers_bracket.getD r []).length
  | Loc.gf => True
  | Loc.reset => t.grand_final.reset_match.isSome

theorem lmodify_out {α : Type} (l : List α) (i : Nat) (f : α → α)
    (h : l.length ≤ i) : lmodify l i f = l := by
  induction l generalizing i with
  | nil => rfl
  | cons a rest ih =>
    cases i with
    | zero => simp at h
    | succ n =>
      simp only [lmodify]
      rw [ih n (by simpa using h)]

theorem upd2_getD_getD_ne (rounds : List (List TMatch)) (r i : Nat)
    (f : TMatch → TMatch) (r' i' : Nat) (h : ¬(r' = r ∧ i' = i)) :
    ((upd2 rounds r i f).getD r' []).getD i' dummy_match =
      (rounds.getD r' []).getD i' dummy_match := by
  unfold upd2
  by_cases hr : r' = r
  · subst hr
    have hi : i' ≠ i := fun hc => h ⟨rfl, hc⟩
    by_cases hb : r' < rounds.length
    · rw [lmodify_getD_eq _ _ _ _ hb, lmodify_getD_ne _ _ _ _ _ hi]
    · rw [lmodify_out _ _ _ (by omega)]
  · rw [lmodify_getD_ne _ _ _ _ _ hr]

theorem upd2_getD_getD_eq (rounds : List (List TMatch)) (r i : Nat)
    (f : TMatch → TMatch) (hr : r < rounds.length)
    (hi : i < (rounds.getD r []).length) :
    ((upd2 rounds r i f).getD r []).getD i dummy_match =
      f ((rounds.getD r []).getD i dummy_match) := by
  unfold upd2
  rw [lmodify_getD_eq _ _ _ _ hr, lmodify_getD_eq _ _ _ _ hi]

theorem mAt_set_match_at_ne (t : Tournament) (loc : Loc) (f : TMatch → TMatch)
    (loc' : Loc) (h : loc' ≠ loc) :
    mAt (set_match_at t loc f) loc' = mAt t loc' := by
  cases loc with
  | w r i =>
    cases loc' with
    | w r' i' =>
      simp only [set_match_at, mAt]
      exact upd2_getD_getD_ne _ _ _ _ _ _ (fun hc => h (by simp [hc.1, hc.2]))
    | l r' i' => rfl
    | gf => rfl
    | reset => rfl
  | l r i =>
    cases loc' with
    | w r' i' => rfl
    | l r' i' =>
      simp only [set_match_at, mAt]
      exact upd2_getD_getD_ne _ _ _ _ _ _ (fun hc => h (by simp [hc.1, hc.2]))
    | gf => rfl
    | reset => rfl
  | gf =>
    cases loc' with
    | w r' i' => rfl
    | l r' i' => rfl
    | gf => exact absurd rfl h
    | reset => rfl
  | reset =>
    cases loc' with
    | w r' i' => rfl
    | l r' i' => rfl
    | gf => rfl
    | reset => exact absurd rfl h

theorem mAt_set_match_at_eq (t : Tournament) (loc : Loc) (f : TMatch → TMatch)
    (h : loc_ok t loc) :
    mAt (set_match_at t loc f) loc = f (mAt t loc) := by
  cases loc with
  | w r i =>
    simp only [set_match_at, mAt]
    exact upd2_getD_getD_eq _ _ _ _ h.1 h.2
  | l r i =>
    simp only [set_match_at, mAt]
    exact upd2_getD_getD_eq _ _ _ _ h.1 h.2
  | gf => rfl
  | reset =>
    simp only [set_match_at, mAt]
    simp only [loc_ok] at h
    obtain ⟨rm, hrm⟩ := Option.isSome_iff_exists.mp h
    rw [hrm]
    rfl

theorem set_match_at_status (t : Tournament) (loc : Loc) (f : TMatch → TMatch) :
    (set_match_at t loc f).status = t.status := by
  cases loc <;> rfl

theorem set_match_at_winners_length (t : Tournament) (loc : Loc)
    (f : TMatch → TMatch) :
    (set_match_at t loc f).winners_bracket.map List.length =
      t.winners_bracket.map List.length := by
  cases loc with
  | w r i =>
    simp only [set_match_at, upd2]
    induction t.winners_bracket generalizing r with
    | nil => rfl
    | cons ms rest ih =>
      cases r with
      | zero => simp [lmodify, lmodify_length]
      | succ n => simp [lmodify, ih]
  | l r i => rfl
  | gf => rfl
  | reset => rfl

theorem set_match_at_losers_length (t : Tournament) (loc : Loc)
    (f : TMatch → TMatch) :
    (set_match_at t loc f).losers_bracket.map List.length =
      t.losers_bracket.map List.length := by
  cases loc with
  | w r i => rfl
  | l r i =>
    simp only [set_match_at, upd2]
    induction t.losers_bracket generalizing r with
    | nil => rfl
    | cons ms rest ih =>
      cases r with
      | zero => simp [lmodify, lmodify_length]
      | succ n => simp [lmodify, ih]
  | gf => rfl
  | reset => rfl

theorem set_match_at_reset_isSome (t : Tournament) (loc : Loc)
    (f : TMatch → TMatch) :
    (set_match_at t loc f).grand_final.reset_match.isSome =
      t.grand_final.reset_match.isSome := by
  cases loc with
  | w r i => rfl
  | l r i => rfl
  | gf => rfl
  | reset =>
    simp [set_match_at]

/-! ## Spec-side advancement tables (the routing stated by the spec) -/

inductive Side where
  | a
  | b
deriving DecidableEq

/-- Write `v` into one slot of one match. -/
def set_slot (t : Tournament) (d : Loc × Side) (v : Option String) :
    Tournament :=
  set_match_at t d.1 (fun m =>
    match d.2 with
    | Side.a => { m with item_a_id := v }
    | Side.b => { m with item_b_id := v })

/-- Spec routing: destination of the winner of WB round `r`, slot `i`:
WB round `r+1`, slot `i/2`, `item_a` if `i` even else `item_b`, for `r<3`;
the WB round-3 winner becomes grand-final `item_a`. -/
def wb_winner_dest (r i : Nat) : Loc × Side :=
  if r < 3 then
    (Loc.w (r + 1) (i / 2), if i % 2 = 0 then Side.a else Side.b)
  else (Loc.gf, Side.a)

/-- Spec routing: destination of the loser of WB round `r`, slot `i`:
r=0 → LB round 0 slot `i/2` (side by parity of `i`); r=1 → LB round 1
slot `i` as `item_b`; r=2 → LB round 3 slot `i` as `item_b`;
r=3 → LB round 5 slot 0 as `item_b`. -/
def wb_loser_dest (r i : Nat) : Loc × Side :=
  if r = 0 then
    (Loc.l 0 (i / 2), if i % 2 = 0 then Side.a else Side.b)
  else if r = 1 then (Loc.l 1 i, Side.b)
  else if r = 2 then (Loc.l 3 i, Side.b)
  else (Loc.l 5 0, Side.b)

/-- Spec routing: destination of the winner of LB round `r`, slot `i`:
r0 → LB1 slot `i` `item_a`; r1 → LB2 slot `i/2` by parity; r2 → LB3 slot
`i` `item_a`; r3 → LB4 slot `i/2` by parity; r4 → LB5 slot 0 `item_a`;
r5 → grand-final `item_b`. -/
def lb_winner_dest (r i : Nat) : Loc × Side :=
  if r = 0 then (Loc.l 1 i, Side.a)
  else if r = 1 then
    (Loc.l 2 (i / 2), if i % 2 = 0 then Side.a else Side.b)
  else if r = 2 then (Loc.l 3 i, Side.a)
  else if r = 3 then
    (Loc.l 4 (i / 2), if i % 2 = 0 then Side.a else Side.b)
  else if r = 4 then (Loc.l 5 0, Side.a)
  else (Loc.gf, Side.b)

theorem advance_winners_eq_set_slot (t : Tournament) (r i : Nat)
    (w l : Option String) (hr : r ≤ 3) :
    advance_winners_bracket t r i w l =
      set_slot (set_slot t (wb_winner_dest r i) w) (wb_loser_dest r i) l := by
  interval_cases r <;>
    rcases Nat.even_or_odd i with hi | hi
  all_goals
    first
    | (have h0 : i % 2 = 0 := Nat.even_iff.mp hi
       simp [advance_winners_bracket, wb_winner_dest, wb_loser_dest,
         set_slot, set_match_at, h0])
    | (have h1 : i % 2 = 1 := Nat.odd_iff.mp hi
       simp [advance_winners_bracket, wb_winner_dest, wb_loser_dest,
         set_slot, set_match_at, h1])

theorem advance_losers_eq_set_slot (t : Tournament) (r i : Nat)
    (w : Option String) (hr : r ≤ 5) :
    advance_losers_bracket t r i w =
      set_slot t (lb_winner_dest r i) w := by
  interval_cases r <;>
    rcases Nat.even_or_odd i with hi | hi
  all_goals
    first
    | (have h0 : i % 2 = 0 := Nat.even_iff.mp hi
       simp [advance_losers_bracket, lb_winner_dest,
         set_slot, set_match_at, h0])
    | (have h1 : i % 2 = 1 := Nat.odd_iff.mp hi
       simp [advance_losers_bracket, lb_winner_dest,
         set_slot, set_match_at, h1])

/-! ## Concrete fixtures (for witnesses and counterexamples) -/

def demo_ids : List String :=
  ["a", "b", "c", "d", "e", "f", "g", "h",
   "i", "j", "k", "l", "m", "n", "o", "p"]

def demo_items : List (String × Item) :=
  demo_ids.map (fun s => (s,
    { id := s, name := s, rating := 1000,
      wins := 0, losses := 0, ties := 0, total_battles := 0,
      rating_history := [1000] }))

def demo_project : Project :=
  { id := "proj", items := demo_items, battle_history := [],
    tournaments := [], k_factor := 32, total_battles_stat := 0 }

/-- A concrete instance of the abstract external rating update, used only
to evaluate the engine at concrete inputs (the engine is parametric in
`elo_pair`). -/
def elo0 : EloPair := fun _ a b _ => (a, b)

def junk_tournament : Tournament :=
  { id := 0, name := "", status := "", participants := [], seeding := [],
    winners_bracket := [], losers_bracket := [],
    grand_final := { gf_match := dummy_match, reset_match := none },
    champion_id := none, results := none, match_count := 0,
    total_matches := 0 }

def demo_store : Option Project :=
  (create_tournament (some demo_project) demo_ids none).1

def demo_project1 : Project :=
  ((create_tournament (some demo_project) demo_ids none).1).getD demo_project

def demo_t : Tournament :=
  ((create_tournament (some demo_project) demo_ids none).2).getD
    junk_tournament

/-! ## C2 — bracket advancement routing -/

/-- **C2.** After a winners-bracket match at round `r`, slot `i` is
submitted: for `r<3` the winner is placed in WB round `r+1`, slot `i/2`,
as `item_a` if `i` is even else `item_b`, and the WB round-3 winner
instead becomes grand-final `item_a`; the loser goes to LB round 0 slot
`i/2` (side by parity of `i`) when `r=0`, to LB round 1 slot `i` as
`item_b` when `r=1`, to LB round 3 slot `i` as `item_b` when `r=2`, and
to LB round 5 slot 0 as `item_b` when `r=3`.  After a losers-bracket
match at round `r`, slot `i`, the winner goes to LB round 1 slot `i` as
`item_a` (`r=0`), LB round 2 slot `i/2` by parity (`r=1`), LB round 3
slot `i` as `item_a` (`r=2`), LB round 4 slot `i/2` by parity (`r=3`),
LB round 5 slot 0 as `item_a` (`r=4`), and grand-final `item_b` (`r=5`).
The spec-side tables `wb_winner_dest`, `wb_loser_dest`, `lb_winner_dest`
are transcribed from these words; the code's advancement functions
coincide with them. -/
theorem c2_advancement_routing :
    (∀ (t : Tournament) (r i : Nat) (w l : Option String), r ≤ 3 →
      advance_winners_bracket t r i w l =
        set_slot (set_slot t (wb_winner_dest r i) w) (wb_loser_dest r i) l) ∧
    (∀ (t : Tournament) (r i : Nat) (w : Option String), r ≤ 5 →
      advance_losers_bracket t r i w =
        set_slot t (lb_winner_dest r i) w) :=
  ⟨fun t r i w l hr => advance_winners_eq_set_slot t r i w l hr,
   fun t r i w hr => advance_losers_eq_set_slot t r i w hr⟩

/-- Witness for C2 at a concrete input. -/
theorem c2_advancement_routing_witness :
    advance_winners_bracket demo_t 0 1 (some "x") (some "y") =
      set_slot (set_slot demo_t (wb_winner_dest 0 1) (some "x"))
        (wb_loser_dest 0 1) (some "y") ∧
    advance_losers_bracket demo_t 1 3 (some "z") =
      set_slot demo_t (lb_winner_dest 1 3) (some "z") :=
  ⟨c2_advancement_routing.1 demo_t 0 1 (some "x") (some "y") (by decide),
   c2_advancement_routing.2 demo_t 1 3 (some "z") (by decide)⟩

/-! ## C3 — total_matches and the reset match -/

/-- **C3.** `total_matches` is 30 at creation and becomes 31 if and only
if the losers-bracket champion (grand-final `item_b`) wins the
grand-final match; exactly in that case a reset match is created with
`item_a` equal to the WB champion (the grand final's `item_a`) and
`item_b` equal to the grand-final winner, while a grand final won by the
WB champion leaves `total_matches` at 30 (the update is the identity)
and creates no reset match. -/
theorem c3_total_matches_reset :
    (∀ (store store' : Option Project) (ids : List String)
        (nm : Option String) (t : Tournament),
      create_tournament store ids nm = (store', some t) →
      t.total_matches = 30) ∧
    (∀ (t : Tournament) (m : TMatch),
      t.total_matches = 30 →
      (m.winner_id = t.grand_final.gf_match.item_a_id ∨
       m.winner_id = t.grand_final.gf_match.item_b_id) →
      t.grand_final.gf_match.item_a_id ≠ t.grand_final.gf_match.item_b_id →
      (((handle_grand_final t m).total_matches = 31 ↔
          m.winner_id = t.grand_final.gf_match.item_b_id) ∧
       (m.winner_id = t.grand_final.gf_match.item_b_id →
         ∃ rm, (handle_grand_final t m).grand_final.reset_match = some rm ∧
           rm.item_a_id = t.grand_final.gf_match.item_a_id ∧
           rm.item_b_id = m.winner_id ∧ rm.winner_id = none) ∧
       (m.winner_id = t.grand_final.gf_match.item_a_id →
         handle_grand_final t m = t))) := by
  constructor
  · intro store store' ids nm t hcreate
    match store with
    | none => simp [create_tournament] at hcreate
    | some project =>
      by_cases h16 : ids.length ≠ 16
      · simp [create_tournament, h16] at hcreate
      · by_cases hmem : ids.any (fun i => (dget project.items i).isNone)
        · simp [create_tournament, h16, hmem] at hcreate
        · simp only [create_tournament, h16, hmem, if_false,
            Bool.false_eq_true, if_neg, ite_false] at hcreate
          rw [Prod.ext_iff] at hcreate
          have h2 := Option.some.inj hcreate.2
          rw [← h2]
  · intro t m h30 hwin hne
    unfold handle_grand_final
    refine ⟨?_, ?_, ?_⟩
    · constructor
      · intro h31
        by_cases hc : m.winner_id ≠ t.grand_final.gf_match.item_a_id
        · rcases hwin with h | h
          · exact absurd h hc
          · exact h
        · simp only [hc, if_neg, ite_false] at h31
          omega
      · intro hb
        have hc : m.winner_id ≠ t.grand_final.gf_match.item_a_id := by
          rw [hb]; exact fun hcontra => hne hcontra.symm
        simp [hc]
    · intro hb
      have hc : m.winner_id ≠ t.grand_final.gf_match.item_a_id := by
        rw [hb]; exact fun hcontra => hne hcontra.symm
      rw [if_pos hc]
      exact ⟨create_match 30 t.grand_final.gf_match.item_a_id m.winner_id,
        rfl, rfl, rfl, rfl⟩
    · intro ha
      simp [ha]

/-- A tournament whose grand final has both slots filled, and the match
dict of a grand final won by side b, used to instantiate C3. -/
def gf_demo_t : Tournament :=
  { demo_t with grand_final :=
      ({ gf_match :=
          { id := 29, item_a_id := some "a", item_b_id := some "p",
            winner_id := none, loser_id := none, battle_id := none },
         reset_match := none }) }

def gf_demo_m : TMatch :=
  { id := 29, item_a_id := some "a", item_b_id := some "p",
    winner_id := some "p", loser_id := some "a", battle_id := none }

/-- Witness for C3 at concrete inputs. -/
theorem c3_total_matches_reset_witness :
    demo_t.total_matches = 30 ∧
    ((handle_grand_final gf_demo_t gf_demo_m).total_matches = 31 ↔
      gf_demo_m.winner_id = gf_demo_t.grand_final.gf_match.item_b_id) :=
  ⟨c3_total_matches_reset.1 (some demo_project) demo_store demo_ids none
      demo_t (by rfl),
   (c3_total_matches_reset.2 gf_demo_t gf_demo_m (by rfl)
      (Or.inr (by rfl)) (by decide)).1⟩

/-! ## C4 — completion rule -/

/-- **C4.** `is_complete` returns false while the grand-final match is
unplayed, true when the grand-final winner equals its `item_a` (the
WB-side champion), and otherwise true only once a reset match exists and
has a winner; on the submission that first makes it true
(`submit_tournament_match` applies `complete_tournament` exactly when
`is_complete` holds), status is set to `completed` — and never reverts,
because a completed tournament rejects every further submission with the
store unchanged — `champion_id` is the reset-match winner if a reset
match was played and otherwise the grand-final winner, and `results`
records that champion as 1st and the deciding match's loser as 2nd. -/
theorem c4_completion_rule :
    (∀ t : Tournament,
      (is_complete t = true ↔
        t.grand_final.gf_match.winner_id ≠ none ∧
        (t.grand_final.gf_match.winner_id = t.grand_final.gf_match.item_a_id ∨
         ∃ rm, t.grand_final.reset_match = some rm ∧ rm.winner_id ≠ none))) ∧
    (∀ (elo : EloPair) (p : Project) (tid mid : Nat) (side : String)
        (t : Tournament),
      dget p.tournaments tid = some t → t.status = "completed" →
      submit_tournament_match elo (some p) tid mid side = (some p, none)) ∧
    (∀ (t : Tournament) (rm : TMatch),
      t.grand_final.reset_match = some rm → rm.winner_id.isSome →
      complete_tournament t =
        { t with
          status := "completed", champion_id := rm.winner_id,
          results := some (rm.winner_id, rm.loser_id) }) ∧
    (∀ t : Tournament,
      (∀ rm, t.grand_final.reset_match = some rm → rm.winner_id = none) →
      complete_tournament t =
        { t with
          status := "completed",
          champion_id := t.grand_final.gf_match.winner_id,
          results := some (t.grand_final.gf_match.winner_id,
            t.grand_final.gf_match.loser_id) }) := by
  refine ⟨?_, ?_, ?_, ?_⟩
  · intro t
    unfold is_complete
    by_cases h1 : t.grand_final.gf_match.winner_id = none
    · simp [h1]
    · by_cases h2 : t.grand_final.gf_match.winner_id =
          t.grand_final.gf_match.item_a_id
      · simp [h1, h2]
      · cases hr : t.grand_final.reset_match with
        | none => simp [h1, h2, hr]
        | some rm => simp [h1, h2, hr, Option.isSome_iff_ne_none]
  · intro elo p tid mid side t hget hst
    simp [submit_tournament_match, hget, hst]
  · intro t rm hrm hw
    simp [complete_tournament, hrm, hw]
  · intro t hrm
    cases hr : t.grand_final.reset_match with
    | none => simp [complete_tournament, hr]
    | some rm =>
      have hw := hrm rm hr
      simp [complete_tournament, hr, hw]

/-- A completed demo tournament and the matching store. -/
def done_t : Tournament := { demo_t with status := "completed" }

def done_project : Project :=
  { demo_project with tournaments := [(0, done_t)] }

/-- A tournament whose reset match has been played. -/
def reset_demo_m : TMatch :=
  { id := 30, item_a_id := some "a", item_b_id := some "p",
    winner_id := some "p", loser_id := some "a", battle_id := none }

def reset_demo_t : Tournament :=
  { demo_t with grand_final :=
      ({ gf_match := gf_demo_m, reset_match := some reset_demo_m }) }

/-- A tournament whose grand final was won by the WB champion. -/
def gfwin_demo_t : Tournament :=
  { demo_t with grand_final :=
      ({ gf_match :=
          { id := 29, item_a_id := some "a", item_b_id := some "p",
            winner_id := some "a", loser_id := some "p", battle_id := none },
         reset_match := none }) }

/-- Witness for C4 at concrete inputs. -/
theorem c4_completion_rule_witness :
    (is_complete gfwin_demo_t = true ↔
      gfwin_demo_t.grand_final.gf_match.winner_id ≠ none ∧
      (gfwin_demo_t.grand_final.gf_match.winner_id =
          gfwin_demo_t.grand_final.gf_match.item_a_id ∨
       ∃ rm, gfwin_demo_t.grand_final.reset_match = some rm ∧
         rm.winner_id ≠ none)) ∧
    submit_tournament_match elo0 (some done_project) 0 0 "a" =
      (some done_project, none) ∧
    complete_tournament reset_demo_t =
      { reset_demo_t with
        status := "completed",
        champion_id := reset_demo_m.winner_id,
        results := some (reset_demo_m.winner_id, reset_demo_m.loser_id) } ∧
    complete_tournament gfwin_demo_t =
      { gfwin_demo_t with
        status := "completed",
        champion_id := gfwin_demo_t.grand_final.gf_match.winner_id,
        results := some (gfwin_demo_t.grand_final.gf_match.winner_id,
          gfwin_demo_t.grand_final.gf_match.loser_id) } :=
  ⟨c4_completion_rule.1 gfwin_demo_t,
   c4_completion_rule.2.1 elo0 done_project 0 0 "a" done_t (by rfl) (by rfl),
   c4_completion_rule.2.2.1 reset_demo_t reset_demo_m (by rfl) (by rfl),
   c4_completion_rule.2.2.2 gfwin_demo_t
     (fun rm h => by simp [gfwin_demo_t] at h)⟩

/-! ## C6 — seeding and initial bracket -/

theorem insert_desc_perm (x : String × Int) (s : List (String × Int)) :
    (insert_desc x s).Perm (x :: s) := by
  induction s with
  | nil => rfl
  | cons y ys ih =>
    unfold insert_desc
    by_cases h : x.2 < y.2
    · rw [if_pos h]
      exact (ih.cons y).trans (List.Perm.swap x y ys)
    · rw [if_neg h]

theorem sort_desc_perm (l : List (String × Int)) : (sort_desc l).Perm l := by
  induction l with
  | nil => rfl
  | cons x xs ih =>
    exact (insert_desc_perm x (sort_desc xs)).trans (ih.cons x)

theorem mem_insert_desc {z x : String × Int} {s : List (String × Int)} :
    z ∈ insert_desc x s ↔ z = x ∨ z ∈ s := by
  rw [(insert_desc_perm x s).mem_iff]
  simp

theorem insert_desc_sorted (x : String × Int) (s : List (String × Int))
    (h : s.Pairwise (fun u v : String × Int => v.2 ≤ u.2)) :
    (insert_desc x s).Pairwise (fun u v : String × Int => v.2 ≤ u.2) := by
  induction s with
  | nil => simp [insert_desc]
  | cons y ys ih =>
    rw [List.pairwise_cons] at h
    unfold insert_desc
    by_cases hxy : x.2 < y.2
    · rw [if_pos hxy]
      rw [List.pairwise_cons]
      refine ⟨?_, ih h.2⟩
      intro z hz
      rcases mem_insert_desc.mp hz with hz | hz
      · rw [hz]; omega
      · exact h.1 z hz
    · rw [if_neg hxy]
      rw [List.pairwise_cons]
      refine ⟨?_, List.pairwise_cons.mpr h⟩
      intro z hz
      rcases List.mem_cons.mp hz with hz | hz
      · rw [hz]; omega
      · have := h.1 z hz
        omega

theorem sort_desc_sorted (l : List (String × Int)) :
    (sort_desc l).Pairwise (fun u v : String × Int => v.2 ≤ u.2) := by
  induction l with
  | nil => exact List.Pairwise.nil
  | cons x xs ih => exact insert_desc_sorted x (sort_desc xs) ih

theorem filter_insert_desc_eq (x : String × Int) (s : List (String × Int)) :
    (insert_desc x s).filter (fun z => z.2 = x.2) =
      x :: s.filter (fun z => z.2 = x.2) := by
  induction s with
  | nil => simp [insert_desc]
  | cons y ys ih =>
    unfold insert_desc
    by_cases hxy : x.2 < y.2
    · rw [if_pos hxy]
      have hy : ¬(y.2 = x.2) := by omega
      simp only [List.filter_cons, hy, decide_eq_true_eq, if_neg,
        Bool.false_eq_true, ite_false, decide_eq_false_iff_not]
      exact ih
    · rw [if_neg hxy]
      simp [List.filter_cons]

theorem filter_insert_desc_ne (x : String × Int) (s : List (String × Int))
    (c : Int) (h : ¬(x.2 = c)) :
    (insert_desc x s).filter (fun z => z.2 = c) =
      s.filter (fun z => z.2 = c) := by
  induction s with
  | nil => simp [insert_desc, h]
  | cons y ys ih =>
    unfold insert_desc
    by_cases hxy : x.2 < y.2
    · rw [if_pos hxy]
      simp only [List.filter_cons]
      rw [ih]
    · rw [if_neg hxy]
      simp [List.filter_cons, h]

theorem filter_sort_desc (l : List (String × Int)) (c : Int) :
    (sort_desc l).filter (fun z => z.2 = c) =
      l.filter (fun z => z.2 = c) := by
  induction l with
  | nil => rfl
  | cons x xs ih =>
    show (insert_desc x (sort_desc xs)).filter (fun z => z.2 = c) = _
    by_cases hx : x.2 = c
    · have := filter_insert_desc_eq x (sort_desc xs)
      rw [hx] at this
      rw [this, ih]
      simp [List.filter_cons, hx]
    · rw [filter_insert_desc_ne x (sort_desc xs) c hx, ih]
      simp [List.filter_cons, hx]

/-- Stability of the seeding sort: a pair appearing in input order with
equal ratings appears in the same order in the output. -/
theorem sort_desc_stable_pair {u v : String × Int} {l : List (String × Int)}
    (hsub : [u, v].Sublist l) (heq : v.2 = u.2) :
    [u, v].Sublist (sort_desc l) := by
  have h1 : [u, v].Sublist (l.filter (fun z => z.2 = u.2)) := by
    have h2 : ([u, v].filter (fun z => z.2 = u.2)).Sublist
        (l.filter (fun z => z.2 = u.2)) := hsub.filter _
    simpa [List.filter_cons, heq] using h2
  rw [← filter_sort_desc l u.2] at h1
  exact h1.trans (List.filter_sublist _)

theorem map_fst_map_pair (p : Project) (l : List String) :
    List.map (fun x : String × Int => x.1)
      (List.map (fun i => (i, rating_of p i)) l) = l := by
  induction l with
  | nil => rfl
  | cons x xs ih => simpa using ih

theorem getD_slots_none (ms : List TMatch) (i : Nat)
    (h : ∀ m ∈ ms, m.item_a_id = none ∧ m.item_b_id = none) :
    (ms.getD i dummy_match).item_a_id = none ∧
      (ms.getD i dummy_match).item_b_id = none := by
  rw [List.getD_eq_getElem?_getD]
  cases hm : ms[i]? with
  | none => exact ⟨rfl, rfl⟩
  | some m =>
    have hmem : m ∈ ms := List.getElem?_mem hm
    simpa using h m hmem

/-- **C6.** In a tournament returned by `create_tournament`, `seeding` is
the permutation of the 16 participants sorted by current rating
descending with ties preserving input order (stable sort),
winners-bracket round 1 match `j` pairs `seeding[a]` versus `seeding[b]`
for the `j`-th entry `(a,b)` of the fixed 0-indexed seed table
`(0,15),(7,8),(4,11),(3,12),(5,10),(2,13),(6,9),(1,14)`, and every other
match in both brackets and the grand final is created with both slots
null.  Stability is stated as: any two participants with equal ratings
appear in `seeding` in their input order. -/
theorem c6_seeding :
    ∀ (p : Project) (ids : List String) (nm : Option String)
      (store' : Option Project) (t : Tournament),
      create_tournament (some p) ids nm = (store', some t) →
      t.seeding.Perm ids ∧
      t.seeding.Pairwise (fun x y => rating_of p y ≤ rating_of p x) ∧
      (∀ a b : String, [a, b].Sublist ids →
        rating_of p a = rating_of p b → [a, b].Sublist t.seeding) ∧
      (∀ j, j < 8 →
        (mAt t (Loc.w 0 j)).item_a_id =
          some (t.seeding.getD (SEED_MATCHUPS.getD j (0, 0)).1 "") ∧
        (mAt t (Loc.w 0 j)).item_b_id =
          some (t.seeding.getD (SEED_MATCHUPS.getD j (0, 0)).2 "")) ∧
      (∀ r i, 1 ≤ r → (mAt t (Loc.w r i)).item_a_id = none ∧
        (mAt t (Loc.w r i)).item_b_id = none) ∧
      (∀ r i, (mAt t (Loc.l r i)).item_a_id = none ∧
        (mAt t (Loc.l r i)).item_b_id = none) ∧
      (mAt t Loc.gf).item_a_id = none ∧ (mAt t Loc.gf).item_b_id = none := by
  intro p ids nm store' t hcreate
  by_cases h16 : ids.length ≠ 16
  · simp [create_tournament, h16] at hcreate
  · by_cases hmem : ids.any (fun i => (dget p.items i).isNone)
    · simp [create_tournament, h16, hmem] at hcreate
    · simp only [create_tournament, h16, hmem, Bool.false_eq_true,
        if_false, ite_false, if_neg] at hcreate
      rw [Prod.ext_iff] at hcreate
      have ht := Option.some.inj hcreate.2
      subst ht
      set f : String → String × Int := fun i => (i, rating_of p i) with hf
      have hid := map_fst_map_pair p ids
      rw [← hf] at hid
      constructor
      · -- permutation
        have hperm := (sort_desc_perm (ids.map f)).map
          (fun x : String × Int => x.1)
        exact hperm.trans (List.Perm.of_eq hid)
      constructor
      · -- sorted descending
        have hs := sort_desc_sorted (ids.map f)
        have hs' : (sort_desc (ids.map f)).Pairwise
            (fun x y : String × Int => rating_of p y.1 ≤ rating_of p x.1) := by
          refine hs.imp_of_mem ?_
          intro a b ha hb hab
          have ha' : a ∈ ids.map f := (sort_desc_perm _).subset ha
          have hb' : b ∈ ids.map f := (sort_desc_perm _).subset hb
          rw [hf] at ha' hb'
          obtain ⟨ia, -, hia⟩ := List.mem_map.mp ha'
          obtain ⟨ib, -, hib⟩ := List.mem_map.mp hb'
          cases hia
          cases hib
          simpa using hab
        rw [List.pairwise_map]
        exact hs'
      constructor
      · -- stability
        intro a b hsub heq
        have h1 : [f a, f b].Sublist (ids.map f) := by
          simpa using hsub.map f
        have h2 := sort_desc_stable_pair h1 (by simp [hf, heq])
        have h3 := h2.map (fun x : String × Int => x.1)
        simpa using h3
      constructor
      · -- WB round 1 pairing
        intro j hj
        interval_cases j <;> exact ⟨rfl, rfl⟩
      constructor
      · -- other WB rounds empty
        intro r i hr
        match r, hr with
        | 1, _ =>
          simp only [mAt, List.getD_cons_zero, List.getD_cons_succ]
          refine getD_slots_none _ _ ?_
          intro m hm
          simp only [List.mem_map, List.mem_range] at hm
          obtain ⟨j, -, hj⟩ := hm
          rw [← hj]
          exact ⟨rfl, rfl⟩
        | 2, _ =>
          simp only [mAt, List.getD_cons_zero, List.getD_cons_succ]
          refine getD_slots_none _ _ ?_
          intro m hm
          simp only [List.mem_map, List.mem_range] at hm
          obtain ⟨j, -, hj⟩ := hm
          rw [← hj]
          exact ⟨rfl, rfl⟩
        | 3, _ =>
          simp only [mAt, List.getD_cons_zero, List.getD_cons_succ]
          refine getD_slots_none _ _ ?_
          intro m hm
          simp only [List.mem_singleton] at hm
          rw [hm]
          exact ⟨rfl, rfl⟩
        | (n + 4), _ =>
          simp only [mAt, List.getD_cons_succ, List.getD_nil]
          exact ⟨rfl, rfl⟩
      constructor
      · -- losers bracket empty
        intro r i
        match r with
        | 0 | 1 | 2 | 3 =>
          simp only [mAt, List.getD_cons_zero, List.getD_cons_succ]
          refine getD_slots_none _ _ ?_
          intro m hm
          simp only [List.mem_map, List.mem_range] at hm
          obtain ⟨j, -, hj⟩ := hm
          rw [← hj]
          exact ⟨rfl, rfl⟩
        | 4 | 5 =>
          simp only [mAt, List.getD_cons_zero, List.getD_cons_succ]
          refine getD_slots_none _ _ ?_
          intro m hm
          simp only [List.mem_singleton] at hm
          rw [hm]
          exact ⟨rfl, rfl⟩
        | (n + 6) =>
          simp only [mAt, List.getD_cons_succ, List.getD_nil]
          exact ⟨rfl, rfl⟩
      · -- grand final empty
        exact ⟨rfl, rfl⟩

/-- Witness for C6 at the concrete demo creation. -/
theorem c6_seeding_witness :
    demo_t.seeding.Perm demo_ids ∧
    demo_t.seeding.Pairwise
      (fun x y => rating_of demo_project y ≤ rating_of demo_project x) :=
  ⟨(c6_seeding demo_project demo_ids none demo_store demo_t (by rfl)).1,
   (c6_seeding demo_project demo_ids none demo_store demo_t (by rfl)).2.1⟩

/-! ## C7 — creation validation -/

/-- **C7 (amended).** `create_tournament` returns none, with no project or
tournament state mutated, exactly when the store is absent, the
participant count differs from 16, or some id is unknown to the project;
a successful creation records the input list as `participants` (16 ids,
all known).  Duplicate ids are **not** rejected (see
`c7_duplicates_counterexample`), so participants need not be distinct. -/
theorem c7_validation :
    (∀ (ids : List String) (nm : Option String),
      create_tournament none ids nm = (none, none)) ∧
    (∀ (p : Project) (ids : List String) (nm : Option String),
      ((create_tournament (some p) ids nm).2 = none ↔
        ids.length ≠ 16 ∨ ∃ i ∈ ids, dget p.items i = none) ∧
      ((create_tournament (some p) ids nm).2 = none →
        (create_tournament (some p) ids nm).1 = some p) ∧
      (∀ t, (create_tournament (some p) ids nm).2 = some t →
        t.participants = ids ∧ ids.length = 16 ∧
        ∀ i ∈ ids, (dget p.items i).isSome)) := by
  constructor
  · intro ids nm
    rfl
  · intro p ids nm
    by_cases h16 : ids.length ≠ 16
    · refine ⟨⟨fun _ => Or.inl h16, fun _ => ?_⟩, fun _ => ?_, fun t ht => ?_⟩
      · simp [create_tournament, h16]
      · simp [create_tournament, h16]
      · simp [create_tournament, h16] at ht
    · by_cases hmem : ids.any (fun i => (dget p.items i).isNone)
      · have hex : ∃ i ∈ ids, dget p.items i = none := by
          obtain ⟨i, hi, hnone⟩ := List.any_eq_true.mp hmem
          exact ⟨i, hi, Option.isNone_iff_eq_none.mp hnone⟩
        refine ⟨⟨fun _ => Or.inr hex, fun _ => ?_⟩, fun _ => ?_, fun t ht => ?_⟩
        · simp [create_tournament, h16, hmem]
        · simp [create_tournament, h16, hmem]
        · simp [create_tournament, h16, hmem] at ht
      · have hall : ∀ i ∈ ids, (dget p.items i).isSome := by
          intro i hi
          by_contra hc
          exact hmem (List.any_eq_true.mpr
            ⟨i, hi, by simpa [Option.isNone_iff_eq_none,
              Option.not_isSome_iff_eq_none] using hc⟩)
        have hsome : (create_tournament (some p) ids nm).2 ≠ none := by
          simp only [create_tournament, h16, hmem, Bool.false_eq_true,
            if_false, ite_false, if_neg]
          exact fun hc => by cases hc
        refine ⟨⟨fun hc => absurd hc hsome, fun hor => ?_⟩,
          fun hc => absurd hc hsome, fun t ht => ?_⟩
        · rcases hor with h | ⟨i, hi, hnone⟩
          · exact absurd h h16
          · have := hall i hi
            rw [hnone] at this
            cases this
        · refine ⟨?_, by omega, hall⟩
          simp only [create_tournament, h16, hmem, Bool.false_eq_true,
            if_false, ite_false, if_neg] at ht
          have := Option.some.inj ht
          rw [← this]

/-- Witness for C7 at concrete inputs. -/
theorem c7_validation_witness :
    (create_tournament (some demo_project) ["a"] none).2 = none ∧
    (create_tournament (some demo_project) ["a"] none).1 =
      some demo_project ∧
    demo_t.participants = demo_ids :=
  ⟨(c7_validation.2 demo_project ["a"] none).1.mpr (Or.inl (by decide)),
   (c7_validation.2 demo_project ["a"] none).2.1
     ((c7_validation.2 demo_project ["a"] none).1.mpr (Or.inl (by decide))),
   ((c7_validation.2 demo_project demo_ids none).2.2 demo_t (by rfl)).1⟩

def dup_ids : List String := List.replicate 16 "a"

def dup_t : Tournament :=
  ((create_tournament (some demo_project) dup_ids none).2).getD
    junk_tournament

/-- **C7 counterexample.** A list of 16 copies of one known id is
accepted by `create_tournament` (duplicates are not rejected), producing
a tournament whose participants are not distinct — refuting the claim
that every created tournament has 16 distinct participant ids. -/
theorem c7_duplicates_counterexample :
    (create_tournament (some demo_project) dup_ids none).2 = some dup_t ∧
    ¬ dup_t.participants.Nodup :=
  ⟨rfl, by decide⟩

/-! ## C8 — winner_side is not validated by the engine -/

/-- **C8 (amended).** `submit_tournament_match` performs no validation of
`winner_side`: any value other than `"a"` is treated exactly like `"b"`
(the `else` branch records `item_b` as winner and mutates state
normally).  Rejection of malformed winner-side values happens only in the
API route layer, before this method is called. -/
theorem c8_winner_side_not_validated :
    ∀ (elo_pair : EloPair) (store : Option Project) (tid mid : Nat)
      (side : String), side ≠ "a" →
      submit_tournament_match elo_pair store tid mid side =
        submit_tournament_match elo_pair store tid mid "b" := by
  intro elo_pair store tid mid side hs
  unfold submit_tournament_match
  simp only [hs, ite_false, if_neg,
    (by decide : ¬("b" : String) = "a"), if_false]

/-- Witness for C8 (amended) at a concrete input. -/
theorem c8_winner_side_not_validated_witness :
    submit_tournament_match elo0 demo_store 0 0 "x" =
      submit_tournament_match elo0 demo_store 0 0 "b" :=
  c8_winner_side_not_validated elo0 demo_store 0 0 "x" (by decide)

/-- **C8 counterexample.** Submitting winner_side `"x"` on a fresh demo
tournament is *not* rejected: a battle record is produced, the ELO
update is applied (battle history grows), and the match is decided with
`item_b` (`"p"`) recorded as winner — refuting the claim that a
malformed winner-side value is rejected with no state mutated. -/
theorem c8_counterexample :
    (submit_tournament_match elo0 demo_store 0 0 "x").2.isSome = true ∧
    ((submit_tournament_match elo0 demo_store 0 0 "x").1.bind
        (fun p => dget p.tournaments 0)).map
      (fun t => (mAt t (Loc.w 0 0)).winner_id) = some (some "p") ∧
    ((submit_tournament_match elo0 demo_store 0 0 "x").1.map
        (fun p => p.battle_history.length)) = some 1 :=
  ⟨by decide, by decide, by decide⟩

/-! ## The tournament-level effect of a submission, and the bridge to
`submit_tournament_match` -/

/-- What `submit_tournament_match` does to the stored tournament once the
battle submission has returned (`bid` = the battle record id, if any):
write winner/loser/battle id onto the addressed match, bump
`match_count`, advance the bracket, and freeze completion.
`submit_unfold` proves that `submit_tournament_match` performs exactly
this update. -/
def apply_result (t : Tournament) (match_id : Nat) (winner_side : String)
    (bid : Option Nat) : Tournament :=
  match find_match t match_id with
  | none => t
  | some (m, location) =>
    let m1 :=
      if winner_side = "a" then
        { m with winner_id := m.item_a_id, loser_id := m.item_b_id }
      else
        { m with winner_id := m.item_b_id, loser_id := m.item_a_id }
    let m2 :=
      match bid with
      | some b => { m1 with battle_id := some b }
      | none => m1
    let t3 := set_match_at t location (fun mr =>
      { mr with
        winner_id := m1.winner_id,
        loser_id := m1.loser_id,
        battle_id := m2.battle_id })
    let t4 := { t3 with match_count := t3.match_count + 1 }
    let t5 := advance_bracket t4 location m2
    if is_complete t5 then complete_tournament t5 else t5

theorem find_in_round_spec (ms : List TMatch) (mid : Nat) :
    ∀ (i : Nat) (m : TMatch) (j : Nat),
      find_in_round ms mid i = some (m, j) →
      i ≤ j ∧ j - i < ms.length ∧ ms.getD (j - i) dummy_match = m := by
  induction ms with
  | nil => intro i m j h; simp [find_in_round] at h
  | cons a rest ih =>
    intro i m j h
    unfold find_in_round at h
    by_cases ha : a.id = mid
    · rw [if_pos ha] at h
      obtain ⟨hm, hj⟩ := Prod.mk.inj (Option.some.inj h)
      subst hm
      subst hj
      exact ⟨le_refl _, by simp, by simp⟩
    · rw [if_neg ha] at h
      obtain ⟨h1, h2, h3⟩ := ih (i + 1) m j h
      refine ⟨by omega, by simp only [List.length_cons]; omega, ?_⟩
      have hji : j - i = (j - (i + 1)) + 1 := by omega
      rw [hji]
      simpa using h3

theorem find_in_rounds_spec (rounds : List (List TMatch)) (mid : Nat) :
    ∀ (r0 : Nat) (m : TMatch) (r i : Nat),
      find_in_rounds rounds mid r0 = some (m, r, i) →
      r0 ≤ r ∧ r - r0 < rounds.length ∧
      i < (rounds.getD (r - r0) []).length ∧
      (rounds.getD (r - r0) []).getD i dummy_match = m := by
  induction rounds with
  | nil => intro r0 m r i h; simp [find_in_rounds] at h
  | cons ms rest ih =>
    intro r0 m r i h
    unfold find_in_rounds at h
    cases hf : find_in_round ms mid 0 with
    | some mi =>
      rw [hf] at h
      obtain ⟨m', i'⟩ := mi
      simp only at h
      have h1 := Option.some.inj h
      rw [Prod.ext_iff] at h1
      obtain ⟨hm, hri⟩ := h1
      rw [Prod.ext_iff] at hri
      obtain ⟨hr, hi⟩ := hri
      simp only at hm hr hi
      subst hm
      subst hr
      subst hi
      obtain ⟨-, h2, h3⟩ := find_in_round_spec ms mid 0 m' i' hf
      simp only [Nat.sub_self, List.getD_cons_zero]
      simp only [Nat.sub_zero] at h2 h3
      exact ⟨le_refl _, by simp, h2, h3⟩
    | none =>
      rw [hf] at h
      obtain ⟨h1, h2, h3, h4⟩ := ih (r0 + 1) m r i h
      have hrr : r - r0 = (r - (r0 + 1)) + 1 := by omega
      refine ⟨by omega, ?_, ?_, ?_⟩
      · simp only [List.length_cons]; omega
      · rw [hrr]; simpa using h3
      · rw [hrr]; simpa using h4

theorem find_match_spec (t : Tournament) (mid : Nat) (m : TMatch)
    (loc : Loc) (h : find_match t mid = some (m, loc)) :
    loc_ok t loc ∧ mAt t loc = m := by
  unfold find_match at h
  split at h
  · rename_i m' r' i' hw
    obtain ⟨hm, hloc⟩ := Prod.mk.inj (Option.some.inj h)
    subst hloc
    subst hm
    obtain ⟨-, h2, h3, h4⟩ := find_in_rounds_spec _ mid 0 m' r' i' hw
    simp only [Nat.sub_zero] at h2 h3 h4
    exact ⟨⟨h2, h3⟩, h4⟩
  · rename_i hw
    split at h
    · rename_i m' r' i' hl
      obtain ⟨hm, hloc⟩ := Prod.mk.inj (Option.some.inj h)
      subst hloc
      subst hm
      obtain ⟨-, h2, h3, h4⟩ := find_in_rounds_spec _ mid 0 m' r' i' hl
      simp only [Nat.sub_zero] at h2 h3 h4
      exact ⟨⟨h2, h3⟩, h4⟩
    · rename_i hl
      split at h
      · rename_i hgf
        obtain ⟨hm, hloc⟩ := Prod.mk.inj (Option.some.inj h)
        subst hloc
        exact ⟨trivial, hm⟩
      · rename_i hgf
        split at h
        · rename_i reset hr
          split at h
          · rename_i hrid
            obtain ⟨hm, hloc⟩ := Prod.mk.inj (Option.some.inj h)
            subst hloc
            refine ⟨by simp [loc_ok, hr], ?_⟩
            rw [← hm]
            simp [mAt, hr]
          · cases h
        · cases h

/-! Field-preservation lemmas for the submission pipeline. -/

theorem set_match_at_match_count (t : Tournament) (loc : Loc)
    (f : TMatch → TMatch) :
    (set_match_at t loc f).match_count = t.match_count := by
  cases loc <;> rfl

theorem handle_grand_final_gf_match (t : Tournament) (m : TMatch) :
    (handle_grand_final t m).grand_final.gf_match =
      t.grand_final.gf_match := by
  by_cases hc : m.winner_id ≠ t.grand_final.gf_match.item_a_id <;>
    simp [handle_grand_final, hc]

theorem handle_grand_final_match_count (t : Tournament) (m : TMatch) :
    (handle_grand_final t m).match_count = t.match_count := by
  by_cases hc : m.winner_id ≠ t.grand_final.gf_match.item_a_id <;>
    simp [handle_grand_final, hc]

theorem handle_grand_final_winners (t : Tournament) (m : TMatch) :
    (handle_grand_final t m).winners_bracket = t.winners_bracket := by
  by_cases hc : m.winner_id ≠ t.grand_final.gf_match.item_a_id <;>
    simp [handle_grand_final, hc]

theorem handle_grand_final_losers (t : Tournament) (m : TMatch) :
    (handle_grand_final t m).losers_bracket = t.losers_bracket := by
  by_cases hc : m.winner_id ≠ t.grand_final.gf_match.item_a_id <;>
    simp [handle_grand_final, hc]

theorem handle_grand_final_status (t : Tournament) (m : TMatch) :
    (handle_grand_final t m).status = t.status := by
  by_cases hc : m.winner_id ≠ t.grand_final.gf_match.item_a_id <;>
    simp [handle_grand_final, hc]

theorem advance_winners_eq_hi (t : Tournament) (r i : Nat)
    (w l : Option String) (hr : 4 ≤ r) :
    advance_winners_bracket t r i w l = set_slot t (Loc.gf, Side.a) w := by
  unfold advance_winners_bracket
  rw [if_neg (by omega), if_neg (by omega), if_neg (by omega),
    if_neg (by omega), if_neg (by omega)]
  rfl

theorem advance_losers_eq_hi (t : Tournament) (r i : Nat)
    (w : Option String) (hr : 6 ≤ r) :
    advance_losers_bracket t r i w = t := by
  unfold advance_losers_bracket
  rw [if_neg (by omega), if_neg (by omega), if_neg (by omega),
    if_neg (by omega), if_neg (by omega), if_neg (by omega)]

theorem wb_winner_dest_ne_w (r i : Nat) :
    (wb_winner_dest r i).1 ≠ Loc.w r i := by
  unfold wb_winner_dest
  split
  · show Loc.w (r + 1) (i / 2) ≠ Loc.w r i
    simp only [ne_eq, Loc.w.injEq, not_and]
    intro hc
    omega
  · show Loc.gf ≠ Loc.w r i
    simp

theorem wb_loser_dest_ne_w (r i : Nat) :
    (wb_loser_dest r i).1 ≠ Loc.w r i := by
  unfold wb_loser_dest
  split_ifs <;> simp

theorem lb_winner_dest_ne_l (r i : Nat) :
    (lb_winner_dest r i).1 ≠ Loc.l r i := by
  match r with
  | 0 => simp [lb_winner_dest]
  | 1 => simp [lb_winner_dest]
  | 2 => simp [lb_winner_dest]
  | 3 => simp [lb_winner_dest]
  | 4 => simp [lb_winner_dest]
  | n + 5 =>
    unfold lb_winner_dest
    rw [if_neg (by omega), if_neg (by omega), if_neg (by omega),
      if_neg (by omega), if_neg (by omega)]
    by_cases hn : n = 0
    · subst hn
      simp
    · simp

theorem mAt_set_slot_ne (t : Tournament) (d : Loc × Side) (v : Option String)
    (loc : Loc) (h : loc ≠ d.1) :
    mAt (set_slot t d v) loc = mAt t loc :=
  mAt_set_match_at_ne t d.1 _ loc h

theorem advance_bracket_mAt_source (t : Tournament) (loc : Loc)
    (m : TMatch) :
    mAt (advance_bracket t loc m) loc = mAt t loc := by
  cases loc with
  | w r i =>
    show mAt (advance_winners_bracket t r i m.winner_id m.loser_id) _ = _
    by_cases hr : r ≤ 3
    · rw [advance_winners_eq_set_slot t r i _ _ hr]
      rw [mAt_set_slot_ne _ _ _ _ (Ne.symm (wb_loser_dest_ne_w r i))]
      rw [mAt_set_slot_ne _ _ _ _ (Ne.symm (wb_winner_dest_ne_w r i))]
    · rw [advance_winners_eq_hi t r i _ _ (by omega)]
      exact mAt_set_slot_ne _ _ _ _ (by simp)
  | l r i =>
    show mAt (advance_losers_bracket t r i m.winner_id) _ = _
    by_cases hr : r ≤ 5
    · rw [advance_losers_eq_set_slot t r i _ hr]
      exact mAt_set_slot_ne _ _ _ _ (Ne.symm (lb_winner_dest_ne_l r i))
    · rw [advance_losers_eq_hi t r i _ (by omega)]
  | gf =>
    show mAt (handle_grand_final t m) Loc.gf = _
    show (handle_grand_final t m).grand_final.gf_match = _
    exact handle_grand_final_gf_match t m
  | reset => rfl

theorem advance_bracket_match_count (t : Tournament) (loc : Loc)
    (m : TMatch) :
    (advance_bracket t loc m).match_count = t.match_count := by
  cases loc with
  | w r i =>
    show (advance_winners_bracket t r i m.winner_id m.loser_id).match_count = _
    by_cases hr : r ≤ 3
    · rw [advance_winners_eq_set_slot t r i _ _ hr]
      rw [set_slot, set_match_at_match_count, set_slot,
        set_match_at_match_count]
    · rw [advance_winners_eq_hi t r i _ _ (by omega)]
      rw [set_slot, set_match_at_match_count]
  | l r i =>
    show (advance_losers_bracket t r i m.winner_id).match_count = _
    by_cases hr : r ≤ 5
    · rw [advance_losers_eq_set_slot t r i _ hr]
      rw [set_slot, set_match_at_match_count]
    · rw [advance_losers_eq_hi t r i _ (by omega)]
  | gf => exact handle_grand_final_match_count t m
  | reset => rfl

theorem complete_tournament_mAt (t : Tournament) (loc : Loc) :
    mAt (complete_tournament t) loc = mAt t loc := by
  cases hr : t.grand_final.reset_match with
  | none => cases loc <;> simp [complete_tournament, hr, mAt]
  | some rm =>
    by_cases hw : rm.winner_id.isSome <;> cases loc <;>
      simp [complete_tournament, hr, hw, mAt]

theorem complete_tournament_match_count (t : Tournament) :
    (complete_tournament t).match_count = t.match_count := by
  cases hr : t.grand_final.reset_match with
  | none => simp [complete_tournament, hr]
  | some rm =>
    by_cases hw : rm.winner_id.isSome <;>
      simp [complete_tournament, hr, hw]

theorem complete_tournament_status (t : Tournament) :
    (complete_tournament t).status = "completed" := by
  cases hr : t.grand_final.reset_match with
  | none => simp [complete_tournament, hr]
  | some rm =>
    by_cases hw : rm.winner_id.isSome <;>
      simp [complete_tournament, hr, hw]

/-! `submit_battle` facts. -/

theorem submit_battle_fail (elo_pair : EloPair) (p : Project)
    (x y : Option String) (r : String)
    (h : x.bind (dget p.items) = none ∨ y.bind (dget p.items) = none) :
    submit_battle elo_pair (some p) x y r = (some p, none) := by
  unfold submit_battle
  match x, y with
  | none, none => rfl
  | none, some b => rfl
  | some a, none => rfl
  | some a, some b =>
    simp only [Option.some_bind] at h
    cases ha : dget p.items a with
    | none => simp [ha]
    | some ia =>
      cases hb : dget p.items b with
      | none => simp [ha, hb]
      | some ib =>
        rw [ha, hb] at h
        rcases h with h | h <;> cases h

theorem submit_battle_shape (elo_pair : EloPair) (p : Project)
    (x y : Option String) (r : String) :
    ∃ p2, (submit_battle elo_pair (some p) x y r).1 = some p2 ∧
      p2.tournaments = p.tournaments := by
  unfold submit_battle
  match x, y with
  | none, none => exact ⟨p, rfl, rfl⟩
  | none, some b => exact ⟨p, rfl, rfl⟩
  | some a, none => exact ⟨p, rfl, rfl⟩
  | some a, some b =>
    cases ha : dget p.items a with
    | none => exact ⟨p, by simp [ha], rfl⟩
    | some ia =>
      cases hb : dget p.items b with
      | none => exact ⟨p, by simp [ha, hb], rfl⟩
      | some ib =>
        simp only [ha, hb]
        exact ⟨_, rfl, rfl⟩

/-- The bridge: under a present store, a found tournament that is not
completed, and a found match, `submit_tournament_match` submits the
battle and then updates the stored tournament by exactly
`apply_result`. -/
theorem submit_unfold (elo_pair : EloPair) (p : Project) (tid mid : Nat)
    (side : String) (t : Tournament) (m : TMatch) (loc : Loc)
    (hget : dget p.tournaments tid = some t)
    (hst : ¬ t.status = "completed")
    (hfind : find_match t mid = some (m, loc)) :
    ∃ p2 br,
      submit_battle elo_pair (some p) m.item_a_id m.item_b_id
        (if side = "a" then "a_wins" else "b_wins") = (some p2, br) ∧
      p2.tournaments = p.tournaments ∧
      submit_tournament_match elo_pair (some p) tid mid side =
        (some { p2 with tournaments :=
            (dset p2.tournaments tid
              (apply_result t mid side (br.map (·.id)))) }, br) := by
  obtain ⟨p2, hp2, htours⟩ := submit_battle_shape elo_pair p
    m.item_a_id m.item_b_id (if side = "a" then "a_wins" else "b_wins")
  set br := (submit_battle elo_pair (some p) m.item_a_id m.item_b_id
    (if side = "a" then "a_wins" else "b_wins")).2 with hbr
  have hsb : submit_battle elo_pair (some p) m.item_a_id m.item_b_id
      (if side = "a" then "a_wins" else "b_wins") = (some p2, br) := by
    rw [Prod.ext_iff]
    exact ⟨hp2, rfl⟩
  refine ⟨p2, br, hsb, htours, ?_⟩
  simp only [submit_tournament_match]
  rw [hget]
  simp only [hst, ite_false, if_false]
  rw [hfind]
  simp only
  rw [hsb]
  simp only
  rw [htours, hget]
  simp only
  rw [hfind]
  simp only [apply_result]
  rw [hfind]
  cases hbr2 : br with
  | none => simp [hbr2]
  | some record => simp [hbr2]

theorem maybe_complete_match_count (t : Tournament) :
    (if is_complete t then complete_tournament t else t).match_count =
      t.match_count := by
  split
  · exact complete_tournament_match_count t
  · rfl

theorem maybe_complete_mAt (t : Tournament) (loc : Loc) :
    mAt (if is_complete t then complete_tournament t else t) loc =
      mAt t loc := by
  split
  · exact complete_tournament_mAt t loc
  · rfl

/-! ## C9 — a failed battle submission still advances the bracket -/

/-- **C9.** If the ProjectStore collaborator fails to produce a battle
record (`submit_battle` returns none — e.g. a slot id is null or not a
known item), `submit_tournament_match` nevertheless writes `winner_id`
and `loser_id` onto the match (leaving `battle_id` as it was, i.e. null
for an unbattled match), increments `match_count`, advances the bracket
(`apply_result` is exactly the write–count–advance–complete pipeline),
persists the project, and returns none — so a none return does not imply
the bracket state was left unchanged. -/
theorem c9_battle_failure_still_advances :
    ∀ (elo_pair : EloPair) (p : Project) (tid mid : Nat) (side : String)
      (t : Tournament) (m : TMatch) (loc : Loc),
      dget p.tournaments tid = some t →
      ¬ t.status = "completed" →
      find_match t mid = some (m, loc) →
      (m.item_a_id.bind (dget p.items) = none ∨
       m.item_b_id.bind (dget p.items) = none) →
      submit_tournament_match elo_pair (some p) tid mid side =
        (some { p with tournaments :=
            (dset p.tournaments tid (apply_result t mid side none)) },
          none) ∧
      (apply_result t mid side none).match_count = t.match_count + 1 ∧
      mAt (apply_result t mid side none) loc =
        { m with
          winner_id := if side = "a" then m.item_a_id else m.item_b_id,
          loser_id := if side = "a" then m.item_b_id else m.item_a_id } := by
  intro elo_pair p tid mid side t m loc hget hst hfind hfail
  obtain ⟨p2, br, hsb, htours, hmain⟩ :=
    submit_unfold elo_pair p tid mid side t m loc hget hst hfind
  have hfail2 : submit_battle elo_pair (some p) m.item_a_id m.item_b_id
      (if side = "a" then "a_wins" else "b_wins") = (some p, none) :=
    submit_battle_fail _ p _ _ _ hfail
  rw [hfail2] at hsb
  obtain ⟨hp2, hbrn⟩ := Prod.mk.inj hsb
  have hp2' := Option.some.inj hp2
  subst hp2'
  rw [← hbrn] at hmain
  refine ⟨?_, ?_, ?_⟩
  · simpa using hmain
  · obtain ⟨hok, hmat⟩ := find_match_spec t mid m loc hfind
    simp only [apply_result]
    rw [hfind]
    simp only
    rw [maybe_complete_match_count, advance_bracket_match_count]
    simp [set_match_at_match_count]
  · obtain ⟨hok, hmat⟩ := find_match_spec t mid m loc hfind
    simp only [apply_result]
    rw [hfind]
    simp only
    have hcount : ∀ (tx : Tournament) (c : Nat) (lx : Loc),
        mAt { tx with match_count := c } lx = mAt tx lx := by
      intro tx c lx
      cases lx <;> rfl
    rw [maybe_complete_mAt, advance_bracket_mAt_source, hcount,
      mAt_set_match_at_eq t loc _ hok, hmat]
    by_cases hside : side = "a" <;> simp [hside]

/-- Witness for C9 at a concrete input: submitting the empty WB round-2
match 8 of a fresh demo tournament. -/
theorem c9_battle_failure_still_advances_witness :
    submit_tournament_match elo0 (some demo_project1) 0 8 "a" =
      (some { demo_project1 with tournaments :=
          (dset demo_project1.tournaments 0 (apply_result demo_t 8 "a" none)) },
        none) ∧
    (apply_result demo_t 8 "a" none).match_count = demo_t.match_count + 1 :=
  ⟨(c9_battle_failure_still_advances elo0 demo_project1 0 8 "a" demo_t
      (create_match 8 none none) (Loc.w 1 0) (by rfl) (by decide) (by rfl)
      (Or.inl (by rfl))).1,
   (c9_battle_failure_still_advances elo0 demo_project1 0 8 "a" demo_t
      (create_match 8 none none) (Loc.w 1 0) (by rfl) (by decide) (by rfl)
      (Or.inl (by rfl))).2.1⟩

/-! ## C1 — resubmission of a decided match is not rejected -/

def demo_after0 : Option Project :=
  (submit_tournament_match elo0 demo_store 0 0 "a").1

/-- **C1 (failing input).** Evaluates the code at the failing input: on a
fresh demo tournament, match 0 (seed 1 "a" vs seed 16 "p") is submitted
once with winner side a; a second submission of the *same* match id with
winner side b is then *accepted*: a battle record is returned, the ELO
update is applied a second time (battle history length 2), match_count
double-increments to 2, and the bracket double-advances inconsistently —
the WB round-2 slot is overwritten from "a" to "p" while the LB round-1
slot is overwritten from "p" to "a".  The claim (reject and leave
ratings, bracket slots and match_count unchanged) is what the spec
demands; the code has no `winner_id is null` guard. -/
theorem c1_resubmission_failing_input :
    ((demo_after0.bind (fun p => dget p.tournaments 0)).map
      (fun t => ((mAt t (Loc.w 0 0)).winner_id, t.match_count,
        (mAt t (Loc.w 1 0)).item_a_id, (mAt t (Loc.l 0 0)).item_a_id))) =
      some (some "a", 1, some "a", some "p") ∧
    (submit_tournament_match elo0 demo_after0 0 0 "b").2.isSome = true ∧
    (((submit_tournament_match elo0 demo_after0 0 0 "b").1.bind
        (fun p => dget p.tournaments 0)).map
      (fun t => (t.match_count, (mAt t (Loc.w 1 0)).item_a_id,
        (mAt t (Loc.l 0 0)).item_a_id))) = some (2, some "p", some "a") ∧
    ((submit_tournament_match elo0 demo_after0 0 0 "b").1.map
      (fun p => p.battle_history.length)) = some 2 :=
  ⟨by decide, by decide, by decide, by decide⟩

/-! ## C5 — spec-side play order and playability -/

/-- The spec's playability predicate: both slot ids non-null and
`winner_id` null. -/
def playableB (m : TMatch) : Bool :=
  m.item_a_id.isSome && m.item_b_id.isSome && m.winner_id.isNone

/-- The fixed global play order of the spec, flattened to match
locations: WB R1, LB R1, WB R2, LB R2, LB R3, WB R3, LB R4, LB R5,
WB R4, LB R6, Grand Final, Reset — matches taken in round order within
each stage. -/
def play_order_locs : List Loc :=
  [Loc.w 0 0, Loc.w 0 1, Loc.w 0 2, Loc.w 0 3,
   Loc.w 0 4, Loc.w 0 5, Loc.w 0 6, Loc.w 0 7,
   Loc.l 0 0, Loc.l 0 1, Loc.l 0 2, Loc.l 0 3,
   Loc.w 1 0, Loc.w 1 1, Loc.w 1 2, Loc.w 1 3,
   Loc.l 1 0, Loc.l 1 1, Loc.l 1 2, Loc.l 1 3,
   Loc.l 2 0, Loc.l 2 1,
   Loc.w 2 0, Loc.w 2 1,
   Loc.l 3 0, Loc.l 3 1,
   Loc.l 4 0,
   Loc.w 3 0,
   Loc.l 5 0,
   Loc.gf, Loc.reset]

/-- The first playable location in the spec's play order. -/
def spec_next_loc (t : Tournament) : Option Loc :=
  play_order_locs.find? (fun loc => playableB (mAt t loc))

/-- The location described by a `get_next_match` context. -/
def info_loc (info : MatchInfo) : Loc :=
  if info.bracket = "winners" then Loc.w info.round_idx info.match_idx
  else if info.bracket = "losers" then Loc.l info.round_idx info.match_idx
  else if info.bracket = "grand_final" then Loc.gf
  else Loc.reset

/-- The 30-submission sequence (all through the public
`submit_tournament_match`, sides a/b only) that drives the demo
tournament into a state where `get_next_match` returns the reset match
with a null `item_a_id` while the tournament is still in progress:
play all of WB R1, LB R1, WB R2, LB R2, LB R3, WB R3, LB R4, LB R5; then
submit LB R6 early (side a: its item_b is still null), the grand final
early (side b: its item_a is still null — this creates a reset match
whose item_a is null), and finally the WB final. -/
def c5_trace : List (Nat × String) :=
  [(0, "a"), (1, "a"), (2, "a"), (3, "a"),
   (4, "a"), (5, "a"), (6, "a"), (7, "a"),
   (15, "a"), (16, "a"), (17, "a"), (18, "a"),
   (8, "a"), (9, "a"), (10, "a"), (11, "a"),
   (19, "a"), (20, "a"), (21, "a"), (22, "a"),
   (23, "a"), (24, "a"),
   (12, "a"), (13, "a"),
   (25, "a"), (26, "a"),
   (27, "a"),
   (28, "a"), (29, "b"), (14, "a")]

def c5_trace_store : Option Project :=
  c5_trace.foldl
    (fun st p => (submit_tournament_match elo0 st 0 p.1 p.2).1)
    demo_store

def c5_trace_t : Tournament :=
  (c5_trace_store.bind (fun p => dget p.tournaments 0)).getD
    junk_tournament

/-- **C5 counterexample.** The state reached from a fresh demo
tournament by the 30 `submit_tournament_match` calls of `c5_trace`
(every call through the real engine entry point) is still in progress,
yet `get_next_match` returns the reset match whose `item_a_id` is null —
refuting the claim that for every reachable tournament state
`get_next_match` never returns a match with a null slot.  (The engine
accepts submissions for unplayable matches — see C1 — which is what lets
two of the thirty calls address matches with a null slot.) -/
theorem c5_null_slot_counterexample :
    c5_trace_t.status ≠ "completed" ∧
    ((get_next_match c5_trace_t demo_project).map
      (fun info => (info.bracket, info.m.item_a_id, info.m.item_b_id))) =
      some ("reset", none, some "p") :=
  ⟨by decide, by decide⟩

/-! ## C5 — the bracket invariant -/

def wb_size (r : Nat) : Nat := [8, 4, 2, 1].getD r 0

def lb_size (r : Nat) : Nat := [4, 4, 2, 2, 1, 1].getD r 0

/-- A match has been decided (its winner is recorded). -/
def decidedM (m : TMatch) : Prop := m.winner_id.isSome

/-- The bracket-consistency invariant maintained by playable-only
submissions: fixed round shapes; WB round 1 always filled; every fed
slot is filled exactly when its feeder match has been decided (the
feeder table is `_advance_winners_bracket` / `_advance_losers_bracket`
routing); an existing reset match has both slots filled; `status`
mirrors `is_complete`; and a decided grand final not won by its `item_a`
has spawned the reset match. -/
structure Inv (t : Tournament) : Prop where
  shape_w : t.winners_bracket.map List.length = [8, 4, 2, 1]
  shape_l : t.losers_bracket.map List.length = [4, 4, 2, 2, 1, 1]
  wb0 : ∀ i, i < 8 → (mAt t (Loc.w 0 i)).item_a_id.isSome ∧
    (mAt t (Loc.w 0 i)).item_b_id.isSome
  wbl : ∀ r i, r < 3 → i < wb_size (r + 1) →
    ((mAt t (Loc.w (r + 1) i)).item_a_id.isSome ↔
      decidedM (mAt t (Loc.w r (2 * i)))) ∧
    ((mAt t (Loc.w (r + 1) i)).item_b_id.isSome ↔
      decidedM (mAt t (Loc.w r (2 * i + 1))))
  gfa : (mAt t Loc.gf).item_a_id.isSome ↔ decidedM (mAt t (Loc.w 3 0))
  lb0 : ∀ i, i < 4 →
    ((mAt t (Loc.l 0 i)).item_a_id.isSome ↔
      decidedM (mAt t (Loc.w 0 (2 * i)))) ∧
    ((mAt t (Loc.l 0 i)).item_b_id.isSome ↔
      decidedM (mAt t (Loc.w 0 (2 * i + 1))))
  lb1 : ∀ i, i < 4 →
    ((mAt t (Loc.l 1 i)).item_a_id.isSome ↔
      decidedM (mAt t (Loc.l 0 i))) ∧
    ((mAt t (Loc.l 1 i)).item_b_id.isSome ↔
      decidedM (mAt t (Loc.w 1 i)))
  lb2 : ∀ i, i < 2 →
    ((mAt t (Loc.l 2 i)).item_a_id.isSome ↔
      decidedM (mAt t (Loc.l 1 (2 * i)))) ∧
    ((mAt t (Loc.l 2 i)).item_b_id.isSome ↔
      decidedM (mAt t (Loc.l 1 (2 * i + 1))))
  lb3 : ∀ i, i < 2 →
    ((mAt t (Loc.l 3 i)).item_a_id.isSome ↔
      decidedM (mAt t (Loc.l 2 i))) ∧
    ((mAt t (Loc.l 3 i)).item_b_id.isSome ↔
      decidedM (mAt t (Loc.w 2 i)))
  lb4 : ((mAt t (Loc.l 4 0)).item_a_id.isSome ↔
      decidedM (mAt t (Loc.l 3 0))) ∧
    ((mAt t (Loc.l 4 0)).item_b_id.isSome ↔
      decidedM (mAt t (Loc.l 3 1)))
  lb5 : ((mAt t (Loc.l 5 0)).item_a_id.isSome ↔
      decidedM (mAt t (Loc.l 4 0))) ∧
    ((mAt t (Loc.l 5 0)).item_b_id.isSome ↔
      decidedM (mAt t (Loc.w 3 0)))
  gfb : (mAt t Loc.gf).item_b_id.isSome ↔ decidedM (mAt t (Loc.l 5 0))
  rs_filled : ∀ rm, t.grand_final.reset_match = some rm →
    rm.item_a_id.isSome ∧ rm.item_b_id.isSome
  st : t.status = "completed" ↔ is_complete t = true
  rs_exists : (mAt t Loc.gf).winner_id.isSome →
    (mAt t Loc.gf).winner_id ≠ (mAt t Loc.gf).item_a_id →
    t.grand_final.reset_match.isSome
  df : ∀ lx : Loc, decidedM (mAt t lx) →
    (mAt t lx).item_a_id.isSome ∧ (mAt t lx).item_b_id.isSome

theorem length_getD_of_map_length (ls : List (List TMatch)) (ns : List Nat)
    (h : ls.map List.length = ns) (r : Nat) :
    (ls.getD r []).length = ns.getD r 0 := by
  induction ls generalizing ns r with
  | nil =>
    rw [← h]
    simp
  | cons x rest ih =>
    rw [← h]
    cases r with
    | zero => simp
    | succ n =>
      simp only [List.map_cons, List.getD_cons_succ]
      exact ih (rest.map List.length) rfl n

theorem Inv.wb_length {t : Tournament} (hInv : Inv t) :
    t.winners_bracket.length = 4 := by
  have := congrArg List.length hInv.shape_w
  simpa using this

theorem Inv.lb_length {t : Tournament} (hInv : Inv t) :
    t.losers_bracket.length = 6 := by
  have := congrArg List.length hInv.shape_l
  simpa using this

theorem Inv.wb_round_length {t : Tournament} (hInv : Inv t) (r : Nat) :
    (t.winners_bracket.getD r []).length = wb_size r :=
  length_getD_of_map_length _ _ hInv.shape_w r

theorem Inv.lb_round_length {t : Tournament} (hInv : Inv t) (r : Nat) :
    (t.losers_bracket.getD r []).length = lb_size r :=
  length_getD_of_map_length _ _ hInv.shape_l r

theorem Inv.loc_ok_w {t : Tournament} (hInv : Inv t) (r i : Nat)
    (hr : r < 4) (hi : i < wb_size r) : loc_ok t (Loc.w r i) := by
  refine ⟨by rw [hInv.wb_length]; omega, ?_⟩
  rw [hInv.wb_round_length]
  exact hi

theorem Inv.loc_ok_l {t : Tournament} (hInv : Inv t) (r i : Nat)
    (hr : r < 6) (hi : i < lb_size r) : loc_ok t (Loc.l r i) := by
  refine ⟨by rw [hInv.lb_length]; omega, ?_⟩
  rw [hInv.lb_round_length]
  exact hi

theorem getD_winner_none (ms : List TMatch) (i : Nat)
    (h : ∀ m ∈ ms, m.winner_id = none) :
    (ms.getD i dummy_match).winner_id = none := by
  rw [List.getD_eq_getElem?_getD]
  cases hm : ms[i]? with
  | none => rfl
  | some m =>
    have hmem : m ∈ ms := List.getElem?_mem hm
    simpa using h m hmem

theorem Inv_create (p : Project) (ids : List String) (nm : Option String)
    (store' : Option Project) (t : Tournament)
    (hcreate : create_tournament (some p) ids nm = (store', some t)) :
    Inv t := by
  by_cases h16 : ids.length ≠ 16
  · simp [create_tournament, h16] at hcreate
  · by_cases hmem : ids.any (fun i => (dget p.items i).isNone)
    · simp [create_tournament, h16, hmem] at hcreate
    · simp only [create_tournament, h16, hmem, Bool.false_eq_true,
        if_false, ite_false, if_neg] at hcreate
      rw [Prod.ext_iff] at hcreate
      have ht := Option.some.inj hcreate.2
      subst ht
      constructor
      · rfl
      · rfl
      · intro i hi
        interval_cases i <;> exact ⟨rfl, rfl⟩
      · intro r i hr hi
        interval_cases r
        · replace hi : i < 4 := by simpa [wb_size] using hi
          interval_cases i <;> exact ⟨Iff.rfl, Iff.rfl⟩
        · replace hi : i < 2 := by simpa [wb_size] using hi
          interval_cases i <;> exact ⟨Iff.rfl, Iff.rfl⟩
        · replace hi : i < 1 := by simpa [wb_size] using hi
          interval_cases i <;> exact ⟨Iff.rfl, Iff.rfl⟩
      · exact Iff.rfl
      · intro i hi
        interval_cases i <;> exact ⟨Iff.rfl, Iff.rfl⟩
      · intro i hi
        interval_cases i <;> exact ⟨Iff.rfl, Iff.rfl⟩
      · intro i hi
        interval_cases i <;> exact ⟨Iff.rfl, Iff.rfl⟩
      · intro i hi
        interval_cases i <;> exact ⟨Iff.rfl, Iff.rfl⟩
      · exact ⟨Iff.rfl, Iff.rfl⟩
      · exact ⟨Iff.rfl, Iff.rfl⟩
      · exact Iff.rfl
      · intro rm h
        exact Option.noConfusion h
      · refine ⟨fun h => ?_, fun h => ?_⟩
        · simp at h
        · exact Bool.noConfusion h
      · intro h1 h2
        exact Bool.noConfusion h1
      · intro lx h
        exfalso
        revert h
        unfold decidedM
        cases lx with
        | w r i =>
          match r with
          | 0 =>
            simp only [mAt, List.getD_cons_zero]
            rw [getD_winner_none]
            · simp
            · intro m hm
              simp only [List.mem_map] at hm
              obtain ⟨j, -, hj⟩ := hm
              rw [← hj]
              rfl
          | 1 =>
            simp only [mAt, List.getD_cons_zero, List.getD_cons_succ]
            rw [getD_winner_none]
            · simp
            · intro m hm
              simp only [List.mem_map, List.mem_range] at hm
              obtain ⟨j, -, hj⟩ := hm
              rw [← hj]
              rfl
          | 2 =>
            simp only [mAt, List.getD_cons_zero, List.getD_cons_succ]
            rw [getD_winner_none]
            · simp
            · intro m hm
              simp only [List.mem_map, List.mem_range] at hm
              obtain ⟨j, -, hj⟩ := hm
              rw [← hj]
              rfl
          | 3 =>
            simp only [mAt, List.getD_cons_zero, List.getD_cons_succ]
            rw [getD_winner_none]
            · simp
            · intro m hm
              simp only [List.mem_singleton] at hm
              rw [hm]
              rfl
          | n + 4 =>
            simp only [mAt, List.getD_cons_succ, List.getD_nil]
            simp [dummy_match, create_match]
        | l r i =>
          match r with
          | 0 | 1 | 2 | 3 =>
            simp only [mAt, List.getD_cons_zero, List.getD_cons_succ]
            rw [getD_winner_none]
            · simp
            · intro m hm
              simp only [List.mem_map, List.mem_range] at hm
              obtain ⟨j, -, hj⟩ := hm
              rw [← hj]
              rfl
          | 4 | 5 =>
            simp only [mAt, List.getD_cons_zero, List.getD_cons_succ]
            rw [getD_winner_none]
            · simp
            · intro m hm
              simp only [List.mem_singleton] at hm
              rw [hm]
              rfl
          | n + 6 =>
            simp only [mAt, List.getD_cons_succ, List.getD_nil]
            simp [dummy_match, create_match]
        | gf => simp [mAt, create_match]
        | reset => simp [mAt, dummy_match, create_match]

/-! ## Frame lemmas for the submission pipeline (C5 preservation) -/

theorem mAt_with_match_count (t : Tournament) (c : Nat) (lx : Loc) :
    mAt { t with match_count := c } lx = mAt t lx := by
  cases lx <;> rfl

theorem set_match_at_grand_final_w (t : Tournament) (r i : Nat)
    (f : TMatch → TMatch) :
    (set_match_at t (Loc.w r i) f).grand_final = t.grand_final := rfl

theorem set_match_at_grand_final_l (t : Tournament) (r i : Nat)
    (f : TMatch → TMatch) :
    (set_match_at t (Loc.l r i) f).grand_final = t.grand_final := rfl

theorem set_match_at_reset_match (t : Tournament) (loc : Loc)
    (f : TMatch → TMatch) (h : loc ≠ Loc.reset) :
    (set_match_at t loc f).grand_final.reset_match =
      t.grand_final.reset_match := by
  cases loc with
  | w r i => rfl
  | l r i => rfl
  | gf => rfl
  | reset => exact absurd rfl h

theorem set_match_at_gf_match (t : Tournament) (loc : Loc)
    (f : TMatch → TMatch) (h : loc ≠ Loc.gf) :
    (set_match_at t loc f).grand_final.gf_match =
      t.grand_final.gf_match := by
  cases loc with
  | w r i => rfl
  | l r i => rfl
  | gf => exact absurd rfl h
  | reset => rfl

theorem set_slot_winners_length (t : Tournament) (d : Loc × Side)
    (v : Option String) :
    (set_slot t d v).winners_bracket.map List.length =
      t.winners_bracket.map List.length :=
  set_match_at_winners_length t d.1 _

theorem set_slot_losers_length (t : Tournament) (d : Loc × Side)
    (v : Option String) :
    (set_slot t d v).losers_bracket.map List.length =
      t.losers_bracket.map List.length :=
  set_match_at_losers_length t d.1 _

theorem set_slot_status (t : Tournament) (d : Loc × Side)
    (v : Option String) :
    (set_slot t d v).status = t.status :=
  set_match_at_status t d.1 _

theorem set_slot_reset_match (t : Tournament) (d : Loc × Side)
    (v : Option String) (h : d.1 ≠ Loc.reset) :
    (set_slot t d v).grand_final.reset_match =
      t.grand_final.reset_match :=
  set_match_at_reset_match t d.1 _ h

theorem set_slot_gf_match (t : Tournament) (d : Loc × Side)
    (v : Option String) (h : d.1 ≠ Loc.gf) :
    (set_slot t d v).grand_final.gf_match =
      t.grand_final.gf_match :=
  set_match_at_gf_match t d.1 _ h

theorem wb_winner_dest_ne_reset (r i : Nat) :
    (wb_winner_dest r i).1 ≠ Loc.reset := by
  unfold wb_winner_dest
  split <;> simp

theorem wb_loser_dest_ne_reset (r i : Nat) :
    (wb_loser_dest r i).1 ≠ Loc.reset := by
  unfold wb_loser_dest
  split_ifs <;> simp

theorem lb_winner_dest_ne_reset (r i : Nat) :
    (lb_winner_dest r i).1 ≠ Loc.reset := by
  unfold lb_winner_dest
  split_ifs <;> simp

theorem advance_bracket_shape_w (t : Tournament) (loc : Loc) (m : TMatch) :
    (advance_bracket t loc m).winners_bracket.map List.length =
      t.winners_bracket.map List.length := by
  cases loc with
  | w r i =>
    show (advance_winners_bracket t r i m.winner_id m.loser_id
      ).winners_bracket.map List.length = _
    by_cases hr : r ≤ 3
    · rw [advance_winners_eq_set_slot t r i _ _ hr,
        set_slot_winners_length, set_slot_winners_length]
    · rw [advance_winners_eq_hi t r i _ _ (by omega),
        set_slot_winners_length]
  | l r i =>
    show (advance_losers_bracket t r i m.winner_id
      ).winners_bracket.map List.length = _
    by_cases hr : r ≤ 5
    · rw [advance_losers_eq_set_slot t r i _ hr, set_slot_winners_length]
    · rw [advance_losers_eq_hi t r i _ (by omega)]
  | gf =>
    show (handle_grand_final t m).winners_bracket.map List.length = _
    rw [handle_grand_final_winners]
  | reset => rfl

theorem advance_bracket_shape_l (t : Tournament) (loc : Loc) (m : TMatch) :
    (advance_bracket t loc m).losers_bracket.map List.length =
      t.losers_bracket.map List.length := by
  cases loc with
  | w r i =>
    show (advance_winners_bracket t r i m.winner_id m.loser_id
      ).losers_bracket.map List.length = _
    by_cases hr : r ≤ 3
    · rw [advance_winners_eq_set_slot t r i _ _ hr,
        set_slot_losers_length, set_slot_losers_length]
    · rw [advance_winners_eq_hi t r i _ _ (by omega),
        set_slot_losers_length]
  | l r i =>
    show (advance_losers_bracket t r i m.winner_id
      ).losers_bracket.map List.length = _
    by_cases hr : r ≤ 5
    · rw [advance_losers_eq_set_slot t r i _ hr, set_slot_losers_length]
    · rw [advance_losers_eq_hi t r i _ (by omega)]
  | gf =>
    show (handle_grand_final t m).losers_bracket.map List.length = _
    rw [handle_grand_final_losers]
  | reset => rfl

theorem advance_bracket_status (t : Tournament) (loc : Loc) (m : TMatch) :
    (advance_bracket t loc m).status = t.status := by
  cases loc with
  | w r i =>
    show (advance_winners_bracket t r i m.winner_id m.loser_id).status = _
    by_cases hr : r ≤ 3
    · rw [advance_winners_eq_set_slot t r i _ _ hr, set_slot_status,
        set_slot_status]
    · rw [advance_winners_eq_hi t r i _ _ (by omega), set_slot_status]
  | l r i =>
    show (advance_losers_bracket t r i m.winner_id).status = _
    by_cases hr : r ≤ 5
    · rw [advance_losers_eq_set_slot t r i _ hr, set_slot_status]
    · rw [advance_losers_eq_hi t r i _ (by omega)]
  | gf => exact handle_grand_final_status t m
  | reset => rfl

theorem advance_bracket_reset_match (t : Tournament) (loc : Loc)
    (m : TMatch) (h : loc ≠ Loc.gf) :
    (advance_bracket t loc m).grand_final.reset_match =
      t.grand_final.reset_match := by
  cases loc with
  | w r i =>
    show (advance_winners_bracket t r i m.winner_id m.loser_id
      ).grand_final.reset_match = _
    by_cases hr : r ≤ 3
    · rw [advance_winners_eq_set_slot t r i _ _ hr,
        set_slot_reset_match _ _ _ (wb_loser_dest_ne_reset r i),
        set_slot_reset_match _ _ _ (wb_winner_dest_ne_reset r i)]
    · rw [advance_winners_eq_hi t r i _ _ (by omega),
        set_slot_reset_match _ _ _ (by simp)]
  | l r i =>
    show (advance_losers_bracket t r i m.winner_id
      ).grand_final.reset_match = _
    by_cases hr : r ≤ 5
    · rw [advance_losers_eq_set_slot t r i _ hr,
        set_slot_reset_match _ _ _ (lb_winner_dest_ne_reset r i)]
    · rw [advance_losers_eq_hi t r i _ (by omega)]
  | gf => exact absurd rfl h
  | reset => rfl

theorem is_complete_congr (t1 t2 : Tournament)
    (hw : t1.grand_final.gf_match.winner_id =
      t2.grand_final.gf_match.winner_id)
    (ha : t1.grand_final.gf_match.item_a_id =
      t2.grand_final.gf_match.item_a_id)
    (hr : t1.grand_final.reset_match = t2.grand_final.reset_match) :
    is_complete t1 = is_complete t2 := by
  simp only [is_complete]
  rw [hw, ha, hr]

theorem complete_tournament_winners (t : Tournament) :
    (complete_tournament t).winners_bracket = t.winners_bracket := by
  cases hr : t.grand_final.reset_match with
  | none => simp [complete_tournament, hr]
  | some rm =>
    by_cases hw : rm.winner_id.isSome <;>
      simp [complete_tournament, hr, hw]

theorem complete_tournament_losers (t : Tournament) :
    (complete_tournament t).losers_bracket = t.losers_bracket := by
  cases hr : t.grand_final.reset_match with
  | none => simp [complete_tournament, hr]
  | some rm =>
    by_cases hw : rm.winner_id.isSome <;>
      simp [complete_tournament, hr, hw]

theorem complete_tournament_grand_final (t : Tournament) :
    (complete_tournament t).grand_final = t.grand_final := by
  cases hr : t.grand_final.reset_match with
  | none => simp [complete_tournament, hr]
  | some rm =>
    by_cases hw : rm.winner_id.isSome <;>
      simp [complete_tournament, hr, hw]

theorem mAt_set_slot_a (t : Tournament) (lx : Loc) (v : Option String)
    (h : loc_ok t lx) :
    mAt (set_slot t (lx, Side.a) v) lx = { mAt t lx with item_a_id := v } :=
  mAt_set_match_at_eq t lx _ h

theorem mAt_set_slot_b (t : Tournament) (lx : Loc) (v : Option String)
    (h : loc_ok t lx) :
    mAt (set_slot t (lx, Side.b) v) lx = { mAt t lx with item_b_id := v } :=
  mAt_set_match_at_eq t lx _ h

theorem loc_ok_w_of_shape (t : Tournament)
    (hw : t.winners_bracket.map List.length = [8, 4, 2, 1])
    (r i : Nat) (hr : r < 4) (hi : i < wb_size r) :
    loc_ok t (Loc.w r i) := by
  have hlen : t.winners_bracket.length = 4 := by
    have := congrArg List.length hw
    simpa using this
  refine ⟨by omega, ?_⟩
  rw [length_getD_of_map_length _ _ hw r]
  exact hi

theorem loc_ok_l_of_shape (t : Tournament)
    (hl : t.losers_bracket.map List.length = [4, 4, 2, 2, 1, 1])
    (r i : Nat) (hr : r < 6) (hi : i < lb_size r) :
    loc_ok t (Loc.l r i) := by
  have hlen : t.losers_bracket.length = 6 := by
    have := congrArg List.length hl
    simpa using this
  refine ⟨by omega, ?_⟩
  rw [length_getD_of_map_length _ _ hl r]
  exact hi

theorem decidedM_congr {m m' : TMatch} (h : m.winner_id = m'.winner_id) :
    decidedM m ↔ decidedM m' := by
  unfold decidedM
  rw [h]

theorem filled_congr {x y : Option String} (h : x = y) :
    x.isSome = true ↔ y.isSome = true := by
  rw [h]


/-- The tournament-level effect of one submission on a found match:
write the result onto the match, bump the count, advance, and maybe
complete.  (`apply_result` is exactly this pipeline once the match is
found and the winner/loser/battle fields are computed.) -/
def step_pipeline (t : Tournament) (loc : Loc) (m2 : TMatch) : Tournament :=
  let t3 := set_match_at t loc (fun mr =>
    { mr with
      winner_id := m2.winner_id,
      loser_id := m2.loser_id,
      battle_id := m2.battle_id })
  let t4 := { t3 with match_count := t3.match_count + 1 }
  let t5 := advance_bracket t4 loc m2
  if is_complete t5 then complete_tournament t5 else t5

theorem apply_result_eq (t : Tournament) (mid : Nat) (side : String)
    (bid : Option Nat) (m : TMatch) (loc : Loc)
    (hfind : find_match t mid = some (m, loc)) :
    apply_result t mid side bid = step_pipeline t loc
      { m with
        winner_id := if side = "a" then m.item_a_id else m.item_b_id,
        loser_id := if side = "a" then m.item_b_id else m.item_a_id,
        battle_id := match bid with
          | some b => some b
          | none => m.battle_id } := by
  simp only [apply_result, step_pipeline]
  rw [hfind]
  by_cases hside : side = "a" <;> cases bid <;> simp [hside]

theorem Inv_step (t : Tournament) (hInv : Inv t) (loc : Loc) (m2 : TMatch)
    (hok : loc_ok t loc)
    (ha : (mAt t loc).item_a_id.isSome = true)
    (hb : (mAt t loc).item_b_id.isSome = true)
    (hw0 : (mAt t loc).winner_id = none)
    (hwv : m2.winner_id.isSome = true)
    (hlv : m2.loser_id.isSome = true)
    (hst : ¬ t.status = "completed")
    (t3 t4 t5 : Tournament)
    (ht3 : t3 = set_match_at t loc (fun mr =>
      { mr with
        winner_id := m2.winner_id,
        loser_id := m2.loser_id,
        battle_id := m2.battle_id }))
    (ht4 : t4 = { t3 with match_count := t3.match_count + 1 })
    (ht5 : t5 = advance_bracket t4 loc m2) :
    Inv (if is_complete t5 then complete_tournament t5 else t5) := by
  have hnc : is_complete t = false := by
    cases hc : is_complete t
    · rfl
    · exact absurd (hInv.st.mpr hc) hst
  have h3eq : mAt t3 loc = { mAt t loc with
      winner_id := m2.winner_id, loser_id := m2.loser_id,
      battle_id := m2.battle_id } := by
    rw [ht3]
    exact mAt_set_match_at_eq t loc _ hok
  have h3ne : ∀ lx, lx ≠ loc → mAt t3 lx = mAt t lx := by
    intro lx h
    rw [ht3]
    exact mAt_set_match_at_ne t loc _ lx h
  have h4eq : ∀ lx, mAt t4 lx = mAt t3 lx := by
    intro lx
    rw [ht4]
    exact mAt_with_match_count t3 _ lx
  have h4shw : t4.winners_bracket.map List.length = [8, 4, 2, 1] := by
    rw [ht4]
    show t3.winners_bracket.map List.length = _
    rw [ht3, set_match_at_winners_length]
    exact hInv.shape_w
  have h4shl : t4.losers_bracket.map List.length = [4, 4, 2, 2, 1, 1] := by
    rw [ht4]
    show t3.losers_bracket.map List.length = _
    rw [ht3, set_match_at_losers_length]
    exact hInv.shape_l
  have h4st : t4.status = t.status := by
    rw [ht4]
    show t3.status = _
    rw [ht3, set_match_at_status]
  have h5shw : t5.winners_bracket.map List.length = [8, 4, 2, 1] := by
    rw [ht5, advance_bracket_shape_w]
    exact h4shw
  have h5shl : t5.losers_bracket.map List.length = [4, 4, 2, 2, 1, 1] := by
    rw [ht5, advance_bracket_shape_l]
    exact h4shl
  have h5st : t5.status = t.status := by
    rw [ht5, advance_bracket_status]
    exact h4st
  have h5loc : mAt t5 loc = { mAt t loc with
      winner_id := m2.winner_id, loser_id := m2.loser_id,
      battle_id := m2.battle_id } := by
    rw [ht5, advance_bracket_mAt_source, h4eq, h3eq]
  have e_sla : (mAt t5 loc).item_a_id = (mAt t loc).item_a_id := by
    rw [h5loc]
  have e_slb : (mAt t5 loc).item_b_id = (mAt t loc).item_b_id := by
    rw [h5loc]
  have e_wl : (mAt t5 loc).winner_id = m2.winner_id := by
    rw [h5loc]
  have h4okw : ∀ r i, r < 4 → i < wb_size r → loc_ok t4 (Loc.w r i) :=
    fun r i hr hi => loc_ok_w_of_shape t4 h4shw r i hr hi
  have h4okl : ∀ r i, r < 6 → i < lb_size r → loc_ok t4 (Loc.l r i) :=
    fun r i hr hi => loc_ok_l_of_shape t4 h4shl r i hr hi
  cases loc with
  | w r i =>
    have hr4 : r < 4 := by
      have := hok.1
      rwa [hInv.wb_length] at this
    have hi : i < wb_size r := by
      have := hok.2
      rwa [hInv.wb_round_length] at this
    have h4rs : t4.grand_final.reset_match = t.grand_final.reset_match := by
      rw [ht4]
      show t3.grand_final.reset_match = _
      rw [ht3, set_match_at_reset_match _ _ _ (by simp)]
    have h5rs : t5.grand_final.reset_match = t.grand_final.reset_match := by
      rw [ht5, advance_bracket_reset_match _ _ _ (by simp), h4rs]
    interval_cases r
    · -- WB round 0
      replace hi : i < 8 := by simpa [wb_size] using hi
      rcases Nat.even_or_odd i with hpar | hpar
      · have hp : i % 2 = 0 := Nat.even_iff.mp hpar
        have h2i : 2 * (i / 2) = i := by omega
        have h2i1 : 2 * (i / 2) + 1 = i + 1 := by omega
        have hadv : t5 = set_slot
            (set_slot t4 (Loc.w 1 (i / 2), Side.a) m2.winner_id)
            (Loc.l 0 (i / 2), Side.a) m2.loser_id := by
          rw [ht5]
          show advance_winners_bracket t4 0 i m2.winner_id m2.loser_id = _
          rw [advance_winners_eq_set_slot t4 0 i _ _ (by omega)]
          simp [wb_winner_dest, wb_loser_dest, hp]
        have e_w : mAt t5 (Loc.w 1 (i / 2)) =
            { mAt t (Loc.w 1 (i / 2)) with item_a_id := m2.winner_id } := by
          rw [hadv, mAt_set_slot_ne _ _ _ _ (by simp),
            mAt_set_slot_a _ _ _ (h4okw 1 (i / 2) (by omega)
              (by simp only [wb_size, List.getD_cons_succ,
                List.getD_cons_zero]; omega)),
            h4eq, h3ne _ (by simp)]
        have e_l : mAt t5 (Loc.l 0 (i / 2)) =
            { mAt t (Loc.l 0 (i / 2)) with item_a_id := m2.loser_id } := by
          rw [hadv,
            mAt_set_slot_a _ _ _ (loc_ok_l_of_shape _
              (by rw [set_slot_losers_length]; exact h4shl)
              0 (i / 2) (by omega)
              (by simp only [lb_size, List.getD_cons_zero]; omega)),
            mAt_set_slot_ne _ _ _ _ (by simp), h4eq, h3ne _ (by simp)]
        have e_frame : ∀ lx, lx ≠ Loc.w 0 i → lx ≠ Loc.w 1 (i / 2) →
            lx ≠ Loc.l 0 (i / 2) → mAt t5 lx = mAt t lx := by
          intro lx h1 h2 h3
          rw [hadv, mAt_set_slot_ne _ _ _ _ h3, mAt_set_slot_ne _ _ _ _ h2,
            h4eq, h3ne _ h1]
        have e_win : ∀ lx, lx ≠ Loc.w 0 i →
            (mAt t5 lx).winner_id = (mAt t lx).winner_id := by
          intro lx h1
          by_cases h2 : lx = Loc.w 1 (i / 2)
          · subst h2
            rw [e_w]
          · by_cases h3 : lx = Loc.l 0 (i / 2)
            · subst h3
              rw [e_l]
            · rw [e_frame lx h1 h2 h3]
        have hgf5 : mAt t5 Loc.gf = mAt t Loc.gf :=
          e_frame Loc.gf (by simp) (by simp) (by simp)
        have hic5 : is_complete t5 = false := by
          rw [is_complete_congr t5 t (congrArg TMatch.winner_id hgf5)
            (congrArg TMatch.item_a_id hgf5) h5rs]
          exact hnc
        rw [if_neg (show ¬is_complete t5 = true from by simp [hic5])]
        refine ⟨h5shw, h5shl, ?_, ?_, ?_, ?_, ?_, ?_, ?_, ?_, ?_, ?_, ?_,
          ?_, ?_, ?_⟩
        · -- wb0
          intro j hj
          by_cases hji : j = i
          · subst hji
            rw [e_sla, e_slb]
            exact hInv.wb0 j hj
          · rw [e_frame _ (by simp [hji]) (by simp) (by simp)]
            exact hInv.wb0 j hj
        · -- wbl
          intro r' j hr' hj
          interval_cases r'
          · by_cases hji : j = i / 2
            · subst hji
              constructor
              · rw [h2i]
                rw [e_w]
                exact iff_of_true hwv
                  (by unfold decidedM; rw [e_wl]; exact hwv)
              · rw [h2i1, e_w,
                  decidedM_congr (e_win (Loc.w 0 (i + 1)) (by simp))]
                have hh := (hInv.wbl 0 (i / 2) (by omega) hj).2
                rw [h2i1] at hh
                exact hh
            · have hf1 : Loc.w 0 (2 * j) ≠ Loc.w 0 i := by
                simp only [ne_eq, Loc.w.injEq, not_and]
                intro
                omega
              have hf2 : Loc.w 0 (2 * j + 1) ≠ Loc.w 0 i := by
                simp only [ne_eq, Loc.w.injEq, not_and]
                intro
                omega
              rw [e_frame (Loc.w 1 j) (by simp) (by simp [hji]) (by simp),
                decidedM_congr (e_win (Loc.w 0 (2 * j)) hf1),
                decidedM_congr (e_win (Loc.w 0 (2 * j + 1)) hf2)]
              exact hInv.wbl 0 j (by omega) hj
          · rw [e_frame (Loc.w 2 j) (by simp) (by simp) (by simp),
              decidedM_congr (e_win (Loc.w 1 (2 * j)) (by simp)),
              decidedM_congr (e_win (Loc.w 1 (2 * j + 1)) (by simp))]
            exact hInv.wbl 1 j (by omega) hj
          · rw [e_frame (Loc.w 3 j) (by simp) (by simp) (by simp),
              decidedM_congr (e_win (Loc.w 2 (2 * j)) (by simp)),
              decidedM_congr (e_win (Loc.w 2 (2 * j + 1)) (by simp))]
            exact hInv.wbl 2 j (by omega) hj
        · -- gfa
          rw [e_frame Loc.gf (by simp) (by simp) (by simp),
            decidedM_congr (e_win (Loc.w 3 0) (by simp))]
          exact hInv.gfa
        · -- lb0
          intro j hj
          by_cases hji : j = i / 2
          · subst hji
            constructor
            · rw [h2i, e_l]
              exact iff_of_true hlv
                (by unfold decidedM; rw [e_wl]; exact hwv)
            · rw [h2i1, e_l,
                decidedM_congr (e_win (Loc.w 0 (i + 1)) (by simp))]
              have hh := (hInv.lb0 (i / 2) hj).2
              rw [h2i1] at hh
              exact hh
          · have hf1 : Loc.w 0 (2 * j) ≠ Loc.w 0 i := by
              simp only [ne_eq, Loc.w.injEq, not_and]
              intro
              omega
            have hf2 : Loc.w 0 (2 * j + 1) ≠ Loc.w 0 i := by
              simp only [ne_eq, Loc.w.injEq, not_and]
              intro
              omega
            rw [e_frame (Loc.l 0 j) (by simp) (by simp) (by simp [hji]),
              decidedM_congr (e_win (Loc.w 0 (2 * j)) hf1),
              decidedM_congr (e_win (Loc.w 0 (2 * j + 1)) hf2)]
            exact hInv.lb0 j hj
        · -- lb1
          intro j hj
          rw [e_frame (Loc.l 1 j) (by simp) (by simp) (by simp),
            decidedM_congr (e_win (Loc.l 0 j) (by simp)),
            decidedM_congr (e_win (Loc.w 1 j) (by simp))]
          exact hInv.lb1 j hj
        · -- lb2
          intro j hj
          rw [e_frame (Loc.l 2 j) (by simp) (by simp) (by simp),
            decidedM_congr (e_win (Loc.l 1 (2 * j)) (by simp)),
            decidedM_congr (e_win (Loc.l 1 (2 * j + 1)) (by simp))]
          exact hInv.lb2 j hj
        · -- lb3
          intro j hj
          rw [e_frame (Loc.l 3 j) (by simp) (by simp) (by simp),
            decidedM_congr (e_win (Loc.l 2 j) (by simp)),
            decidedM_congr (e_win (Loc.w 2 j) (by simp))]
          exact hInv.lb3 j hj
        · -- lb4
          rw [e_frame (Loc.l 4 0) (by simp) (by simp) (by simp),
            decidedM_congr (e_win (Loc.l 3 0) (by simp)),
            decidedM_congr (e_win (Loc.l 3 1) (by simp))]
          exact hInv.lb4
        · -- lb5
          rw [e_frame (Loc.l 5 0) (by simp) (by simp) (by simp),
            decidedM_congr (e_win (Loc.l 4 0) (by simp)),
            decidedM_congr (e_win (Loc.w 3 0) (by simp))]
          exact hInv.lb5
        · -- gfb
          rw [e_frame Loc.gf (by simp) (by simp) (by simp),
            decidedM_congr (e_win (Loc.l 5 0) (by simp))]
          exact hInv.gfb
        · -- rs_filled
          intro rm hrm
          rw [h5rs] at hrm
          exact hInv.rs_filled rm hrm
        · -- st
          rw [h5st, hic5]
          exact iff_of_false hst (by simp)
        · -- rs_exists
          intro h1 h2
          rw [hgf5] at h1 h2
          rw [h5rs]
          exact hInv.rs_exists h1 h2
        · -- df
          intro lx hdx
          by_cases h1 : lx = Loc.w 0 i
          · subst h1
            rw [e_sla, e_slb]
            exact ⟨ha, hb⟩
          · by_cases h2 : lx = Loc.w 1 (i / 2)
            · subst h2
              rw [e_w] at hdx ⊢
              exact ⟨hwv, (hInv.df (Loc.w 1 (i / 2)) hdx).2⟩
            · by_cases h3 : lx = Loc.l 0 (i / 2)
              · subst h3
                rw [e_l] at hdx ⊢
                exact ⟨hlv, (hInv.df (Loc.l 0 (i / 2)) hdx).2⟩
              · rw [e_frame lx h1 h2 h3] at hdx ⊢
                exact hInv.df lx hdx
      · have hp : i % 2 = 1 := Nat.odd_iff.mp hpar
        have h2i : 2 * (i / 2) + 1 = i := by omega
        have hadv : t5 = set_slot
            (set_slot t4 (Loc.w 1 (i / 2), Side.b) m2.winner_id)
            (Loc.l 0 (i / 2), Side.b) m2.loser_id := by
          rw [ht5]
          show advance_winners_bracket t4 0 i m2.winner_id m2.loser_id = _
          rw [advance_winners_eq_set_slot t4 0 i _ _ (by omega)]
          simp [wb_winner_dest, wb_loser_dest, hp]
        have e_w : mAt t5 (Loc.w 1 (i / 2)) =
            { mAt t (Loc.w 1 (i / 2)) with item_b_id := m2.winner_id } := by
          rw [hadv, mAt_set_slot_ne _ _ _ _ (by simp),
            mAt_set_slot_b _ _ _ (h4okw 1 (i / 2) (by omega)
              (by simp only [wb_size, List.getD_cons_succ,
                List.getD_cons_zero]; omega)),
            h4eq, h3ne _ (by simp)]
        have e_l : mAt t5 (Loc.l 0 (i / 2)) =
            { mAt t (Loc.l 0 (i / 2)) with item_b_id := m2.loser_id } := by
          rw [hadv,
            mAt_set_slot_b _ _ _ (loc_ok_l_of_shape _
              (by rw [set_slot_losers_length]; exact h4shl)
              0 (i / 2) (by omega)
              (by simp only [lb_size, List.getD_cons_zero]; omega)),
            mAt_set_slot_ne _ _ _ _ (by simp), h4eq, h3ne _ (by simp)]
        have e_frame : ∀ lx, lx ≠ Loc.w 0 i → lx ≠ Loc.w 1 (i / 2) →
            lx ≠ Loc.l 0 (i / 2) → mAt t5 lx = mAt t lx := by
          intro lx h1 h2 h3
          rw [hadv, mAt_set_slot_ne _ _ _ _ h3, mAt_set_slot_ne _ _ _ _ h2,
            h4eq, h3ne _ h1]
        have e_win : ∀ lx, lx ≠ Loc.w 0 i →
            (mAt t5 lx).winner_id = (mAt t lx).winner_id := by
          intro lx h1
          by_cases h2 : lx = Loc.w 1 (i / 2)
          · subst h2
            rw [e_w]
          · by_cases h3 : lx = Loc.l 0 (i / 2)
            · subst h3
              rw [e_l]
            · rw [e_frame lx h1 h2 h3]
        have hgf5 : mAt t5 Loc.gf = mAt t Loc.gf :=
          e_frame Loc.gf (by simp) (by simp) (by simp)
        have hic5 : is_complete t5 = false := by
          rw [is_complete_congr t5 t (congrArg TMatch.winner_id hgf5)
            (congrArg TMatch.item_a_id hgf5) h5rs]
          exact hnc
        rw [if_neg (show ¬is_complete t5 = true from by simp [hic5])]
        refine ⟨h5shw, h5shl, ?_, ?_, ?_, ?_, ?_, ?_, ?_, ?_, ?_, ?_, ?_,
          ?_, ?_, ?_⟩
        · intro j hj
          by_cases hji : j = i
          · subst hji
            rw [e_sla, e_slb]
            exact hInv.wb0 j hj
          · rw [e_frame _ (by simp [hji]) (by simp) (by simp)]
            exact hInv.wb0 j hj
        · intro r' j hr' hj
          interval_cases r'
          · by_cases hji : j = i / 2
            · subst hji
              constructor
              · have hf0 : Loc.w 0 (2 * (i / 2)) ≠ Loc.w 0 i := by
                  simp only [ne_eq, Loc.w.injEq, not_and]
                  intro
                  omega
                rw [e_w, decidedM_congr (e_win _ hf0)]
                exact (hInv.wbl 0 (i / 2) (by omega) hj).1
              · rw [h2i, e_w]
                exact iff_of_true hwv
                  (by unfold decidedM; rw [e_wl]; exact hwv)
            · have hf1 : Loc.w 0 (2 * j) ≠ Loc.w 0 i := by
                simp only [ne_eq, Loc.w.injEq, not_and]
                intro
                omega
              have hf2 : Loc.w 0 (2 * j + 1) ≠ Loc.w 0 i := by
                simp only [ne_eq, Loc.w.injEq, not_and]
                intro
                omega
              rw [e_frame (Loc.w 1 j) (by simp) (by simp [hji]) (by simp),
                decidedM_congr (e_win (Loc.w 0 (2 * j)) hf1),
                decidedM_congr (e_win (Loc.w 0 (2 * j + 1)) hf2)]
              exact hInv.wbl 0 j (by omega) hj
          · rw [e_frame (Loc.w 2 j) (by simp) (by simp) (by simp),
              decidedM_congr (e_win (Loc.w 1 (2 * j)) (by simp)),
              decidedM_congr (e_win (Loc.w 1 (2 * j + 1)) (by simp))]
            exact hInv.wbl 1 j (by omega) hj
          · rw [e_frame (Loc.w 3 j) (by simp) (by simp) (by simp),
              decidedM_congr (e_win (Loc.w 2 (2 * j)) (by simp)),
              decidedM_congr (e_win (Loc.w 2 (2 * j + 1)) (by simp))]
            exact hInv.wbl 2 j (by omega) hj
        · rw [e_frame Loc.gf (by simp) (by simp) (by simp),
            decidedM_congr (e_win (Loc.w 3 0) (by simp))]
          exact hInv.gfa
        · intro j hj
          by_cases hji : j = i / 2
          · subst hji
            constructor
            · have hf0 : Loc.w 0 (2 * (i / 2)) ≠ Loc.w 0 i := by
                simp only [ne_eq, Loc.w.injEq, not_and]
                intro
                omega
              rw [e_l, decidedM_congr (e_win _ hf0)]
              exact (hInv.lb0 (i / 2) hj).1
            · rw [h2i, e_l]
              exact iff_of_true hlv
                (by unfold decidedM; rw [e_wl]; exact hwv)
          · have hf1 : Loc.w 0 (2 * j) ≠ Loc.w 0 i := by
              simp only [ne_eq, Loc.w.injEq, not_and]
              intro
              omega
            have hf2 : Loc.w 0 (2 * j + 1) ≠ Loc.w 0 i := by
              simp only [ne_eq, Loc.w.injEq, not_and]
              intro
              omega
            rw [e_frame (Loc.l 0 j) (by simp) (by simp) (by simp [hji]),
              decidedM_congr (e_win (Loc.w 0 (2 * j)) hf1),
              decidedM_congr (e_win (Loc.w 0 (2 * j + 1)) hf2)]
            exact hInv.lb0 j hj
        · intro j hj
          rw [e_frame (Loc.l 1 j) (by simp) (by simp) (by simp),
            decidedM_congr (e_win (Loc.l 0 j) (by simp)),
            decidedM_congr (e_win (Loc.w 1 j) (by simp))]
          exact hInv.lb1 j hj
        · intro j hj
          rw [e_frame (Loc.l 2 j) (by simp) (by simp) (by simp),
            decidedM_congr (e_win (Loc.l 1 (2 * j)) (by simp)),
            decidedM_congr (e_win (Loc.l 1 (2 * j + 1)) (by simp))]
          exact hInv.lb2 j hj
        · intro j hj
          rw [e_frame (Loc.l 3 j) (by simp) (by simp) (by simp),
            decidedM_congr (e_win (Loc.l 2 j) (by simp)),
            decidedM_congr (e_win (Loc.w 2 j) (by simp))]
          exact hInv.lb3 j hj
        · rw [e_frame (Loc.l 4 0) (by simp) (by simp) (by simp),
            decidedM_congr (e_win (Loc.l 3 0) (by simp)),
            decidedM_congr (e_win (Loc.l 3 1) (by simp))]
          exact hInv.lb4
        · rw [e_frame (Loc.l 5 0) (by simp) (by simp) (by simp),
            decidedM_congr (e_win (Loc.l 4 0) (by simp)),
            decidedM_congr (e_win (Loc.w 3 0) (by simp))]
          exact hInv.lb5
        · rw [e_frame Loc.gf (by simp) (by simp) (by simp),
            decidedM_congr (e_win (Loc.l 5 0) (by simp))]
          exact hInv.gfb
        · intro rm hrm
          rw [h5rs] at hrm
          exact hInv.rs_filled rm hrm
        · rw [h5st, hic5]
          exact iff_of_false hst (by simp)
        · intro h1 h2
          rw [hgf5] at h1 h2
          rw [h5rs]
          exact hInv.rs_exists h1 h2
        · intro lx hdx
          by_cases h1 : lx = Loc.w 0 i
          · subst h1
            rw [e_sla, e_slb]
            exact ⟨ha, hb⟩
          · by_cases h2 : lx = Loc.w 1 (i / 2)
            · subst h2
              rw [e_w] at hdx ⊢
              exact ⟨(hInv.df (Loc.w 1 (i / 2)) hdx).1, hwv⟩
            · by_cases h3 : lx = Loc.l 0 (i / 2)
              · subst h3
                rw [e_l] at hdx ⊢
                exact ⟨(hInv.df (Loc.l 0 (i / 2)) hdx).1, hlv⟩
              · rw [e_frame lx h1 h2 h3] at hdx ⊢
                exact hInv.df lx hdx
    · -- WB round 1
      replace hi : i < 4 := by simpa [wb_size] using hi
      rcases Nat.even_or_odd i with hpar | hpar
      · have hp : i % 2 = 0 := Nat.even_iff.mp hpar
        have h2i : 2 * (i / 2) = i := by omega
        have h2i1 : 2 * (i / 2) + 1 = i + 1 := by omega
        have hadv : t5 = set_slot
            (set_slot t4 (Loc.w 2 (i / 2), Side.a) m2.winner_id)
            (Loc.l 1 i, Side.b) m2.loser_id := by
          rw [ht5]
          show advance_winners_bracket t4 1 i m2.winner_id m2.loser_id = _
          rw [advance_winners_eq_set_slot t4 1 i _ _ (by omega)]
          simp [wb_winner_dest, wb_loser_dest, hp]
        have e_w : mAt t5 (Loc.w 2 (i / 2)) =
            { mAt t (Loc.w 2 (i / 2)) with item_a_id := m2.winner_id } := by
          rw [hadv, mAt_set_slot_ne _ _ _ _ (by simp),
            mAt_set_slot_a _ _ _ (h4okw 2 (i / 2) (by omega)
              (by simp [wb_size]; omega)),
            h4eq, h3ne _ (by simp)]
        have e_l : mAt t5 (Loc.l 1 i) =
            { mAt t (Loc.l 1 i) with item_b_id := m2.loser_id } := by
          rw [hadv,
            mAt_set_slot_b _ _ _ (loc_ok_l_of_shape _
              (by rw [set_slot_losers_length]; exact h4shl)
              1 i (by omega) (by simp [lb_size]; omega)),
            mAt_set_slot_ne _ _ _ _ (by simp), h4eq, h3ne _ (by simp)]
        have e_frame : ∀ lx, lx ≠ Loc.w 1 i → lx ≠ Loc.w 2 (i / 2) →
            lx ≠ Loc.l 1 i → mAt t5 lx = mAt t lx := by
          intro lx h1 h2 h3
          rw [hadv, mAt_set_slot_ne _ _ _ _ h3, mAt_set_slot_ne _ _ _ _ h2,
            h4eq, h3ne _ h1]
        have e_win : ∀ lx, lx ≠ Loc.w 1 i →
            (mAt t5 lx).winner_id = (mAt t lx).winner_id := by
          intro lx h1
          by_cases h2 : lx = Loc.w 2 (i / 2)
          · subst h2
            rw [e_w]
          · by_cases h3 : lx = Loc.l 1 i
            · subst h3
              rw [e_l]
            · rw [e_frame lx h1 h2 h3]
        have hgf5 : mAt t5 Loc.gf = mAt t Loc.gf :=
          e_frame Loc.gf (by simp) (by simp) (by simp)
        have hic5 : is_complete t5 = false := by
          rw [is_complete_congr t5 t (congrArg TMatch.winner_id hgf5)
            (congrArg TMatch.item_a_id hgf5) h5rs]
          exact hnc
        rw [if_neg (show ¬is_complete t5 = true from by simp [hic5])]
        refine ⟨h5shw, h5shl, ?_, ?_, ?_, ?_, ?_, ?_, ?_, ?_, ?_, ?_, ?_,
          ?_, ?_, ?_⟩
        · intro j hj
          rw [e_frame _ (by simp) (by simp) (by simp)]
          exact hInv.wb0 j hj
        · intro r' j hr' hj
          interval_cases r'
          · by_cases hji : j = i
            · subst hji
              rw [e_sla, e_slb,
                decidedM_congr (e_win (Loc.w 0 (2 * j)) (by simp)),
                decidedM_congr (e_win (Loc.w 0 (2 * j + 1)) (by simp))]
              exact hInv.wbl 0 j (by omega) hj
            · rw [e_frame (Loc.w 1 j) (by simp [hji]) (by simp) (by simp),
                decidedM_congr (e_win (Loc.w 0 (2 * j)) (by simp)),
                decidedM_congr (e_win (Loc.w 0 (2 * j + 1)) (by simp))]
              exact hInv.wbl 0 j (by omega) hj
          · by_cases hji : j = i / 2
            · subst hji
              constructor
              · rw [h2i, e_w]
                exact iff_of_true hwv
                  (by unfold decidedM; rw [e_wl]; exact hwv)
              · rw [h2i1, e_w,
                  decidedM_congr (e_win (Loc.w 1 (i + 1)) (by simp))]
                have hh := (hInv.wbl 1 (i / 2) (by omega) hj).2
                rw [h2i1] at hh
                exact hh
            · have hf1 : Loc.w 1 (2 * j) ≠ Loc.w 1 i := by
                simp only [ne_eq, Loc.w.injEq, not_and]
                intro
                omega
              have hf2 : Loc.w 1 (2 * j + 1) ≠ Loc.w 1 i := by
                simp only [ne_eq, Loc.w.injEq, not_and]
                intro
                omega
              rw [e_frame (Loc.w 2 j) (by simp) (by simp [hji]) (by simp),
                decidedM_congr (e_win _ hf1),
                decidedM_congr (e_win _ hf2)]
              exact hInv.wbl 1 j (by omega) hj
          · rw [e_frame (Loc.w 3 j) (by simp) (by simp) (by simp),
              decidedM_congr (e_win (Loc.w 2 (2 * j)) (by simp)),
              decidedM_congr (e_win (Loc.w 2 (2 * j + 1)) (by simp))]
            exact hInv.wbl 2 j (by omega) hj
        · rw [e_frame Loc.gf (by simp) (by simp) (by simp),
            decidedM_congr (e_win (Loc.w 3 0) (by simp))]
          exact hInv.gfa
        · intro j hj
          rw [e_frame (Loc.l 0 j) (by simp) (by simp) (by simp),
            decidedM_congr (e_win (Loc.w 0 (2 * j)) (by simp)),
            decidedM_congr (e_win (Loc.w 0 (2 * j + 1)) (by simp))]
          exact hInv.lb0 j hj
        · intro j hj
          by_cases hji : j = i
          · subst hji
            constructor
            · rw [e_l, decidedM_congr (e_win (Loc.l 0 j) (by simp))]
              exact (hInv.lb1 j hj).1
            · rw [e_l]
              exact iff_of_true hlv
                (by unfold decidedM; rw [e_wl]; exact hwv)
          · rw [e_frame (Loc.l 1 j) (by simp) (by simp) (by simp [hji]),
              decidedM_congr (e_win (Loc.l 0 j) (by simp)),
              decidedM_congr (e_win (Loc.w 1 j) (by simp [hji]))]
            exact hInv.lb1 j hj
        · intro j hj
          rw [e_frame (Loc.l 2 j) (by simp) (by simp) (by simp),
            decidedM_congr (e_win (Loc.l 1 (2 * j)) (by simp)),
            decidedM_congr (e_win (Loc.l 1 (2 * j + 1)) (by simp))]
          exact hInv.lb2 j hj
        · intro j hj
          rw [e_frame (Loc.l 3 j) (by simp) (by simp) (by simp),
            decidedM_congr (e_win (Loc.l 2 j) (by simp)),
            decidedM_congr (e_win (Loc.w 2 j) (by simp))]
          exact hInv.lb3 j hj
        · rw [e_frame (Loc.l 4 0) (by simp) (by simp) (by simp),
            decidedM_congr (e_win (Loc.l 3 0) (by simp)),
            decidedM_congr (e_win (Loc.l 3 1) (by simp))]
          exact hInv.lb4
        · rw [e_frame (Loc.l 5 0) (by simp) (by simp) (by simp),
            decidedM_congr (e_win (Loc.l 4 0) (by simp)),
            decidedM_congr (e_win (Loc.w 3 0) (by simp))]
          exact hInv.lb5
        · rw [e_frame Loc.gf (by simp) (by simp) (by simp),
            decidedM_congr (e_win (Loc.l 5 0) (by simp))]
          exact hInv.gfb
        · intro rm hrm
          rw [h5rs] at hrm
          exact hInv.rs_filled rm hrm
        · rw [h5st, hic5]
          exact iff_of_false hst (by simp)
        · intro h1 h2
          rw [hgf5] at h1 h2
          rw [h5rs]
          exact hInv.rs_exists h1 h2
        · intro lx hdx
          by_cases h1 : lx = Loc.w 1 i
          · subst h1
            rw [e_sla, e_slb]
            exact ⟨ha, hb⟩
          · by_cases h2 : lx = Loc.w 2 (i / 2)
            · subst h2
              rw [e_w] at hdx ⊢
              exact ⟨hwv, (hInv.df (Loc.w 2 (i / 2)) hdx).2⟩
            · by_cases h3 : lx = Loc.l 1 i
              · subst h3
                rw [e_l] at hdx ⊢
                exact ⟨(hInv.df (Loc.l 1 i) hdx).1, hlv⟩
              · rw [e_frame lx h1 h2 h3] at hdx ⊢
                exact hInv.df lx hdx
      · have hp : i % 2 = 1 := Nat.odd_iff.mp hpar
        have h2i : 2 * (i / 2) + 1 = i := by omega
        have hadv : t5 = set_slot
            (set_slot t4 (Loc.w 2 (i / 2), Side.b) m2.winner_id)
            (Loc.l 1 i, Side.b) m2.loser_id := by
          rw [ht5]
          show advance_winners_bracket t4 1 i m2.winner_id m2.loser_id = _
          rw [advance_winners_eq_set_slot t4 1 i _ _ (by omega)]
          simp [wb_winner_dest, wb_loser_dest, hp]
        have e_w : mAt t5 (Loc.w 2 (i / 2)) =
            { mAt t (Loc.w 2 (i / 2)) with item_b_id := m2.winner_id } := by
          rw [hadv, mAt_set_slot_ne _ _ _ _ (by simp),
            mAt_set_slot_b _ _ _ (h4okw 2 (i / 2) (by omega)
              (by simp [wb_size]; omega)),
            h4eq, h3ne _ (by simp)]
        have e_l : mAt t5 (Loc.l 1 i) =
            { mAt t (Loc.l 1 i) with item_b_id := m2.loser_id } := by
          rw [hadv,
            mAt_set_slot_b _ _ _ (loc_ok_l_of_shape _
              (by rw [set_slot_losers_length]; exact h4shl)
              1 i (by omega) (by simp [lb_size]; omega)),
            mAt_set_slot_ne _ _ _ _ (by simp), h4eq, h3ne _ (by simp)]
        have e_frame : ∀ lx, lx ≠ Loc.w 1 i → lx ≠ Loc.w 2 (i / 2) →
            lx ≠ Loc.l 1 i → mAt t5 lx = mAt t lx := by
          intro lx h1 h2 h3
          rw [hadv, mAt_set_slot_ne _ _ _ _ h3, mAt_set_slot_ne _ _ _ _ h2,
            h4eq, h3ne _ h1]
        have e_win : ∀ lx, lx ≠ Loc.w 1 i →
            (mAt t5 lx).winner_id = (mAt t lx).winner_id := by
          intro lx h1
          by_cases h2 : lx = Loc.w 2 (i / 2)
          · subst h2
            rw [e_w]
          · by_cases h3 : lx = Loc.l 1 i
            · subst h3
              rw [e_l]
            · rw [e_frame lx h1 h2 h3]
        have hgf5 : mAt t5 Loc.gf = mAt t Loc.gf :=
          e_frame Loc.gf (by simp) (by simp) (by simp)
        have hic5 : is_complete t5 = false := by
          rw [is_complete_congr t5 t (congrArg TMatch.winner_id hgf5)
            (congrArg TMatch.item_a_id hgf5) h5rs]
          exact hnc
        rw [if_neg (show ¬is_complete t5 = true from by simp [hic5])]
        refine ⟨h5shw, h5shl, ?_, ?_, ?_, ?_, ?_, ?_, ?_, ?_, ?_, ?_, ?_,
          ?_, ?_, ?_⟩
        · intro j hj
          rw [e_frame _ (by simp) (by simp) (by simp)]
          exact hInv.wb0 j hj
        · intro r' j hr' hj
          interval_cases r'
          · by_cases hji : j = i
            · subst hji
              rw [e_sla, e_slb,
                decidedM_congr (e_win (Loc.w 0 (2 * j)) (by simp)),
                decidedM_congr (e_win (Loc.w 0 (2 * j + 1)) (by simp))]
              exact hInv.wbl 0 j (by omega) hj
            · rw [e_frame (Loc.w 1 j) (by simp [hji]) (by simp) (by simp),
                decidedM_congr (e_win (Loc.w 0 (2 * j)) (by simp)),
                decidedM_congr (e_win (Loc.w 0 (2 * j + 1)) (by simp))]
              exact hInv.wbl 0 j (by omega) hj
          · by_cases hji : j = i / 2
            · subst hji
              constructor
              · have hf0 : Loc.w 1 (2 * (i / 2)) ≠ Loc.w 1 i := by
                  simp only [ne_eq, Loc.w.injEq, not_and]
                  intro
                  omega
                rw [e_w, decidedM_congr (e_win _ hf0)]
                exact (hInv.wbl 1 (i / 2) (by omega) hj).1
              · rw [h2i, e_w]
                exact iff_of_true hwv
                  (by unfold decidedM; rw [e_wl]; exact hwv)
            · have hf1 : Loc.w 1 (2 * j) ≠ Loc.w 1 i := by
                simp only [ne_eq, Loc.w.injEq, not_and]
                intro
                omega
              have hf2 : Loc.w 1 (2 * j + 1) ≠ Loc.w 1 i := by
                simp only [ne_eq, Loc.w.injEq, not_and]
                intro
                omega
              rw [e_frame (Loc.w 2 j) (by simp) (by simp [hji]) (by simp),
                decidedM_congr (e_win _ hf1),
                decidedM_congr (e_win _ hf2)]
              exact hInv.wbl 1 j (by omega) hj
          · rw [e_frame (Loc.w 3 j) (by simp) (by simp) (by simp),
              decidedM_congr (e_win (Loc.w 2 (2 * j)) (by simp)),
              decidedM_congr (e_win (Loc.w 2 (2 * j + 1)) (by simp))]
            exact hInv.wbl 2 j (by omega) hj
        · rw [e_frame Loc.gf (by simp) (by simp) (by simp),
            decidedM_congr (e_win (Loc.w 3 0) (by simp))]
          exact hInv.gfa
        · intro j hj
          rw [e_frame (Loc.l 0 j) (by simp) (by simp) (by simp),
            decidedM_congr (e_win (Loc.w 0 (2 * j)) (by simp)),
            decidedM_congr (e_win (Loc.w 0 (2 * j + 1)) (by simp))]
          exact hInv.lb0 j hj
        · intro j hj
          by_cases hji : j = i
          · subst hji
            constructor
            · rw [e_l, decidedM_congr (e_win (Loc.l 0 j) (by simp))]
              exact (hInv.lb1 j hj).1
            · rw [e_l]
              exact iff_of_true hlv
                (by unfold decidedM; rw [e_wl]; exact hwv)
          · rw [e_frame (Loc.l 1 j) (by simp) (by simp) (by simp [hji]),
              decidedM_congr (e_win (Loc.l 0 j) (by simp)),
              decidedM_congr (e_win (Loc.w 1 j) (by simp [hji]))]
            exact hInv.lb1 j hj
        · intro j hj
          rw [e_frame (Loc.l 2 j) (by simp) (by simp) (by simp),
            decidedM_congr (e_win (Loc.l 1 (2 * j)) (by simp)),
            decidedM_congr (e_win (Loc.l 1 (2 * j + 1)) (by simp))]
          exact hInv.lb2 j hj
        · intro j hj
          rw [e_frame (Loc.l 3 j) (by simp) (by simp) (by simp),
            decidedM_congr (e_win (Loc.l 2 j) (by simp)),
            decidedM_congr (e_win (Loc.w 2 j) (by simp))]
          exact hInv.lb3 j hj
        · rw [e_frame (Loc.l 4 0) (by simp) (by simp) (by simp),
            decidedM_congr (e_win (Loc.l 3 0) (by simp)),
            decidedM_congr (e_win (Loc.l 3 1) (by simp))]
          exact hInv.lb4
        · rw [e_frame (Loc.l 5 0) (by simp) (by simp) (by simp),
            decidedM_congr (e_win (Loc.l 4 0) (by simp)),
            decidedM_congr (e_win (Loc.w 3 0) (by simp))]
          exact hInv.lb5
        · rw [e_frame Loc.gf (by simp) (by simp) (by simp),
            decidedM_congr (e_win (Loc.l 5 0) (by simp))]
          exact hInv.gfb
        · intro rm hrm
          rw [h5rs] at hrm
          exact hInv.rs_filled rm hrm
        · rw [h5st, hic5]
          exact iff_of_false hst (by simp)
        · intro h1 h2
          rw [hgf5] at h1 h2
          rw [h5rs]
          exact hInv.rs_exists h1 h2
        · intro lx hdx
          by_cases h1 : lx = Loc.w 1 i
          · subst h1
            rw [e_sla, e_slb]
            exact ⟨ha, hb⟩
          · by_cases h2 : lx = Loc.w 2 (i / 2)
            · subst h2
              rw [e_w] at hdx ⊢
              exact ⟨(hInv.df (Loc.w 2 (i / 2)) hdx).1, hwv⟩
            · by_cases h3 : lx = Loc.l 1 i
              · subst h3
                rw [e_l] at hdx ⊢
                exact ⟨(hInv.df (Loc.l 1 i) hdx).1, hlv⟩
              · rw [e_frame lx h1 h2 h3] at hdx ⊢
                exact hInv.df lx hdx
    · -- WB round 2
      replace hi : i < 2 := by simpa [wb_size] using hi
      rcases Nat.even_or_odd i with hpar | hpar
      · have hp : i % 2 = 0 := Nat.even_iff.mp hpar
        have h2i : 2 * (i / 2) = i := by omega
        have h2i1 : 2 * (i / 2) + 1 = i + 1 := by omega
        have hadv : t5 = set_slot
            (set_slot t4 (Loc.w 3 (i / 2), Side.a) m2.winner_id)
            (Loc.l 3 i, Side.b) m2.loser_id := by
          rw [ht5]
          show advance_winners_bracket t4 2 i m2.winner_id m2.loser_id = _
          rw [advance_winners_eq_set_slot t4 2 i _ _ (by omega)]
          simp [wb_winner_dest, wb_loser_dest, hp]
        have e_w : mAt t5 (Loc.w 3 (i / 2)) =
            { mAt t (Loc.w 3 (i / 2)) with item_a_id := m2.winner_id } := by
          rw [hadv, mAt_set_slot_ne _ _ _ _ (by simp),
            mAt_set_slot_a _ _ _ (h4okw 3 (i / 2) (by omega)
              (by simp [wb_size]; omega)),
            h4eq, h3ne _ (by simp)]
        have e_l : mAt t5 (Loc.l 3 i) =
            { mAt t (Loc.l 3 i) with item_b_id := m2.loser_id } := by
          rw [hadv,
            mAt_set_slot_b _ _ _ (loc_ok_l_of_shape _
              (by rw [set_slot_losers_length]; exact h4shl)
              3 i (by omega) (by simp [lb_size]; omega)),
            mAt_set_slot_ne _ _ _ _ (by simp), h4eq, h3ne _ (by simp)]
        have e_frame : ∀ lx, lx ≠ Loc.w 2 i → lx ≠ Loc.w 3 (i / 2) →
            lx ≠ Loc.l 3 i → mAt t5 lx = mAt t lx := by
          intro lx h1 h2 h3
          rw [hadv, mAt_set_slot_ne _ _ _ _ h3, mAt_set_slot_ne _ _ _ _ h2,
            h4eq, h3ne _ h1]
        have e_win : ∀ lx, lx ≠ Loc.w 2 i →
            (mAt t5 lx).winner_id = (mAt t lx).winner_id := by
          intro lx h1
          by_cases h2 : lx = Loc.w 3 (i / 2)
          · subst h2
            rw [e_w]
          · by_cases h3 : lx = Loc.l 3 i
            · subst h3
              rw [e_l]
            · rw [e_frame lx h1 h2 h3]
        have hgf5 : mAt t5 Loc.gf = mAt t Loc.gf :=
          e_frame Loc.gf (by simp) (by simp) (by simp)
        have hic5 : is_complete t5 = false := by
          rw [is_complete_congr t5 t (congrArg TMatch.winner_id hgf5)
            (congrArg TMatch.item_a_id hgf5) h5rs]
          exact hnc
        rw [if_neg (show ¬is_complete t5 = true from by simp [hic5])]
        refine ⟨h5shw, h5shl, ?_, ?_, ?_, ?_, ?_, ?_, ?_, ?_, ?_, ?_, ?_,
          ?_, ?_, ?_⟩
        · intro j hj
          rw [e_frame _ (by simp) (by simp) (by simp)]
          exact hInv.wb0 j hj
        · intro r' j hr' hj
          interval_cases r'
          · rw [e_frame (Loc.w 1 j) (by simp) (by simp) (by simp),
              decidedM_congr (e_win (Loc.w 0 (2 * j)) (by simp)),
              decidedM_congr (e_win (Loc.w 0 (2 * j + 1)) (by simp))]
            exact hInv.wbl 0 j (by omega) hj
          · by_cases hji : j = i
            · subst hji
              rw [e_sla, e_slb,
                decidedM_congr (e_win (Loc.w 1 (2 * j)) (by simp)),
                decidedM_congr (e_win (Loc.w 1 (2 * j + 1)) (by simp))]
              exact hInv.wbl 1 j (by omega) hj
            · rw [e_frame (Loc.w 2 j) (by simp [hji]) (by simp) (by simp),
                decidedM_congr (e_win (Loc.w 1 (2 * j)) (by simp)),
                decidedM_congr (e_win (Loc.w 1 (2 * j + 1)) (by simp))]
              exact hInv.wbl 1 j (by omega) hj
          · by_cases hji : j = i / 2
            · subst hji
              constructor
              · rw [h2i, e_w]
                exact iff_of_true hwv
                  (by unfold decidedM; rw [e_wl]; exact hwv)
              · rw [h2i1, e_w,
                  decidedM_congr (e_win (Loc.w 2 (i + 1)) (by simp))]
                have hh := (hInv.wbl 2 (i / 2) (by omega) hj).2
                rw [h2i1] at hh
                exact hh
            · have hf1 : Loc.w 2 (2 * j) ≠ Loc.w 2 i := by
                simp only [ne_eq, Loc.w.injEq, not_and]
                intro
                omega
              have hf2 : Loc.w 2 (2 * j + 1) ≠ Loc.w 2 i := by
                simp only [ne_eq, Loc.w.injEq, not_and]
                intro
                omega
              rw [e_frame (Loc.w 3 j) (by simp) (by simp [hji]) (by simp),
                decidedM_congr (e_win _ hf1),
                decidedM_congr (e_win _ hf2)]
              exact hInv.wbl 2 j (by omega) hj
        · rw [e_frame Loc.gf (by simp) (by simp) (by simp),
            decidedM_congr (e_win (Loc.w 3 0) (by simp))]
          exact hInv.gfa
        · intro j hj
          rw [e_frame (Loc.l 0 j) (by simp) (by simp) (by simp),
            decidedM_congr (e_win (Loc.w 0 (2 * j)) (by simp)),
            decidedM_congr (e_win (Loc.w 0 (2 * j + 1)) (by simp))]
          exact hInv.lb0 j hj
        · intro j hj
          rw [e_frame (Loc.l 1 j) (by simp) (by simp) (by simp),
            decidedM_congr (e_win (Loc.l 0 j) (by simp)),
            decidedM_congr (e_win (Loc.w 1 j) (by simp))]
          exact hInv.lb1 j hj
        · intro j hj
          rw [e_frame (Loc.l 2 j) (by simp) (by simp) (by simp),
            decidedM_congr (e_win (Loc.l 1 (2 * j)) (by simp)),
            decidedM_congr (e_win (Loc.l 1 (2 * j + 1)) (by simp))]
          exact hInv.lb2 j hj
        · intro j hj
          by_cases hji : j = i
          · subst hji
            constructor
            · rw [e_l, decidedM_congr (e_win (Loc.l 2 j) (by simp))]
              exact (hInv.lb3 j hj).1
            · rw [e_l]
              exact iff_of_true hlv
                (by unfold decidedM; rw [e_wl]; exact hwv)
          · rw [e_frame (Loc.l 3 j) (by simp) (by simp) (by simp [hji]),
              decidedM_congr (e_win (Loc.l 2 j) (by simp)),
              decidedM_congr (e_win (Loc.w 2 j) (by simp [hji]))]
            exact hInv.lb3 j hj
        · rw [e_frame (Loc.l 4 0) (by simp) (by simp) (by simp),
            decidedM_congr (e_win (Loc.l 3 0) (by simp)),
            decidedM_congr (e_win (Loc.l 3 1) (by simp))]
          exact hInv.lb4
        · rw [e_frame (Loc.l 5 0) (by simp) (by simp) (by simp),
            decidedM_congr (e_win (Loc.l 4 0) (by simp)),
            decidedM_congr (e_win (Loc.w 3 0) (by simp))]
          exact hInv.lb5
        · rw [e_frame Loc.gf (by simp) (by simp) (by simp),
            decidedM_congr (e_win (Loc.l 5 0) (by simp))]
          exact hInv.gfb
        · intro rm hrm
          rw [h5rs] at hrm
          exact hInv.rs_filled rm hrm
        · rw [h5st, hic5]
          exact iff_of_false hst (by simp)
        · intro h1 h2
          rw [hgf5] at h1 h2
          rw [h5rs]
          exact hInv.rs_exists h1 h2
        · intro lx hdx
          by_cases h1 : lx = Loc.w 2 i
          · subst h1
            rw [e_sla, e_slb]
            exact ⟨ha, hb⟩
          · by_cases h2 : lx = Loc.w 3 (i / 2)
            · subst h2
              rw [e_w] at hdx ⊢
              exact ⟨hwv, (hInv.df (Loc.w 3 (i / 2)) hdx).2⟩
            · by_cases h3 : lx = Loc.l 3 i
              · subst h3
                rw [e_l] at hdx ⊢
                exact ⟨(hInv.df (Loc.l 3 i) hdx).1, hlv⟩
              · rw [e_frame lx h1 h2 h3] at hdx ⊢
                exact hInv.df lx hdx
      · have hp : i % 2 = 1 := Nat.odd_iff.mp hpar
        have h2i : 2 * (i / 2) + 1 = i := by omega
        have hadv : t5 = set_slot
            (set_slot t4 (Loc.w 3 (i / 2), Side.b) m2.winner_id)
            (Loc.l 3 i, Side.b) m2.loser_id := by
          rw [ht5]
          show advance_winners_bracket t4 2 i m2.winner_id m2.loser_id = _
          rw [advance_winners_eq_set_slot t4 2 i _ _ (by omega)]
          simp [wb_winner_dest, wb_loser_dest, hp]
        have e_w : mAt t5 (Loc.w 3 (i / 2)) =
            { mAt t (Loc.w 3 (i / 2)) with item_b_id := m2.winner_id } := by
          rw [hadv, mAt_set_slot_ne _ _ _ _ (by simp),
            mAt_set_slot_b _ _ _ (h4okw 3 (i / 2) (by omega)
              (by simp [wb_size]; omega)),
            h4eq, h3ne _ (by simp)]
        have e_l : mAt t5 (Loc.l 3 i) =
            { mAt t (Loc.l 3 i) with item_b_id := m2.loser_id } := by
          rw [hadv,
            mAt_set_slot_b _ _ _ (loc_ok_l_of_shape _
              (by rw [set_slot_losers_length]; exact h4shl)
              3 i (by omega) (by simp [lb_size]; omega)),
            mAt_set_slot_ne _ _ _ _ (by simp), h4eq, h3ne _ (by simp)]
        have e_frame : ∀ lx, lx ≠ Loc.w 2 i → lx ≠ Loc.w 3 (i / 2) →
            lx ≠ Loc.l 3 i → mAt t5 lx = mAt t lx := by
          intro lx h1 h2 h3
          rw [hadv, mAt_set_slot_ne _ _ _ _ h3, mAt_set_slot_ne _ _ _ _ h2,
            h4eq, h3ne _ h1]
        have e_win : ∀ lx, lx ≠ Loc.w 2 i →
            (mAt t5 lx).winner_id = (mAt t lx).winner_id := by
          intro lx h1
          by_cases h2 : lx = Loc.w 3 (i / 2)
          · subst h2
            rw [e_w]
          · by_cases h3 : lx = Loc.l 3 i
            · subst h3
              rw [e_l]
            · rw [e_frame lx h1 h2 h3]
        have hgf5 : mAt t5 Loc.gf = mAt t Loc.gf :=
          e_frame Loc.gf (by simp) (by simp) (by simp)
        have hic5 : is_complete t5 = false := by
          rw [is_complete_congr t5 t (congrArg TMatch.winner_id hgf5)
            (congrArg TMatch.item_a_id hgf5) h5rs]
          exact hnc
        rw [if_neg (show ¬is_complete t5 = true from by simp [hic5])]
        refine ⟨h5shw, h5shl, ?_, ?_, ?_, ?_, ?_, ?_, ?_, ?_, ?_, ?_, ?_,
          ?_, ?_, ?_⟩
        · intro j hj
          rw [e_frame _ (by simp) (by simp) (by simp)]
          exact hInv.wb0 j hj
        · intro r' j hr' hj
          interval_cases r'
          · rw [e_frame (Loc.w 1 j) (by simp) (by simp) (by simp),
              decidedM_congr (e_win (Loc.w 0 (2 * j)) (by simp)),
              decidedM_congr (e_win (Loc.w 0 (2 * j + 1)) (by simp))]
            exact hInv.wbl 0 j (by omega) hj
          · by_cases hji : j = i
            · subst hji
              rw [e_sla, e_slb,
                decidedM_congr (e_win (Loc.w 1 (2 * j)) (by simp)),
                decidedM_congr (e_win (Loc.w 1 (2 * j + 1)) (by simp))]
              exact hInv.wbl 1 j (by omega) hj
            · rw [e_frame (Loc.w 2 j) (by simp [hji]) (by simp) (by simp),
                decidedM_congr (e_win (Loc.w 1 (2 * j)) (by simp)),
                decidedM_congr (e_win (Loc.w 1 (2 * j + 1)) (by simp))]
              exact hInv.wbl 1 j (by omega) hj
          · by_cases hji : j = i / 2
            · subst hji
              constructor
              · have hf0 : Loc.w 2 (2 * (i / 2)) ≠ Loc.w 2 i := by
                  simp only [ne_eq, Loc.w.injEq, not_and]
                  intro
                  omega
                rw [e_w, decidedM_congr (e_win _ hf0)]
                exact (hInv.wbl 2 (i / 2) (by omega) hj).1
              · rw [h2i, e_w]
                exact iff_of_true hwv
                  (by unfold decidedM; rw [e_wl]; exact hwv)
            · have hf1 : Loc.w 2 (2 * j) ≠ Loc.w 2 i := by
                simp only [ne_eq, Loc.w.injEq, not_and]
                intro
                omega
              have hf2 : Loc.w 2 (2 * j + 1) ≠ Loc.w 2 i := by
                simp only [ne_eq, Loc.w.injEq, not_and]
                intro
                omega
              rw [e_frame (Loc.w 3 j) (by simp) (by simp [hji]) (by simp),
                decidedM_congr (e_win _ hf1),
                decidedM_congr (e_win _ hf2)]
              exact hInv.wbl 2 j (by omega) hj
        · rw [e_frame Loc.gf (by simp) (by simp) (by simp),
            decidedM_congr (e_win (Loc.w 3 0) (by simp))]
          exact hInv.gfa
        · intro j hj
          rw [e_frame (Loc.l 0 j) (by simp) (by simp) (by simp),
            decidedM_congr (e_win (Loc.w 0 (2 * j)) (by simp)),
            decidedM_congr (e_win (Loc.w 0 (2 * j + 1)) (by simp))]
          exact hInv.lb0 j hj
        · intro j hj
          rw [e_frame (Loc.l 1 j) (by simp) (by simp) (by simp),
            decidedM_congr (e_win (Loc.l 0 j) (by simp)),
            decidedM_congr (e_win (Loc.w 1 j) (by simp))]
          exact hInv.lb1 j hj
        · intro j hj
          rw [e_frame (Loc.l 2 j) (by simp) (by simp) (by simp),
            decidedM_congr (e_win (Loc.l 1 (2 * j)) (by simp)),
            decidedM_congr (e_win (Loc.l 1 (2 * j + 1)) (by simp))]
          exact hInv.lb2 j hj
        · intro j hj
          by_cases hji : j = i
          · subst hji
            constructor
            · rw [e_l, decidedM_congr (e_win (Loc.l 2 j) (by simp))]
              exact (hInv.lb3 j hj).1
            · rw [e_l]
              exact iff_of_true hlv
                (by unfold decidedM; rw [e_wl]; exact hwv)
          · rw [e_frame (Loc.l 3 j) (by simp) (by simp) (by simp [hji]),
              decidedM_congr (e_win (Loc.l 2 j) (by simp)),
              decidedM_congr (e_win (Loc.w 2 j) (by simp [hji]))]
            exact hInv.lb3 j hj
        · rw [e_frame (Loc.l 4 0) (by simp) (by simp) (by simp),
            decidedM_congr (e_win (Loc.l 3 0) (by simp)),
            decidedM_congr (e_win (Loc.l 3 1) (by simp))]
          exact hInv.lb4
        · rw [e_frame (Loc.l 5 0) (by simp) (by simp) (by simp),
            decidedM_congr (e_win (Loc.l 4 0) (by simp)),
            decidedM_congr (e_win (Loc.w 3 0) (by simp))]
          exact hInv.lb5
        · rw [e_frame Loc.gf (by simp) (by simp) (by simp),
            decidedM_congr (e_win (Loc.l 5 0) (by simp))]
          exact hInv.gfb
        · intro rm hrm
          rw [h5rs] at hrm
          exact hInv.rs_filled rm hrm
        · rw [h5st, hic5]
          exact iff_of_false hst (by simp)
        · intro h1 h2
          rw [hgf5] at h1 h2
          rw [h5rs]
          exact hInv.rs_exists h1 h2
        · intro lx hdx
          by_cases h1 : lx = Loc.w 2 i
          · subst h1
            rw [e_sla, e_slb]
            exact ⟨ha, hb⟩
          · by_cases h2 : lx = Loc.w 3 (i / 2)
            · subst h2
              rw [e_w] at hdx ⊢
              exact ⟨(hInv.df (Loc.w 3 (i / 2)) hdx).1, hwv⟩
            · by_cases h3 : lx = Loc.l 3 i
              · subst h3
                rw [e_l] at hdx ⊢
                exact ⟨(hInv.df (Loc.l 3 i) hdx).1, hlv⟩
              · rw [e_frame lx h1 h2 h3] at hdx ⊢
                exact hInv.df lx hdx
    · -- WB round 3 (the WB final): winner to grand-final item_a
      replace hi : i < 1 := by simpa [wb_size] using hi
      interval_cases i
      have hadv : t5 = set_slot
          (set_slot t4 (Loc.gf, Side.a) m2.winner_id)
          (Loc.l 5 0, Side.b) m2.loser_id := by
        rw [ht5]
        show advance_winners_bracket t4 3 0 m2.winner_id m2.loser_id = _
        rw [advance_winners_eq_set_slot t4 3 0 _ _ (by omega)]
        simp [wb_winner_dest, wb_loser_dest]
      have e_w : mAt t5 Loc.gf =
          { mAt t Loc.gf with item_a_id := m2.winner_id } := by
        rw [hadv, mAt_set_slot_ne _ _ _ _ (by simp),
          mAt_set_slot_a t4 Loc.gf m2.winner_id trivial, h4eq,
            h3ne _ (by simp)]
      have e_l : mAt t5 (Loc.l 5 0) =
          { mAt t (Loc.l 5 0) with item_b_id := m2.loser_id } := by
        rw [hadv,
          mAt_set_slot_b _ _ _ (loc_ok_l_of_shape _
            (by rw [set_slot_losers_length]; exact h4shl)
            5 0 (by omega) (by simp [lb_size])),
          mAt_set_slot_ne _ _ _ _ (by simp), h4eq, h3ne _ (by simp)]
      have e_frame : ∀ lx, lx ≠ Loc.w 3 0 → lx ≠ Loc.gf →
          lx ≠ Loc.l 5 0 → mAt t5 lx = mAt t lx := by
        intro lx h1 h2 h3
        rw [hadv, mAt_set_slot_ne _ _ _ _ h3, mAt_set_slot_ne _ _ _ _ h2,
          h4eq, h3ne _ h1]
      have e_win : ∀ lx, lx ≠ Loc.w 3 0 →
          (mAt t5 lx).winner_id = (mAt t lx).winner_id := by
        intro lx h1
        by_cases h2 : lx = Loc.gf
        · subst h2
          rw [e_w]
        · by_cases h3 : lx = Loc.l 5 0
          · subst h3
            rw [e_l]
          · rw [e_frame lx h1 h2 h3]
      have hgfw : (mAt t Loc.gf).winner_id = none := by
        cases hgw : (mAt t Loc.gf).winner_id with
        | none => rfl
        | some x =>
          exfalso
          have hds := hInv.df Loc.gf (by unfold decidedM; rw [hgw]; rfl)
          have hga := hInv.gfa.mp hds.1
          unfold decidedM at hga
          rw [hw0] at hga
          simp at hga
      have hw5 : (mAt t5 Loc.gf).winner_id = none := by
        rw [e_w]
        exact hgfw
      have hic5 : is_complete t5 = false := by
        simp only [is_complete]
        rw [show t5.grand_final.gf_match.winner_id = none from hw5]
        simp
      rw [if_neg (show ¬is_complete t5 = true from by simp [hic5])]
      refine ⟨h5shw, h5shl, ?_, ?_, ?_, ?_, ?_, ?_, ?_, ?_, ?_, ?_, ?_,
        ?_, ?_, ?_⟩
      · intro j hj
        rw [e_frame _ (by simp) (by simp) (by simp)]
        exact hInv.wb0 j hj
      · intro r' j hr' hj
        interval_cases r'
        · rw [e_frame (Loc.w 1 j) (by simp) (by simp) (by simp),
            decidedM_congr (e_win (Loc.w 0 (2 * j)) (by simp)),
            decidedM_congr (e_win (Loc.w 0 (2 * j + 1)) (by simp))]
          exact hInv.wbl 0 j (by omega) hj
        · rw [e_frame (Loc.w 2 j) (by simp) (by simp) (by simp),
            decidedM_congr (e_win (Loc.w 1 (2 * j)) (by simp)),
            decidedM_congr (e_win (Loc.w 1 (2 * j + 1)) (by simp))]
          exact hInv.wbl 1 j (by omega) hj
        · replace hj : j = 0 := by
            simp [wb_size] at hj
            omega
          subst hj
          rw [e_sla, e_slb,
            decidedM_congr (e_win (Loc.w 2 (2 * 0)) (by simp)),
            decidedM_congr (e_win (Loc.w 2 (2 * 0 + 1)) (by simp))]
          exact hInv.wbl 2 0 (by omega) (by simp [wb_size])
      · -- gfa: both sides flip
        rw [e_w]
        exact iff_of_true hwv (by unfold decidedM; rw [e_wl]; exact hwv)
      · intro j hj
        rw [e_frame (Loc.l 0 j) (by simp) (by simp) (by simp),
          decidedM_congr (e_win (Loc.w 0 (2 * j)) (by simp)),
          decidedM_congr (e_win (Loc.w 0 (2 * j + 1)) (by simp))]
        exact hInv.lb0 j hj
      · intro j hj
        rw [e_frame (Loc.l 1 j) (by simp) (by simp) (by simp),
          decidedM_congr (e_win (Loc.l 0 j) (by simp)),
          decidedM_congr (e_win (Loc.w 1 j) (by simp))]
        exact hInv.lb1 j hj
      · intro j hj
        rw [e_frame (Loc.l 2 j) (by simp) (by simp) (by simp),
          decidedM_congr (e_win (Loc.l 1 (2 * j)) (by simp)),
          decidedM_congr (e_win (Loc.l 1 (2 * j + 1)) (by simp))]
        exact hInv.lb2 j hj
      · intro j hj
        rw [e_frame (Loc.l 3 j) (by simp) (by simp) (by simp),
          decidedM_congr (e_win (Loc.l 2 j) (by simp)),
          decidedM_congr (e_win (Loc.w 2 j) (by simp))]
        exact hInv.lb3 j hj
      · rw [e_frame (Loc.l 4 0) (by simp) (by simp) (by simp),
          decidedM_congr (e_win (Loc.l 3 0) (by simp)),
          decidedM_congr (e_win (Loc.l 3 1) (by simp))]
        exact hInv.lb4
      · -- lb5: item_b flips with the WB-final decision
        constructor
        · rw [e_l, decidedM_congr (e_win (Loc.l 4 0) (by simp))]
          exact hInv.lb5.1
        · rw [e_l]
          exact iff_of_true hlv (by unfold decidedM; rw [e_wl]; exact hwv)
      · -- gfb: grand-final item_b preserved
        rw [e_w, decidedM_congr (e_win (Loc.l 5 0) (by simp))]
        exact hInv.gfb
      · intro rm hrm
        rw [h5rs] at hrm
        exact hInv.rs_filled rm hrm
      · rw [h5st, hic5]
        exact iff_of_false hst (by simp)
      · intro h1 h2
        exfalso
        have h1' : (mAt t Loc.gf).winner_id.isSome = true := by
          rw [e_w] at h1
          exact h1
        rw [hgfw] at h1'
        simp at h1'
      · intro lx hdx
        by_cases h1 : lx = Loc.w 3 0
        · subst h1
          rw [e_sla, e_slb]
          exact ⟨ha, hb⟩
        · by_cases h2 : lx = Loc.gf
          · subst h2
            rw [e_w] at hdx ⊢
            exact ⟨hwv, (hInv.df Loc.gf hdx).2⟩
          · by_cases h3 : lx = Loc.l 5 0
            · subst h3
              rw [e_l] at hdx ⊢
              exact ⟨(hInv.df (Loc.l 5 0) hdx).1, hlv⟩
            · rw [e_frame lx h1 h2 h3] at hdx ⊢
              exact hInv.df lx hdx
  | l r i =>
    have hr6 : r < 6 := by
      have := hok.1
      rwa [hInv.lb_length] at this
    have hi : i < lb_size r := by
      have := hok.2
      rwa [hInv.lb_round_length] at this
    have h4rs : t4.grand_final.reset_match = t.grand_final.reset_match := by
      rw [ht4]
      show t3.grand_final.reset_match = _
      rw [ht3, set_match_at_reset_match _ _ _ (by simp)]
    have h5rs : t5.grand_final.reset_match = t.grand_final.reset_match := by
      rw [ht5, advance_bracket_reset_match _ _ _ (by simp), h4rs]
    interval_cases r
    · -- LB round 0
      replace hi : i < 4 := by simpa [lb_size] using hi
      have hadv : t5 = set_slot t4 (Loc.l 1 i, Side.a) m2.winner_id := by
        rw [ht5]
        show advance_losers_bracket t4 0 i m2.winner_id = _
        rw [advance_losers_eq_set_slot t4 0 i _ (by omega)]
        simp [lb_winner_dest]
      have e_w : mAt t5 (Loc.l 1 i) =
          { mAt t (Loc.l 1 i) with item_a_id := m2.winner_id } := by
        rw [hadv, mAt_set_slot_a _ _ _ (h4okl 1 i (by omega) (by simp [lb_size]; omega)), h4eq, h3ne _ (by simp)]
      have e_frame : ∀ lx, lx ≠ Loc.l 0 i → lx ≠ Loc.l 1 i →
          mAt t5 lx = mAt t lx := by
        intro lx h1 h2
        rw [hadv, mAt_set_slot_ne _ _ _ _ h2, h4eq, h3ne _ h1]
      have e_win : ∀ lx, lx ≠ Loc.l 0 i →
          (mAt t5 lx).winner_id = (mAt t lx).winner_id := by
        intro lx h1
        by_cases h2 : lx = Loc.l 1 i
        · subst h2
          rw [e_w]
        · rw [e_frame lx h1 h2]
      have hgf5 : mAt t5 Loc.gf = mAt t Loc.gf :=
        e_frame Loc.gf (by simp) (by simp)
      have hic5 : is_complete t5 = false := by
        rw [is_complete_congr t5 t (congrArg TMatch.winner_id hgf5)
          (congrArg TMatch.item_a_id hgf5) h5rs]
        exact hnc
      rw [if_neg (show ¬is_complete t5 = true from by simp [hic5])]
      refine ⟨h5shw, h5shl, ?_, ?_, ?_, ?_, ?_, ?_, ?_, ?_, ?_, ?_, ?_,
        ?_, ?_, ?_⟩
      · intro j hj
        rw [e_frame _ (by simp) (by simp)]
        exact hInv.wb0 j hj
      · intro r' j hr' hj
        interval_cases r'
        · rw [e_frame (Loc.w 1 j) (by simp) (by simp),
            decidedM_congr (e_win (Loc.w 0 (2 * j)) (by simp)),
            decidedM_congr (e_win (Loc.w 0 (2 * j + 1)) (by simp))]
          exact hInv.wbl 0 j (by omega) hj
        · rw [e_frame (Loc.w 2 j) (by simp) (by simp),
            decidedM_congr (e_win (Loc.w 1 (2 * j)) (by simp)),
            decidedM_congr (e_win (Loc.w 1 (2 * j + 1)) (by simp))]
          exact hInv.wbl 1 j (by omega) hj
        · rw [e_frame (Loc.w 3 j) (by simp) (by simp),
            decidedM_congr (e_win (Loc.w 2 (2 * j)) (by simp)),
            decidedM_congr (e_win (Loc.w 2 (2 * j + 1)) (by simp))]
          exact hInv.wbl 2 j (by omega) hj
      · rw [e_frame Loc.gf (by simp) (by simp),
          decidedM_congr (e_win (Loc.w 3 0) (by simp))]
        exact hInv.gfa
      · intro j hj
        by_cases hji : j = i
        · subst hji
          rw [e_sla, e_slb,
            decidedM_congr (e_win (Loc.w 0 (2 * j)) (by simp)),
            decidedM_congr (e_win (Loc.w 0 (2 * j + 1)) (by simp))]
          exact hInv.lb0 j hj
        · rw [e_frame (Loc.l 0 j) (by simp [hji]) (by simp),
            decidedM_congr (e_win (Loc.w 0 (2 * j)) (by simp)),
            decidedM_congr (e_win (Loc.w 0 (2 * j + 1)) (by simp))]
          exact hInv.lb0 j hj
      · intro j hj
        by_cases hji : j = i
        · subst hji
          constructor
          · rw [e_w]
            exact iff_of_true hwv
              (by unfold decidedM; rw [e_wl]; exact hwv)
          · rw [e_w, decidedM_congr (e_win (Loc.w 1 j) (by simp))]
            exact (hInv.lb1 j hj).2
        · rw [e_frame (Loc.l 1 j) (by simp) (by simp [hji]),
            decidedM_congr (e_win (Loc.l 0 j) (by simp [hji])),
            decidedM_congr (e_win (Loc.w 1 j) (by simp))]
          exact hInv.lb1 j hj
      · intro j hj
        rw [e_frame (Loc.l 2 j) (by simp) (by simp),
          decidedM_congr (e_win (Loc.l 1 (2 * j)) (by simp)),
          decidedM_congr (e_win (Loc.l 1 (2 * j + 1)) (by simp))]
        exact hInv.lb2 j hj
      · intro j hj
        rw [e_frame (Loc.l 3 j) (by simp) (by simp),
          decidedM_congr (e_win (Loc.l 2 j) (by simp)),
          decidedM_congr (e_win (Loc.w 2 j) (by simp))]
        exact hInv.lb3 j hj
      · rw [e_frame (Loc.l 4 0) (by simp) (by simp),
          decidedM_congr (e_win (Loc.l 3 0) (by simp)),
          decidedM_congr (e_win (Loc.l 3 1) (by simp))]
        exact hInv.lb4
      · rw [e_frame (Loc.l 5 0) (by simp) (by simp),
          decidedM_congr (e_win (Loc.l 4 0) (by simp)),
          decidedM_congr (e_win (Loc.w 3 0) (by simp))]
        exact hInv.lb5
      · rw [e_frame Loc.gf (by simp) (by simp),
          decidedM_congr (e_win (Loc.l 5 0) (by simp))]
        exact hInv.gfb
      · intro rm hrm
        rw [h5rs] at hrm
        exact hInv.rs_filled rm hrm
      · rw [h5st, hic5]
        exact iff_of_false hst (by simp)
      · intro h1 h2
        rw [hgf5] at h1 h2
        rw [h5rs]
        exact hInv.rs_exists h1 h2
      · intro lx hdx
        by_cases h1 : lx = Loc.l 0 i
        · subst h1
          rw [e_sla, e_slb]
          exact ⟨ha, hb⟩
        · by_cases h2 : lx = Loc.l 1 i
          · subst h2
            rw [e_w] at hdx ⊢
            exact ⟨hwv, (hInv.df (Loc.l 1 i) hdx).2⟩
          · rw [e_frame lx h1 h2] at hdx ⊢
            exact hInv.df lx hdx
    · -- LB round 1
      replace hi : i < 4 := by simpa [lb_size] using hi
      rcases Nat.even_or_odd i with hpar | hpar
      · have hp : i % 2 = 0 := Nat.even_iff.mp hpar
        have h2i : 2 * (i / 2) = i := by omega
        have h2i1 : 2 * (i / 2) + 1 = i + 1 := by omega
        have hadv : t5 = set_slot t4 (Loc.l 2 (i / 2), Side.a) m2.winner_id := by
          rw [ht5]
          show advance_losers_bracket t4 1 i m2.winner_id = _
          rw [advance_losers_eq_set_slot t4 1 i _ (by omega)]
          simp [lb_winner_dest, hp]
        have e_w : mAt t5 (Loc.l 2 (i / 2)) =
            { mAt t (Loc.l 2 (i / 2)) with item_a_id := m2.winner_id } := by
          rw [hadv, mAt_set_slot_a _ _ _ (h4okl 2 (i / 2) (by omega) (by simp [lb_size]; omega)), h4eq, h3ne _ (by simp)]
        have e_frame : ∀ lx, lx ≠ Loc.l 1 i → lx ≠ Loc.l 2 (i / 2) →
            mAt t5 lx = mAt t lx := by
          intro lx h1 h2
          rw [hadv, mAt_set_slot_ne _ _ _ _ h2, h4eq, h3ne _ h1]
        have e_win : ∀ lx, lx ≠ Loc.l 1 i →
            (mAt t5 lx).winner_id = (mAt t lx).winner_id := by
          intro lx h1
          by_cases h2 : lx = Loc.l 2 (i / 2)
          · subst h2
            rw [e_w]
          · rw [e_frame lx h1 h2]
        have hgf5 : mAt t5 Loc.gf = mAt t Loc.gf :=
          e_frame Loc.gf (by simp) (by simp)
        have hic5 : is_complete t5 = false := by
          rw [is_complete_congr t5 t (congrArg TMatch.winner_id hgf5)
            (congrArg TMatch.item_a_id hgf5) h5rs]
          exact hnc
        rw [if_neg (show ¬is_complete t5 = true from by simp [hic5])]
        refine ⟨h5shw, h5shl, ?_, ?_, ?_, ?_, ?_, ?_, ?_, ?_, ?_, ?_, ?_,
          ?_, ?_, ?_⟩
        · intro j hj
          rw [e_frame _ (by simp) (by simp)]
          exact hInv.wb0 j hj
        · intro r' j hr' hj
          interval_cases r'
          · rw [e_frame (Loc.w 1 j) (by simp) (by simp),
              decidedM_congr (e_win (Loc.w 0 (2 * j)) (by simp)),
              decidedM_congr (e_win (Loc.w 0 (2 * j + 1)) (by simp))]
            exact hInv.wbl 0 j (by omega) hj
          · rw [e_frame (Loc.w 2 j) (by simp) (by simp),
              decidedM_congr (e_win (Loc.w 1 (2 * j)) (by simp)),
              decidedM_congr (e_win (Loc.w 1 (2 * j + 1)) (by simp))]
            exact hInv.wbl 1 j (by omega) hj
          · rw [e_frame (Loc.w 3 j) (by simp) (by simp),
              decidedM_congr (e_win (Loc.w 2 (2 * j)) (by simp)),
              decidedM_congr (e_win (Loc.w 2 (2 * j + 1)) (by simp))]
            exact hInv.wbl 2 j (by omega) hj
        · rw [e_frame Loc.gf (by simp) (by simp),
            decidedM_congr (e_win (Loc.w 3 0) (by simp))]
          exact hInv.gfa
        · intro j hj
          rw [e_frame (Loc.l 0 j) (by simp) (by simp),
            decidedM_congr (e_win (Loc.w 0 (2 * j)) (by simp)),
            decidedM_congr (e_win (Loc.w 0 (2 * j + 1)) (by simp))]
          exact hInv.lb0 j hj
        · intro j hj
          by_cases hji : j = i
          · subst hji
            rw [e_sla, e_slb,
              decidedM_congr (e_win (Loc.l 0 j) (by simp)),
              decidedM_congr (e_win (Loc.w 1 j) (by simp))]
            exact hInv.lb1 j hj
          · rw [e_frame (Loc.l 1 j) (by simp [hji]) (by simp),
              decidedM_congr (e_win (Loc.l 0 j) (by simp)),
              decidedM_congr (e_win (Loc.w 1 j) (by simp))]
            exact hInv.lb1 j hj
        · intro j hj
          by_cases hji : j = i / 2
          · subst hji
            constructor
            · rw [h2i, e_w]
              exact iff_of_true hwv
                (by unfold decidedM; rw [e_wl]; exact hwv)
            · rw [h2i1, e_w,
                decidedM_congr (e_win (Loc.l 1 (i + 1)) (by simp))]
              have hh := (hInv.lb2 (i / 2) hj).2
              rw [h2i1] at hh
              exact hh
          · have hf1 : Loc.l 1 (2 * j) ≠ Loc.l 1 i := by
              simp only [ne_eq, Loc.l.injEq, not_and]
              intro
              omega
            have hf2 : Loc.l 1 (2 * j + 1) ≠ Loc.l 1 i := by
              simp only [ne_eq, Loc.l.injEq, not_and]
              intro
              omega
            rw [e_frame (Loc.l 2 j) (by simp) (by simp [hji]),
              decidedM_congr (e_win _ hf1),
              decidedM_congr (e_win _ hf2)]
            exact hInv.lb2 j hj
        · intro j hj
          rw [e_frame (Loc.l 3 j) (by simp) (by simp),
            decidedM_congr (e_win (Loc.l 2 j) (by simp)),
            decidedM_congr (e_win (Loc.w 2 j) (by simp))]
          exact hInv.lb3 j hj
        · rw [e_frame (Loc.l 4 0) (by simp) (by simp),
            decidedM_congr (e_win (Loc.l 3 0) (by simp)),
            decidedM_congr (e_win (Loc.l 3 1) (by simp))]
          exact hInv.lb4
        · rw [e_frame (Loc.l 5 0) (by simp) (by simp),
            decidedM_congr (e_win (Loc.l 4 0) (by simp)),
            decidedM_congr (e_win (Loc.w 3 0) (by simp))]
          exact hInv.lb5
        · rw [e_frame Loc.gf (by simp) (by simp),
            decidedM_congr (e_win (Loc.l 5 0) (by simp))]
          exact hInv.gfb
        · intro rm hrm
          rw [h5rs] at hrm
          exact hInv.rs_filled rm hrm
        · rw [h5st, hic5]
          exact iff_of_false hst (by simp)
        · intro h1 h2
          rw [hgf5] at h1 h2
          rw [h5rs]
          exact hInv.rs_exists h1 h2
        · intro lx hdx
          by_cases h1 : lx = Loc.l 1 i
          · subst h1
            rw [e_sla, e_slb]
            exact ⟨ha, hb⟩
          · by_cases h2 : lx = Loc.l 2 (i / 2)
            · subst h2
              rw [e_w] at hdx ⊢
              exact ⟨hwv, (hInv.df (Loc.l 2 (i / 2)) hdx).2⟩
            · rw [e_frame lx h1 h2] at hdx ⊢
              exact hInv.df lx hdx
      · have hp : i % 2 = 1 := Nat.odd_iff.mp hpar
        have h2i : 2 * (i / 2) + 1 = i := by omega
        have hadv : t5 = set_slot t4 (Loc.l 2 (i / 2), Side.b) m2.winner_id := by
          rw [ht5]
          show advance_losers_bracket t4 1 i m2.winner_id = _
          rw [advance_losers_eq_set_slot t4 1 i _ (by omega)]
          simp [lb_winner_dest, hp]
        have e_w : mAt t5 (Loc.l 2 (i / 2)) =
            { mAt t (Loc.l 2 (i / 2)) with item_b_id := m2.winner_id } := by
          rw [hadv, mAt_set_slot_b _ _ _ (h4okl 2 (i / 2) (by omega) (by simp [lb_size]; omega)), h4eq, h3ne _ (by simp)]
        have e_frame : ∀ lx, lx ≠ Loc.l 1 i → lx ≠ Loc.l 2 (i / 2) →
            mAt t5 lx = mAt t lx := by
          intro lx h1 h2
          rw [hadv, mAt_set_slot_ne _ _ _ _ h2, h4eq, h3ne _ h1]
        have e_win : ∀ lx, lx ≠ Loc.l 1 i →
            (mAt t5 lx).winner_id = (mAt t lx).winner_id := by
          intro lx h1
          by_cases h2 : lx = Loc.l 2 (i / 2)
          · subst h2
            rw [e_w]
          · rw [e_frame lx h1 h2]
        have hgf5 : mAt t5 Loc.gf = mAt t Loc.gf :=
          e_frame Loc.gf (by simp) (by simp)
        have hic5 : is_complete t5 = false := by
          rw [is_complete_congr t5 t (congrArg TMatch.winner_id hgf5)
            (congrArg TMatch.item_a_id hgf5) h5rs]
          exact hnc
        rw [if_neg (show ¬is_complete t5 = true from by simp [hic5])]
        refine ⟨h5shw, h5shl, ?_, ?_, ?_, ?_, ?_, ?_, ?_, ?_, ?_, ?_, ?_,
          ?_, ?_, ?_⟩
        · intro j hj
          rw [e_frame _ (by simp) (by simp)]
          exact hInv.wb0 j hj
        · intro r' j hr' hj
          interval_cases r'
          · rw [e_frame (Loc.w 1 j) (by simp) (by simp),
              decidedM_congr (e_win (Loc.w 0 (2 * j)) (by simp)),
              decidedM_congr (e_win (Loc.w 0 (2 * j + 1)) (by simp))]
            exact hInv.wbl 0 j (by omega) hj
          · rw [e_frame (Loc.w 2 j) (by simp) (by simp),
              decidedM_congr (e_win (Loc.w 1 (2 * j)) (by simp)),
              decidedM_congr (e_win (Loc.w 1 (2 * j + 1)) (by simp))]
            exact hInv.wbl 1 j (by omega) hj
          · rw [e_frame (Loc.w 3 j) (by simp) (by simp),
              decidedM_congr (e_win (Loc.w 2 (2 * j)) (by simp)),
              decidedM_congr (e_win (Loc.w 2 (2 * j + 1)) (by simp))]
            exact hInv.wbl 2 j (by omega) hj
        · rw [e_frame Loc.gf (by simp) (by simp),
            decidedM_congr (e_win (Loc.w 3 0) (by simp))]
          exact hInv.gfa
        · intro j hj
          rw [e_frame (Loc.l 0 j) (by simp) (by simp),
            decidedM_congr (e_win (Loc.w 0 (2 * j)) (by simp)),
            decidedM_congr (e_win (Loc.w 0 (2 * j + 1)) (by simp))]
          exact hInv.lb0 j hj
        · intro j hj
          by_cases hji : j = i
          · subst hji
            rw [e_sla, e_slb,
              decidedM_congr (e_win (Loc.l 0 j) (by simp)),
              decidedM_congr (e_win (Loc.w 1 j) (by simp))]
            exact hInv.lb1 j hj
          · rw [e_frame (Loc.l 1 j) (by simp [hji]) (by simp),
              decidedM_congr (e_win (Loc.l 0 j) (by simp)),
              decidedM_congr (e_win (Loc.w 1 j) (by simp))]
            exact hInv.lb1 j hj
        · intro j hj
          by_cases hji : j = i / 2
          · subst hji
            constructor
            · have hf0 : Loc.l 1 (2 * (i / 2)) ≠ Loc.l 1 i := by
                simp only [ne_eq, Loc.l.injEq, not_and]
                intro
                omega
              rw [e_w, decidedM_congr (e_win _ hf0)]
              exact (hInv.lb2 (i / 2) hj).1
            · rw [h2i, e_w]
              exact iff_of_true hwv
                (by unfold decidedM; rw [e_wl]; exact hwv)
          · have hf1 : Loc.l 1 (2 * j) ≠ Loc.l 1 i := by
              simp only [ne_eq, Loc.l.injEq, not_and]
              intro
              omega
            have hf2 : Loc.l 1 (2 * j + 1) ≠ Loc.l 1 i := by
              simp only [ne_eq, Loc.l.injEq, not_and]
              intro
              omega
            rw [e_frame (Loc.l 2 j) (by simp) (by simp [hji]),
              decidedM_congr (e_win _ hf1),
              decidedM_congr (e_win _ hf2)]
            exact hInv.lb2 j hj
        · intro j hj
          rw [e_frame (Loc.l 3 j) (by simp) (by simp),
            decidedM_congr (e_win (Loc.l 2 j) (by simp)),
            decidedM_congr (e_win (Loc.w 2 j) (by simp))]
          exact hInv.lb3 j hj
        · rw [e_frame (Loc.l 4 0) (by simp) (by simp),
            decidedM_congr (e_win (Loc.l 3 0) (by simp)),
            decidedM_congr (e_win (Loc.l 3 1) (by simp))]
          exact hInv.lb4
        · rw [e_frame (Loc.l 5 0) (by simp) (by simp),
            decidedM_congr (e_win (Loc.l 4 0) (by simp)),
            decidedM_congr (e_win (Loc.w 3 0) (by simp))]
          exact hInv.lb5
        · rw [e_frame Loc.gf (by simp) (by simp),
            decidedM_congr (e_win (Loc.l 5 0) (by simp))]
          exact hInv.gfb
        · intro rm hrm
          rw [h5rs] at hrm
          exact hInv.rs_filled rm hrm
        · rw [h5st, hic5]
          exact iff_of_false hst (by simp)
        · intro h1 h2
          rw [hgf5] at h1 h2
          rw [h5rs]
          exact hInv.rs_exists h1 h2
        · intro lx hdx
          by_cases h1 : lx = Loc.l 1 i
          · subst h1
            rw [e_sla, e_slb]
            exact ⟨ha, hb⟩
          · by_cases h2 : lx = Loc.l 2 (i / 2)
            · subst h2
              rw [e_w] at hdx ⊢
              exact ⟨(hInv.df (Loc.l 2 (i / 2)) hdx).1, hwv⟩
            · rw [e_frame lx h1 h2] at hdx ⊢
              exact hInv.df lx hdx
    · -- LB round 2
      replace hi : i < 2 := by simpa [lb_size] using hi
      have hadv : t5 = set_slot t4 (Loc.l 3 i, Side.a) m2.winner_id := by
        rw [ht5]
        show advance_losers_bracket t4 2 i m2.winner_id = _
        rw [advance_losers_eq_set_slot t4 2 i _ (by omega)]
        simp [lb_winner_dest]
      have e_w : mAt t5 (Loc.l 3 i) =
          { mAt t (Loc.l 3 i) with item_a_id := m2.winner_id } := by
        rw [hadv, mAt_set_slot_a _ _ _ (h4okl 3 i (by omega) (by simp [lb_size]; omega)), h4eq, h3ne _ (by simp)]
      have e_frame : ∀ lx, lx ≠ Loc.l 2 i → lx ≠ Loc.l 3 i →
          mAt t5 lx = mAt t lx := by
        intro lx h1 h2
        rw [hadv, mAt_set_slot_ne _ _ _ _ h2, h4eq, h3ne _ h1]
      have e_win : ∀ lx, lx ≠ Loc.l 2 i →
          (mAt t5 lx).winner_id = (mAt t lx).winner_id := by
        intro lx h1
        by_cases h2 : lx = Loc.l 3 i
        · subst h2
          rw [e_w]
        · rw [e_frame lx h1 h2]
      have hgf5 : mAt t5 Loc.gf = mAt t Loc.gf :=
        e_frame Loc.gf (by simp) (by simp)
      have hic5 : is_complete t5 = false := by
        rw [is_complete_congr t5 t (congrArg TMatch.winner_id hgf5)
          (congrArg TMatch.item_a_id hgf5) h5rs]
        exact hnc
      rw [if_neg (show ¬is_complete t5 = true from by simp [hic5])]
      refine ⟨h5shw, h5shl, ?_, ?_, ?_, ?_, ?_, ?_, ?_, ?_, ?_, ?_, ?_,
        ?_, ?_, ?_⟩
      · intro j hj
        rw [e_frame _ (by simp) (by simp)]
        exact hInv.wb0 j hj
      · intro r' j hr' hj
        interval_cases r'
        · rw [e_frame (Loc.w 1 j) (by simp) (by simp),
            decidedM_congr (e_win (Loc.w 0 (2 * j)) (by simp)),
            decidedM_congr (e_win (Loc.w 0 (2 * j + 1)) (by simp))]
          exact hInv.wbl 0 j (by omega) hj
        · rw [e_frame (Loc.w 2 j) (by simp) (by simp),
            decidedM_congr (e_win (Loc.w 1 (2 * j)) (by simp)),
            decidedM_congr (e_win (Loc.w 1 (2 * j + 1)) (by simp))]
          exact hInv.wbl 1 j (by omega) hj
        · rw [e_frame (Loc.w 3 j) (by simp) (by simp),
            decidedM_congr (e_win (Loc.w 2 (2 * j)) (by simp)),
            decidedM_congr (e_win (Loc.w 2 (2 * j + 1)) (by simp))]
          exact hInv.wbl 2 j (by omega) hj
      · rw [e_frame Loc.gf (by simp) (by simp),
          decidedM_congr (e_win (Loc.w 3 0) (by simp))]
        exact hInv.gfa
      · intro j hj
        rw [e_frame (Loc.l 0 j) (by simp) (by simp),
          decidedM_congr (e_win (Loc.w 0 (2 * j)) (by simp)),
          decidedM_congr (e_win (Loc.w 0 (2 * j + 1)) (by simp))]
        exact hInv.lb0 j hj
      · intro j hj
        rw [e_frame (Loc.l 1 j) (by simp) (by simp),
          decidedM_congr (e_win (Loc.l 0 j) (by simp)),
          decidedM_congr (e_win (Loc.w 1 j) (by simp))]
        exact hInv.lb1 j hj
      · intro j hj
        by_cases hji : j = i
        · subst hji
          rw [e_sla, e_slb,
            decidedM_congr (e_win (Loc.l 1 (2 * j)) (by simp)),
            decidedM_congr (e_win (Loc.l 1 (2 * j + 1)) (by simp))]
          exact hInv.lb2 j hj
        · rw [e_frame (Loc.l 2 j) (by simp [hji]) (by simp),
            decidedM_congr (e_win (Loc.l 1 (2 * j)) (by simp)),
            decidedM_congr (e_win (Loc.l 1 (2 * j + 1)) (by simp))]
          exact hInv.lb2 j hj
      · intro j hj
        by_cases hji : j = i
        · subst hji
          constructor
          · rw [e_w]
            exact iff_of_true hwv
              (by unfold decidedM; rw [e_wl]; exact hwv)
          · rw [e_w, decidedM_congr (e_win (Loc.w 2 j) (by simp))]
            exact (hInv.lb3 j hj).2
        · rw [e_frame (Loc.l 3 j) (by simp) (by simp [hji]),
            decidedM_congr (e_win (Loc.l 2 j) (by simp [hji])),
            decidedM_congr (e_win (Loc.w 2 j) (by simp))]
          exact hInv.lb3 j hj
      · rw [e_frame (Loc.l 4 0) (by simp) (by simp),
          decidedM_congr (e_win (Loc.l 3 0) (by simp)),
          decidedM_congr (e_win (Loc.l 3 1) (by simp))]
        exact hInv.lb4
      · rw [e_frame (Loc.l 5 0) (by simp) (by simp),
          decidedM_congr (e_win (Loc.l 4 0) (by simp)),
          decidedM_congr (e_win (Loc.w 3 0) (by simp))]
        exact hInv.lb5
      · rw [e_frame Loc.gf (by simp) (by simp),
          decidedM_congr (e_win (Loc.l 5 0) (by simp))]
        exact hInv.gfb
      · intro rm hrm
        rw [h5rs] at hrm
        exact hInv.rs_filled rm hrm
      · rw [h5st, hic5]
        exact iff_of_false hst (by simp)
      · intro h1 h2
        rw [hgf5] at h1 h2
        rw [h5rs]
        exact hInv.rs_exists h1 h2
      · intro lx hdx
        by_cases h1 : lx = Loc.l 2 i
        · subst h1
          rw [e_sla, e_slb]
          exact ⟨ha, hb⟩
        · by_cases h2 : lx = Loc.l 3 i
          · subst h2
            rw [e_w] at hdx ⊢
            exact ⟨hwv, (hInv.df (Loc.l 3 i) hdx).2⟩
          · rw [e_frame lx h1 h2] at hdx ⊢
            exact hInv.df lx hdx
    · -- LB round 3
      replace hi : i < 2 := by simpa [lb_size] using hi
      interval_cases i
      · have hadv : t5 = set_slot t4 (Loc.l 4 0, Side.a) m2.winner_id := by
          rw [ht5]
          show advance_losers_bracket t4 3 0 m2.winner_id = _
          rw [advance_losers_eq_set_slot t4 3 0 _ (by omega)]
          simp [lb_winner_dest]
        have e_w : mAt t5 (Loc.l 4 0) =
            { mAt t (Loc.l 4 0) with item_a_id := m2.winner_id } := by
          rw [hadv, mAt_set_slot_a _ _ _ (h4okl 4 0 (by omega) (by simp [lb_size])), h4eq, h3ne _ (by simp)]
        have e_frame : ∀ lx, lx ≠ Loc.l 3 0 → lx ≠ Loc.l 4 0 →
            mAt t5 lx = mAt t lx := by
          intro lx h1 h2
          rw [hadv, mAt_set_slot_ne _ _ _ _ h2, h4eq, h3ne _ h1]
        have e_win : ∀ lx, lx ≠ Loc.l 3 0 →
            (mAt t5 lx).winner_id = (mAt t lx).winner_id := by
          intro lx h1
          by_cases h2 : lx = Loc.l 4 0
          · subst h2
            rw [e_w]
          · rw [e_frame lx h1 h2]
        have hgf5 : mAt t5 Loc.gf = mAt t Loc.gf :=
          e_frame Loc.gf (by simp) (by simp)
        have hic5 : is_complete t5 = false := by
          rw [is_complete_congr t5 t (congrArg TMatch.winner_id hgf5)
            (congrArg TMatch.item_a_id hgf5) h5rs]
          exact hnc
        rw [if_neg (show ¬is_complete t5 = true from by simp [hic5])]
        refine ⟨h5shw, h5shl, ?_, ?_, ?_, ?_, ?_, ?_, ?_, ?_, ?_, ?_, ?_,
          ?_, ?_, ?_⟩
        · intro j hj
          rw [e_frame _ (by simp) (by simp)]
          exact hInv.wb0 j hj
        · intro r' j hr' hj
          interval_cases r'
          · rw [e_frame (Loc.w 1 j) (by simp) (by simp),
              decidedM_congr (e_win (Loc.w 0 (2 * j)) (by simp)),
              decidedM_congr (e_win (Loc.w 0 (2 * j + 1)) (by simp))]
            exact hInv.wbl 0 j (by omega) hj
          · rw [e_frame (Loc.w 2 j) (by simp) (by simp),
              decidedM_congr (e_win (Loc.w 1 (2 * j)) (by simp)),
              decidedM_congr (e_win (Loc.w 1 (2 * j + 1)) (by simp))]
            exact hInv.wbl 1 j (by omega) hj
          · rw [e_frame (Loc.w 3 j) (by simp) (by simp),
              decidedM_congr (e_win (Loc.w 2 (2 * j)) (by simp)),
              decidedM_congr (e_win (Loc.w 2 (2 * j + 1)) (by simp))]
            exact hInv.wbl 2 j (by omega) hj
        · rw [e_frame Loc.gf (by simp) (by simp),
            decidedM_congr (e_win (Loc.w 3 0) (by simp))]
          exact hInv.gfa
        · intro j hj
          rw [e_frame (Loc.l 0 j) (by simp) (by simp),
            decidedM_congr (e_win (Loc.w 0 (2 * j)) (by simp)),
            decidedM_congr (e_win (Loc.w 0 (2 * j + 1)) (by simp))]
          exact hInv.lb0 j hj
        · intro j hj
          rw [e_frame (Loc.l 1 j) (by simp) (by simp),
            decidedM_congr (e_win (Loc.l 0 j) (by simp)),
            decidedM_congr (e_win (Loc.w 1 j) (by simp))]
          exact hInv.lb1 j hj
        · intro j hj
          rw [e_frame (Loc.l 2 j) (by simp) (by simp),
            decidedM_congr (e_win (Loc.l 1 (2 * j)) (by simp)),
            decidedM_congr (e_win (Loc.l 1 (2 * j + 1)) (by simp))]
          exact hInv.lb2 j hj
        · intro j hj
          by_cases hji : j = 0
          · subst hji
            rw [e_sla, e_slb,
              decidedM_congr (e_win (Loc.l 2 0) (by simp)),
              decidedM_congr (e_win (Loc.w 2 0) (by simp))]
            exact hInv.lb3 0 hj
          · rw [e_frame (Loc.l 3 j) (by simp [hji]) (by simp),
              decidedM_congr (e_win (Loc.l 2 j) (by simp)),
              decidedM_congr (e_win (Loc.w 2 j) (by simp))]
            exact hInv.lb3 j hj
        · constructor
          · rw [e_w]
            exact iff_of_true hwv
              (by unfold decidedM; rw [e_wl]; exact hwv)
          · rw [e_w, decidedM_congr (e_win (Loc.l 3 1) (by simp))]
            exact hInv.lb4.2
        · rw [e_frame (Loc.l 5 0) (by simp) (by simp),
            decidedM_congr (e_win (Loc.l 4 0) (by simp)),
            decidedM_congr (e_win (Loc.w 3 0) (by simp))]
          exact hInv.lb5
        · rw [e_frame Loc.gf (by simp) (by simp),
            decidedM_congr (e_win (Loc.l 5 0) (by simp))]
          exact hInv.gfb
        · intro rm hrm
          rw [h5rs] at hrm
          exact hInv.rs_filled rm hrm
        · rw [h5st, hic5]
          exact iff_of_false hst (by simp)
        · intro h1 h2
          rw [hgf5] at h1 h2
          rw [h5rs]
          exact hInv.rs_exists h1 h2
        · intro lx hdx
          by_cases h1 : lx = Loc.l 3 0
          · subst h1
            rw [e_sla, e_slb]
            exact ⟨ha, hb⟩
          · by_cases h2 : lx = Loc.l 4 0
            · subst h2
              rw [e_w] at hdx ⊢
              exact ⟨hwv, (hInv.df (Loc.l 4 0) hdx).2⟩
            · rw [e_frame lx h1 h2] at hdx ⊢
              exact hInv.df lx hdx
      · have hadv : t5 = set_slot t4 (Loc.l 4 0, Side.b) m2.winner_id := by
          rw [ht5]
          show advance_losers_bracket t4 3 1 m2.winner_id = _
          rw [advance_losers_eq_set_slot t4 3 1 _ (by omega)]
          simp [lb_winner_dest]
        have e_w : mAt t5 (Loc.l 4 0) =
            { mAt t (Loc.l 4 0) with item_b_id := m2.winner_id } := by
          rw [hadv, mAt_set_slot_b _ _ _ (h4okl 4 0 (by omega) (by simp [lb_size])), h4eq, h3ne _ (by simp)]
        have e_frame : ∀ lx, lx ≠ Loc.l 3 1 → lx ≠ Loc.l 4 0 →
            mAt t5 lx = mAt t lx := by
          intro lx h1 h2
          rw [hadv, mAt_set_slot_ne _ _ _ _ h2, h4eq, h3ne _ h1]
        have e_win : ∀ lx, lx ≠ Loc.l 3 1 →
            (mAt t5 lx).winner_id = (mAt t lx).winner_id := by
          intro lx h1
          by_cases h2 : lx = Loc.l 4 0
          · subst h2
            rw [e_w]
          · rw [e_frame lx h1 h2]
        have hgf5 : mAt t5 Loc.gf = mAt t Loc.gf :=
          e_frame Loc.gf (by simp) (by simp)
        have hic5 : is_complete t5 = false := by
          rw [is_complete_congr t5 t (congrArg TMatch.winner_id hgf5)
            (congrArg TMatch.item_a_id hgf5) h5rs]
          exact hnc
        rw [if_neg (show ¬is_complete t5 = true from by simp [hic5])]
        refine ⟨h5shw, h5shl, ?_, ?_, ?_, ?_, ?_, ?_, ?_, ?_, ?_, ?_, ?_,
          ?_, ?_, ?_⟩
        · intro j hj
          rw [e_frame _ (by simp) (by simp)]
          exact hInv.wb0 j hj
        · intro r' j hr' hj
          interval_cases r'
          · rw [e_frame (Loc.w 1 j) (by simp) (by simp),
              decidedM_congr (e_win (Loc.w 0 (2 * j)) (by simp)),
              decidedM_congr (e_win (Loc.w 0 (2 * j + 1)) (by simp))]
            exact hInv.wbl 0 j (by omega) hj
          · rw [e_frame (Loc.w 2 j) (by simp) (by simp),
              decidedM_congr (e_win (Loc.w 1 (2 * j)) (by simp)),
              decidedM_congr (e_win (Loc.w 1 (2 * j + 1)) (by simp))]
            exact hInv.wbl 1 j (by omega) hj
          · rw [e_frame (Loc.w 3 j) (by simp) (by simp),
              decidedM_congr (e_win (Loc.w 2 (2 * j)) (by simp)),
              decidedM_congr (e_win (Loc.w 2 (2 * j + 1)) (by simp))]
            exact hInv.wbl 2 j (by omega) hj
        · rw [e_frame Loc.gf (by simp) (by simp),
            decidedM_congr (e_win (Loc.w 3 0) (by simp))]
          exact hInv.gfa
        · intro j hj
          rw [e_frame (Loc.l 0 j) (by simp) (by simp),
            decidedM_congr (e_win (Loc.w 0 (2 * j)) (by simp)),
            decidedM_congr (e_win (Loc.w 0 (2 * j + 1)) (by simp))]
          exact hInv.lb0 j hj
        · intro j hj
          rw [e_frame (Loc.l 1 j) (by simp) (by simp),
            decidedM_congr (e_win (Loc.l 0 j) (by simp)),
            decidedM_congr (e_win (Loc.w 1 j) (by simp))]
          exact hInv.lb1 j hj
        · intro j hj
          rw [e_frame (Loc.l 2 j) (by simp) (by simp),
            decidedM_congr (e_win (Loc.l 1 (2 * j)) (by simp)),
            decidedM_congr (e_win (Loc.l 1 (2 * j + 1)) (by simp))]
          exact hInv.lb2 j hj
        · intro j hj
          by_cases hji : j = 1
          · subst hji
            rw [e_sla, e_slb,
              decidedM_congr (e_win (Loc.l 2 1) (by simp)),
              decidedM_congr (e_win (Loc.w 2 1) (by simp))]
            exact hInv.lb3 1 hj
          · rw [e_frame (Loc.l 3 j) (by simp [hji]) (by simp),
              decidedM_congr (e_win (Loc.l 2 j) (by simp)),
              decidedM_congr (e_win (Loc.w 2 j) (by simp))]
            exact hInv.lb3 j hj
        · constructor
          · rw [e_w, decidedM_congr (e_win (Loc.l 3 0) (by simp))]
            exact hInv.lb4.1
          · rw [e_w]
            exact iff_of_true hwv
              (by unfold decidedM; rw [e_wl]; exact hwv)
        · rw [e_frame (Loc.l 5 0) (by simp) (by simp),
            decidedM_congr (e_win (Loc.l 4 0) (by simp)),
            decidedM_congr (e_win (Loc.w 3 0) (by simp))]
          exact hInv.lb5
        · rw [e_frame Loc.gf (by simp) (by simp),
            decidedM_congr (e_win (Loc.l 5 0) (by simp))]
          exact hInv.gfb
        · intro rm hrm
          rw [h5rs] at hrm
          exact hInv.rs_filled rm hrm
        · rw [h5st, hic5]
          exact iff_of_false hst (by simp)
        · intro h1 h2
          rw [hgf5] at h1 h2
          rw [h5rs]
          exact hInv.rs_exists h1 h2
        · intro lx hdx
          by_cases h1 : lx = Loc.l 3 1
          · subst h1
            rw [e_sla, e_slb]
            exact ⟨ha, hb⟩
          · by_cases h2 : lx = Loc.l 4 0
            · subst h2
              rw [e_w] at hdx ⊢
              exact ⟨(hInv.df (Loc.l 4 0) hdx).1, hwv⟩
            · rw [e_frame lx h1 h2] at hdx ⊢
              exact hInv.df lx hdx
    · -- LB round 4
      replace hi : i < 1 := by simpa [lb_size] using hi
      interval_cases i
      have hadv : t5 = set_slot t4 (Loc.l 5 0, Side.a) m2.winner_id := by
        rw [ht5]
        show advance_losers_bracket t4 4 0 m2.winner_id = _
        rw [advance_losers_eq_set_slot t4 4 0 _ (by omega)]
        simp [lb_winner_dest]
      have e_w : mAt t5 (Loc.l 5 0) =
          { mAt t (Loc.l 5 0) with item_a_id := m2.winner_id } := by
        rw [hadv, mAt_set_slot_a _ _ _ (h4okl 5 0 (by omega) (by simp [lb_size])), h4eq, h3ne _ (by simp)]
      have e_frame : ∀ lx, lx ≠ Loc.l 4 0 → lx ≠ Loc.l 5 0 →
          mAt t5 lx = mAt t lx := by
        intro lx h1 h2
        rw [hadv, mAt_set_slot_ne _ _ _ _ h2, h4eq, h3ne _ h1]
      have e_win : ∀ lx, lx ≠ Loc.l 4 0 →
          (mAt t5 lx).winner_id = (mAt t lx).winner_id := by
        intro lx h1
        by_cases h2 : lx = Loc.l 5 0
        · subst h2
          rw [e_w]
        · rw [e_frame lx h1 h2]
      have hgf5 : mAt t5 Loc.gf = mAt t Loc.gf :=
        e_frame Loc.gf (by simp) (by simp)
      have hic5 : is_complete t5 = false := by
        rw [is_complete_congr t5 t (congrArg TMatch.winner_id hgf5)
          (congrArg TMatch.item_a_id hgf5) h5rs]
        exact hnc
      rw [if_neg (show ¬is_complete t5 = true from by simp [hic5])]
      refine ⟨h5shw, h5shl, ?_, ?_, ?_, ?_, ?_, ?_, ?_, ?_, ?_, ?_, ?_,
        ?_, ?_, ?_⟩
      · intro j hj
        rw [e_frame _ (by simp) (by simp)]
        exact hInv.wb0 j hj
      · intro r' j hr' hj
        interval_cases r'
        · rw [e_frame (Loc.w 1 j) (by simp) (by simp),
            decidedM_congr (e_win (Loc.w 0 (2 * j)) (by simp)),
            decidedM_congr (e_win (Loc.w 0 (2 * j + 1)) (by simp))]
          exact hInv.wbl 0 j (by omega) hj
        · rw [e_frame (Loc.w 2 j) (by simp) (by simp),
            decidedM_congr (e_win (Loc.w 1 (2 * j)) (by simp)),
            decidedM_congr (e_win (Loc.w 1 (2 * j + 1)) (by simp))]
          exact hInv.wbl 1 j (by omega) hj
        · rw [e_frame (Loc.w 3 j) (by simp) (by simp),
            decidedM_congr (e_win (Loc.w 2 (2 * j)) (by simp)),
            decidedM_congr (e_win (Loc.w 2 (2 * j + 1)) (by simp))]
          exact hInv.wbl 2 j (by omega) hj
      · rw [e_frame Loc.gf (by simp) (by simp),
          decidedM_congr (e_win (Loc.w 3 0) (by simp))]
        exact hInv.gfa
      · intro j hj
        rw [e_frame (Loc.l 0 j) (by simp) (by simp),
          decidedM_congr (e_win (Loc.w 0 (2 * j)) (by simp)),
          decidedM_congr (e_win (Loc.w 0 (2 * j + 1)) (by simp))]
        exact hInv.lb0 j hj
      · intro j hj
        rw [e_frame (Loc.l 1 j) (by simp) (by simp),
          decidedM_congr (e_win (Loc.l 0 j) (by simp)),
          decidedM_congr (e_win (Loc.w 1 j) (by simp))]
        exact hInv.lb1 j hj
      · intro j hj
        rw [e_frame (Loc.l 2 j) (by simp) (by simp),
          decidedM_congr (e_win (Loc.l 1 (2 * j)) (by simp)),
          decidedM_congr (e_win (Loc.l 1 (2 * j + 1)) (by simp))]
        exact hInv.lb2 j hj
      · intro j hj
        rw [e_frame (Loc.l 3 j) (by simp) (by simp),
          decidedM_congr (e_win (Loc.l 2 j) (by simp)),
          decidedM_congr (e_win (Loc.w 2 j) (by simp))]
        exact hInv.lb3 j hj
      · rw [e_sla, e_slb,
          decidedM_congr (e_win (Loc.l 3 0) (by simp)),
          decidedM_congr (e_win (Loc.l 3 1) (by simp))]
        exact hInv.lb4
      · constructor
        · rw [e_w]
          exact iff_of_true hwv
            (by unfold decidedM; rw [e_wl]; exact hwv)
        · rw [e_w, decidedM_congr (e_win (Loc.w 3 0) (by simp))]
          exact hInv.lb5.2
      · rw [e_frame Loc.gf (by simp) (by simp),
          decidedM_congr (e_win (Loc.l 5 0) (by simp))]
        exact hInv.gfb
      · intro rm hrm
        rw [h5rs] at hrm
        exact hInv.rs_filled rm hrm
      · rw [h5st, hic5]
        exact iff_of_false hst (by simp)
      · intro h1 h2
        rw [hgf5] at h1 h2
        rw [h5rs]
        exact hInv.rs_exists h1 h2
      · intro lx hdx
        by_cases h1 : lx = Loc.l 4 0
        · subst h1
          rw [e_sla, e_slb]
          exact ⟨ha, hb⟩
        · by_cases h2 : lx = Loc.l 5 0
          · subst h2
            rw [e_w] at hdx ⊢
            exact ⟨hwv, (hInv.df (Loc.l 5 0) hdx).2⟩
          · rw [e_frame lx h1 h2] at hdx ⊢
            exact hInv.df lx hdx
    · -- LB round 5: winner becomes grand-final item_b
      replace hi : i < 1 := by simpa [lb_size] using hi
      interval_cases i
      have hadv : t5 = set_slot t4 (Loc.gf, Side.b) m2.winner_id := by
        rw [ht5]
        show advance_losers_bracket t4 5 0 m2.winner_id = _
        rw [advance_losers_eq_set_slot t4 5 0 _ (by omega)]
        simp [lb_winner_dest]
      have e_w : mAt t5 Loc.gf =
          { mAt t Loc.gf with item_b_id := m2.winner_id } := by
        rw [hadv, mAt_set_slot_b t4 Loc.gf m2.winner_id trivial, h4eq,
          h3ne _ (by simp)]
      have e_frame : ∀ lx, lx ≠ Loc.l 5 0 → lx ≠ Loc.gf →
          mAt t5 lx = mAt t lx := by
        intro lx h1 h2
        rw [hadv, mAt_set_slot_ne _ _ _ _ h2, h4eq, h3ne _ h1]
      have e_win : ∀ lx, lx ≠ Loc.l 5 0 →
          (mAt t5 lx).winner_id = (mAt t lx).winner_id := by
        intro lx h1
        by_cases h2 : lx = Loc.gf
        · subst h2
          rw [e_w]
        · rw [e_frame lx h1 h2]
      have hw5 : (mAt t5 Loc.gf).winner_id = (mAt t Loc.gf).winner_id := by
        rw [e_w]
      have ha5 : (mAt t5 Loc.gf).item_a_id = (mAt t Loc.gf).item_a_id := by
        rw [e_w]
      have hic5 : is_complete t5 = false := by
        rw [is_complete_congr t5 t hw5 ha5 h5rs]
        exact hnc
      rw [if_neg (show ¬is_complete t5 = true from by simp [hic5])]
      refine ⟨h5shw, h5shl, ?_, ?_, ?_, ?_, ?_, ?_, ?_, ?_, ?_, ?_, ?_,
        ?_, ?_, ?_⟩
      · intro j hj
        rw [e_frame _ (by simp) (by simp)]
        exact hInv.wb0 j hj
      · intro r' j hr' hj
        interval_cases r'
        · rw [e_frame (Loc.w 1 j) (by simp) (by simp),
            decidedM_congr (e_win (Loc.w 0 (2 * j)) (by simp)),
            decidedM_congr (e_win (Loc.w 0 (2 * j + 1)) (by simp))]
          exact hInv.wbl 0 j (by omega) hj
        · rw [e_frame (Loc.w 2 j) (by simp) (by simp),
            decidedM_congr (e_win (Loc.w 1 (2 * j)) (by simp)),
            decidedM_congr (e_win (Loc.w 1 (2 * j + 1)) (by simp))]
          exact hInv.wbl 1 j (by omega) hj
        · rw [e_frame (Loc.w 3 j) (by simp) (by simp),
            decidedM_congr (e_win (Loc.w 2 (2 * j)) (by simp)),
            decidedM_congr (e_win (Loc.w 2 (2 * j + 1)) (by simp))]
          exact hInv.wbl 2 j (by omega) hj
      · rw [e_w, decidedM_congr (e_win (Loc.w 3 0) (by simp))]
        exact hInv.gfa
      · intro j hj
        rw [e_frame (Loc.l 0 j) (by simp) (by simp),
          decidedM_congr (e_win (Loc.w 0 (2 * j)) (by simp)),
          decidedM_congr (e_win (Loc.w 0 (2 * j + 1)) (by simp))]
        exact hInv.lb0 j hj
      · intro j hj
        rw [e_frame (Loc.l 1 j) (by simp) (by simp),
          decidedM_congr (e_win (Loc.l 0 j) (by simp)),
          decidedM_congr (e_win (Loc.w 1 j) (by simp))]
        exact hInv.lb1 j hj
      · intro j hj
        rw [e_frame (Loc.l 2 j) (by simp) (by simp),
          decidedM_congr (e_win (Loc.l 1 (2 * j)) (by simp)),
          decidedM_congr (e_win (Loc.l 1 (2 * j + 1)) (by simp))]
        exact hInv.lb2 j hj
      · intro j hj
        rw [e_frame (Loc.l 3 j) (by simp) (by simp),
          decidedM_congr (e_win (Loc.l 2 j) (by simp)),
          decidedM_congr (e_win (Loc.w 2 j) (by simp))]
        exact hInv.lb3 j hj
      · rw [e_frame (Loc.l 4 0) (by simp) (by simp),
          decidedM_congr (e_win (Loc.l 3 0) (by simp)),
          decidedM_congr (e_win (Loc.l 3 1) (by simp))]
        exact hInv.lb4
      · rw [e_sla, e_slb,
          decidedM_congr (e_win (Loc.l 4 0) (by simp)),
          decidedM_congr (e_win (Loc.w 3 0) (by simp))]
        exact hInv.lb5
      · rw [e_w]
        exact iff_of_true hwv
          (by unfold decidedM; rw [e_wl]; exact hwv)
      · intro rm hrm
        rw [h5rs] at hrm
        exact hInv.rs_filled rm hrm
      · rw [h5st, hic5]
        exact iff_of_false hst (by simp)
      · intro h1 h2
        have h1' : (mAt t Loc.gf).winner_id.isSome = true := by
          rw [← hw5]
          exact h1
        have h2' : (mAt t Loc.gf).winner_id ≠ (mAt t Loc.gf).item_a_id := by
          rw [← hw5, ← ha5]
          exact h2
        rw [h5rs]
        exact hInv.rs_exists h1' h2'
      · intro lx hdx
        by_cases h1 : lx = Loc.l 5 0
        · subst h1
          rw [e_sla, e_slb]
          exact ⟨ha, hb⟩
        · by_cases h2 : lx = Loc.gf
          · subst h2
            rw [e_w] at hdx ⊢
            exact ⟨(hInv.df Loc.gf hdx).1, hwv⟩
          · rw [e_frame lx h1 h2] at hdx ⊢
            exact hInv.df lx hdx
  | gf =>
    have hwne : m2.winner_id ≠ none := by
      intro hh
      rw [hh] at hwv
      simp at hwv
    have h4rs : t4.grand_final.reset_match = t.grand_final.reset_match := by
      rw [ht4]
      show t3.grand_final.reset_match = _
      rw [ht3, set_match_at_reset_match _ _ _ (by simp)]
    have hitem : t4.grand_final.gf_match.item_a_id =
        (mAt t Loc.gf).item_a_id := by
      show (mAt t4 Loc.gf).item_a_id = _
      rw [h4eq, h3eq]
    by_cases hcw : m2.winner_id = (mAt t Loc.gf).item_a_id
    · -- grand final won by the WB champion: no reset, tournament completes
      have hnr : t5 = t4 := by
        rw [ht5]
        show handle_grand_final t4 m2 = t4
        simp only [handle_grand_final]
        rw [if_neg (by rw [hitem]; simpa using hcw)]
      have e5 : ∀ lx, lx ≠ Loc.gf → mAt t5 lx = mAt t lx := by
        intro lx h1
        rw [hnr, h4eq, h3ne _ h1]
      have h5rs : t5.grand_final.reset_match = t.grand_final.reset_match := by
        rw [hnr, h4rs]
      have hic5 : is_complete t5 = true := by
        simp only [is_complete]
        rw [show t5.grand_final.gf_match.winner_id = m2.winner_id from e_wl,
          show t5.grand_final.gf_match.item_a_id =
            (mAt t Loc.gf).item_a_id from e_sla]
        rw [if_neg hwne, if_pos hcw]
      rw [if_pos hic5]
      have hcgf : (complete_tournament t5).grand_final = t5.grand_final :=
        complete_tournament_grand_final t5
      refine ⟨?_, ?_, ?_, ?_, ?_, ?_, ?_, ?_, ?_, ?_, ?_, ?_, ?_,
        ?_, ?_, ?_⟩
      · rw [complete_tournament_winners]
        exact h5shw
      · rw [complete_tournament_losers]
        exact h5shl
      · intro j hj
        rw [complete_tournament_mAt, e5 _ (by simp)]
        exact hInv.wb0 j hj
      · intro r' j hr' hj
        simp only [complete_tournament_mAt]
        rw [e5 (Loc.w (r' + 1) j) (by simp), e5 (Loc.w r' (2 * j)) (by simp),
          e5 (Loc.w r' (2 * j + 1)) (by simp)]
        exact hInv.wbl r' j hr' hj
      · simp only [complete_tournament_mAt]
        rw [e_sla, decidedM_congr
          (show (mAt t5 (Loc.w 3 0)).winner_id =
            (mAt t (Loc.w 3 0)).winner_id from by rw [e5 _ (by simp)])]
        exact hInv.gfa
      · intro j hj
        simp only [complete_tournament_mAt]
        rw [e5 (Loc.l 0 j) (by simp), e5 (Loc.w 0 (2 * j)) (by simp),
          e5 (Loc.w 0 (2 * j + 1)) (by simp)]
        exact hInv.lb0 j hj
      · intro j hj
        simp only [complete_tournament_mAt]
        rw [e5 (Loc.l 1 j) (by simp), e5 (Loc.l 0 j) (by simp),
          e5 (Loc.w 1 j) (by simp)]
        exact hInv.lb1 j hj
      · intro j hj
        simp only [complete_tournament_mAt]
        rw [e5 (Loc.l 2 j) (by simp), e5 (Loc.l 1 (2 * j)) (by simp),
          e5 (Loc.l 1 (2 * j + 1)) (by simp)]
        exact hInv.lb2 j hj
      · intro j hj
        simp only [complete_tournament_mAt]
        rw [e5 (Loc.l 3 j) (by simp), e5 (Loc.l 2 j) (by simp),
          e5 (Loc.w 2 j) (by simp)]
        exact hInv.lb3 j hj
      · simp only [complete_tournament_mAt]
        rw [e5 (Loc.l 4 0) (by simp), e5 (Loc.l 3 0) (by simp),
          e5 (Loc.l 3 1) (by simp)]
        exact hInv.lb4
      · simp only [complete_tournament_mAt]
        rw [e5 (Loc.l 5 0) (by simp), e5 (Loc.l 4 0) (by simp),
          e5 (Loc.w 3 0) (by simp)]
        exact hInv.lb5
      · simp only [complete_tournament_mAt]
        rw [e_slb, decidedM_congr
          (show (mAt t5 (Loc.l 5 0)).winner_id =
            (mAt t (Loc.l 5 0)).winner_id from by rw [e5 _ (by simp)])]
        exact hInv.gfb
      · intro rm hrm
        rw [hcgf, h5rs] at hrm
        exact hInv.rs_filled rm hrm
      · have hicc : is_complete (complete_tournament t5) = true := by
          rw [is_complete_congr (complete_tournament t5) t5
            (by rw [hcgf]) (by rw [hcgf]) (by rw [hcgf])]
          exact hic5
        rw [complete_tournament_status, hicc]
        exact iff_of_true rfl rfl
      · intro h1 h2
        exfalso
        apply h2
        have e1 : (mAt (complete_tournament t5) Loc.gf).winner_id =
            m2.winner_id := by
          rw [complete_tournament_mAt]
          exact e_wl
        have e2 : (mAt (complete_tournament t5) Loc.gf).item_a_id =
            (mAt t Loc.gf).item_a_id := by
          rw [complete_tournament_mAt]
          exact e_sla
        rw [e1, e2]
        exact hcw
      · intro lx hdx
        simp only [complete_tournament_mAt] at hdx ⊢
        by_cases h1 : lx = Loc.gf
        · subst h1
          rw [e_sla, e_slb]
          exact ⟨ha, hb⟩
        · rw [e5 lx h1] at hdx ⊢
          exact hInv.df lx hdx
    · -- grand final won by the LB champion: the reset match is created
      have hres : t5 = { t4 with
          grand_final :=
            { t4.grand_final with
              reset_match :=
                some (create_match 30 t4.grand_final.gf_match.item_a_id
                    m2.winner_id) },
          total_matches := 31 } := by
        rw [ht5]
        show handle_grand_final t4 m2 = _
        simp only [handle_grand_final]
        rw [if_pos (by rw [hitem]; exact hcw)]
      have e5 : ∀ lx, lx ≠ Loc.gf → lx ≠ Loc.reset →
          mAt t5 lx = mAt t lx := by
        intro lx h1 h2
        have hh : mAt t5 lx = mAt t4 lx := by
          rw [hres]
          cases lx with
          | w r i => rfl
          | l r i => rfl
          | gf => exact absurd rfl h1
          | reset => exact absurd rfl h2
        rw [hh, h4eq, h3ne _ h1]
      have e5rs : t5.grand_final.reset_match =
          some (create_match 30 (mAt t Loc.gf).item_a_id m2.winner_id) := by
        rw [hres]
        show some (create_match 30 t4.grand_final.gf_match.item_a_id
          m2.winner_id) = _
        rw [hitem]
      have hic5 : is_complete t5 = false := by
        simp only [is_complete]
        rw [show t5.grand_final.gf_match.winner_id = m2.winner_id from e_wl,
          show t5.grand_final.gf_match.item_a_id =
            (mAt t Loc.gf).item_a_id from e_sla, e5rs]
        rw [if_neg hwne, if_neg hcw]
        simp [create_match]
      rw [if_neg (show ¬is_complete t5 = true from by simp [hic5])]
      refine ⟨?_, ?_, ?_, ?_, ?_, ?_, ?_, ?_, ?_, ?_, ?_, ?_, ?_,
        ?_, ?_, ?_⟩
      · rw [hres]
        exact h4shw
      · rw [hres]
        exact h4shl
      · intro j hj
        rw [e5 _ (by simp) (by simp)]
        exact hInv.wb0 j hj
      · intro r' j hr' hj
        rw [e5 (Loc.w (r' + 1) j) (by simp) (by simp),
          e5 (Loc.w r' (2 * j)) (by simp) (by simp),
          e5 (Loc.w r' (2 * j + 1)) (by simp) (by simp)]
        exact hInv.wbl r' j hr' hj
      · rw [e_sla, decidedM_congr
          (show (mAt t5 (Loc.w 3 0)).winner_id =
            (mAt t (Loc.w 3 0)).winner_id from
            by rw [e5 _ (by simp) (by simp)])]
        exact hInv.gfa
      · intro j hj
        rw [e5 (Loc.l 0 j) (by simp) (by simp),
          e5 (Loc.w 0 (2 * j)) (by simp) (by simp),
          e5 (Loc.w 0 (2 * j + 1)) (by simp) (by simp)]
        exact hInv.lb0 j hj
      · intro j hj
        rw [e5 (Loc.l 1 j) (by simp) (by simp),
          e5 (Loc.l 0 j) (by simp) (by simp),
          e5 (Loc.w 1 j) (by simp) (by simp)]
        exact hInv.lb1 j hj
      · intro j hj
        rw [e5 (Loc.l 2 j) (by simp) (by simp),
          e5 (Loc.l 1 (2 * j)) (by simp) (by simp),
          e5 (Loc.l 1 (2 * j + 1)) (by simp) (by simp)]
        exact hInv.lb2 j hj
      · intro j hj
        rw [e5 (Loc.l 3 j) (by simp) (by simp),
          e5 (Loc.l 2 j) (by simp) (by simp),
          e5 (Loc.w 2 j) (by simp) (by simp)]
        exact hInv.lb3 j hj
      · rw [e5 (Loc.l 4 0) (by simp) (by simp),
          e5 (Loc.l 3 0) (by simp) (by simp),
          e5 (Loc.l 3 1) (by simp) (by simp)]
        exact hInv.lb4
      · rw [e5 (Loc.l 5 0) (by simp) (by simp),
          e5 (Loc.l 4 0) (by simp) (by simp),
          e5 (Loc.w 3 0) (by simp) (by simp)]
        exact hInv.lb5
      · rw [e_slb, decidedM_congr
          (show (mAt t5 (Loc.l 5 0)).winner_id =
            (mAt t (Loc.l 5 0)).winner_id from
            by rw [e5 _ (by simp) (by simp)])]
        exact hInv.gfb
      · intro rm hrm
        rw [e5rs] at hrm
        have hrm2 := Option.some.inj hrm
        rw [← hrm2]
        exact ⟨ha, hwv⟩
      · rw [h5st, hic5]
        exact iff_of_false hst (by simp)
      · intro h1 h2
        rw [e5rs]
        rfl
      · intro lx hdx
        by_cases h1 : lx = Loc.gf
        · subst h1
          rw [e_sla, e_slb]
          exact ⟨ha, hb⟩
        · by_cases h2 : lx = Loc.reset
          · subst h2
            rw [show mAt t5 Loc.reset = create_match 30
              (mAt t Loc.gf).item_a_id m2.winner_id from
              by simp [mAt, e5rs]]
            exact ⟨ha, hwv⟩
          · rw [e5 lx h1 h2] at hdx ⊢
            exact hInv.df lx hdx
  | reset =>
    obtain ⟨rm, hrm⟩ := Option.isSome_iff_exists.mp hok
    have hmrm : mAt t Loc.reset = rm := by
      simp [mAt, hrm]
    have ht54 : t5 = t4 := by
      rw [ht5]
      rfl
    have e5 : ∀ lx, lx ≠ Loc.reset → mAt t5 lx = mAt t lx := by
      intro lx h1
      rw [ht54, h4eq, h3ne _ h1]
    have h5rsm : t5.grand_final.reset_match = some { rm with
        winner_id := m2.winner_id, loser_id := m2.loser_id,
        battle_id := m2.battle_id } := by
      rw [ht54, ht4]
      show t3.grand_final.reset_match = _
      rw [ht3]
      show t.grand_final.reset_match.map _ = _
      rw [hrm]
      rfl
    have hgw5 : (mAt t5 Loc.gf).winner_id = (mAt t Loc.gf).winner_id := by
      rw [e5 Loc.gf (by simp)]
    have hga5 : (mAt t5 Loc.gf).item_a_id = (mAt t Loc.gf).item_a_id := by
      rw [e5 Loc.gf (by simp)]
    by_cases hgw : (mAt t Loc.gf).winner_id = none
    · -- grand final still unplayed: the tournament stays in progress
      have hic5 : is_complete t5 = false := by
        simp only [is_complete]
        rw [show t5.grand_final.gf_match.winner_id =
          (mAt t Loc.gf).winner_id from hgw5, hgw]
        simp
      rw [if_neg (show ¬is_complete t5 = true from by simp [hic5])]
      refine ⟨h5shw, h5shl, ?_, ?_, ?_, ?_, ?_, ?_, ?_, ?_, ?_, ?_, ?_,
        ?_, ?_, ?_⟩
      · intro j hj
        rw [e5 _ (by simp)]
        exact hInv.wb0 j hj
      · intro r' j hr' hj
        rw [e5 (Loc.w (r' + 1) j) (by simp), e5 (Loc.w r' (2 * j)) (by simp),
          e5 (Loc.w r' (2 * j + 1)) (by simp)]
        exact hInv.wbl r' j hr' hj
      · rw [e5 Loc.gf (by simp), e5 (Loc.w 3 0) (by simp)]
        exact hInv.gfa
      · intro j hj
        rw [e5 (Loc.l 0 j) (by simp), e5 (Loc.w 0 (2 * j)) (by simp),
          e5 (Loc.w 0 (2 * j + 1)) (by simp)]
        exact hInv.lb0 j hj
      · intro j hj
        rw [e5 (Loc.l 1 j) (by simp), e5 (Loc.l 0 j) (by simp),
          e5 (Loc.w 1 j) (by simp)]
        exact hInv.lb1 j hj
      · intro j hj
        rw [e5 (Loc.l 2 j) (by simp), e5 (Loc.l 1 (2 * j)) (by simp),
          e5 (Loc.l 1 (2 * j + 1)) (by simp)]
        exact hInv.lb2 j hj
      · intro j hj
        rw [e5 (Loc.l 3 j) (by simp), e5 (Loc.l 2 j) (by simp),
          e5 (Loc.w 2 j) (by simp)]
        exact hInv.lb3 j hj
      · rw [e5 (Loc.l 4 0) (by simp), e5 (Loc.l 3 0) (by simp),
          e5 (Loc.l 3 1) (by simp)]
        exact hInv.lb4
      · rw [e5 (Loc.l 5 0) (by simp), e5 (Loc.l 4 0) (by simp),
          e5 (Loc.w 3 0) (by simp)]
        exact hInv.lb5
      · rw [e5 Loc.gf (by simp), e5 (Loc.l 5 0) (by simp)]
        exact hInv.gfb
      · intro rm2 hrm2
        rw [h5rsm] at hrm2
        have hh := Option.some.inj hrm2
        rw [← hh]
        exact ⟨(hInv.rs_filled rm hrm).1, (hInv.rs_filled rm hrm).2⟩
      · rw [h5st, hic5]
        exact iff_of_false hst (by simp)
      · intro h1 h2
        rw [h5rsm]
        rfl
      · intro lx hdx
        by_cases h1 : lx = Loc.reset
        · subst h1
          rw [h5loc, hmrm]
          exact ⟨(hInv.rs_filled rm hrm).1, (hInv.rs_filled rm hrm).2⟩
        · rw [e5 lx h1] at hdx ⊢
          exact hInv.df lx hdx
    · by_cases heq : (mAt t Loc.gf).winner_id = (mAt t Loc.gf).item_a_id
      · -- impossible: the tournament would already be complete
        exfalso
        have hh : is_complete t = true := by
          have hgw2 : ¬ t.grand_final.gf_match.winner_id = none := hgw
          have heq2 : t.grand_final.gf_match.winner_id =
              t.grand_final.gf_match.item_a_id := heq
          simp only [is_complete]
          rw [if_neg hgw2, if_pos heq2]
        rw [hh] at hnc
        exact Bool.noConfusion hnc
      · -- playing the reset match completes the tournament
        have hic5 : is_complete t5 = true := by
          simp only [is_complete]
          rw [show t5.grand_final.gf_match.winner_id =
            (mAt t Loc.gf).winner_id from hgw5,
            show t5.grand_final.gf_match.item_a_id =
              (mAt t Loc.gf).item_a_id from hga5, h5rsm]
          rw [if_neg hgw, if_neg heq]
          exact hwv
        rw [if_pos hic5]
        have hcgf : (complete_tournament t5).grand_final = t5.grand_final :=
          complete_tournament_grand_final t5
        refine ⟨?_, ?_, ?_, ?_, ?_, ?_, ?_, ?_, ?_, ?_, ?_, ?_, ?_,
          ?_, ?_, ?_⟩
        · rw [complete_tournament_winners]
          exact h5shw
        · rw [complete_tournament_losers]
          exact h5shl
        · intro j hj
          rw [complete_tournament_mAt, e5 _ (by simp)]
          exact hInv.wb0 j hj
        · intro r' j hr' hj
          simp only [complete_tournament_mAt]
          rw [e5 (Loc.w (r' + 1) j) (by simp),
            e5 (Loc.w r' (2 * j)) (by simp),
            e5 (Loc.w r' (2 * j + 1)) (by simp)]
          exact hInv.wbl r' j hr' hj
        · simp only [complete_tournament_mAt]
          rw [e5 Loc.gf (by simp), e5 (Loc.w 3 0) (by simp)]
          exact hInv.gfa
        · intro j hj
          simp only [complete_tournament_mAt]
          rw [e5 (Loc.l 0 j) (by simp), e5 (Loc.w 0 (2 * j)) (by simp),
            e5 (Loc.w 0 (2 * j + 1)) (by simp)]
          exact hInv.lb0 j hj
        · intro j hj
          simp only [complete_tournament_mAt]
          rw [e5 (Loc.l 1 j) (by simp), e5 (Loc.l 0 j) (by simp),
            e5 (Loc.w 1 j) (by simp)]
          exact hInv.lb1 j hj
        · intro j hj
          simp only [complete_tournament_mAt]
          rw [e5 (Loc.l 2 j) (by simp), e5 (Loc.l 1 (2 * j)) (by simp),
            e5 (Loc.l 1 (2 * j + 1)) (by simp)]
          exact hInv.lb2 j hj
        · intro j hj
          simp only [complete_tournament_mAt]
          rw [e5 (Loc.l 3 j) (by simp), e5 (Loc.l 2 j) (by simp),
            e5 (Loc.w 2 j) (by simp)]
          exact hInv.lb3 j hj
        · simp only [complete_tournament_mAt]
          rw [e5 (Loc.l 4 0) (by simp), e5 (Loc.l 3 0) (by simp),
            e5 (Loc.l 3 1) (by simp)]
          exact hInv.lb4
        · simp only [complete_tournament_mAt]
          rw [e5 (Loc.l 5 0) (by simp), e5 (Loc.l 4 0) (by simp),
            e5 (Loc.w 3 0) (by simp)]
          exact hInv.lb5
        · simp only [complete_tournament_mAt]
          rw [e5 Loc.gf (by simp), e5 (Loc.l 5 0) (by simp)]
          exact hInv.gfb
        · intro rm2 hrm2
          rw [hcgf, h5rsm] at hrm2
          have hh := Option.some.inj hrm2
          rw [← hh]
          exact ⟨(hInv.rs_filled rm hrm).1, (hInv.rs_filled rm hrm).2⟩
        · have hicc : is_complete (complete_tournament t5) = true := by
            rw [is_complete_congr (complete_tournament t5) t5
              (by rw [hcgf]) (by rw [hcgf]) (by rw [hcgf])]
            exact hic5
          rw [complete_tournament_status, hicc]
          exact iff_of_true rfl rfl
        · intro h1 h2
          rw [hcgf, h5rsm]
          rfl
        · intro lx hdx
          simp only [complete_tournament_mAt] at hdx ⊢
          by_cases h1 : lx = Loc.reset
          · subst h1
            rw [h5loc, hmrm]
            exact ⟨(hInv.rs_filled rm hrm).1, (hInv.rs_filled rm hrm).2⟩
          · rw [e5 lx h1] at hdx ⊢
            exact hInv.df lx hdx

theorem Inv_step_pipeline (t : Tournament) (hInv : Inv t) (loc : Loc)
    (m2 : TMatch) (hok : loc_ok t loc)
    (ha : (mAt t loc).item_a_id.isSome = true)
    (hb : (mAt t loc).item_b_id.isSome = true)
    (hw0 : (mAt t loc).winner_id = none)
    (hwv : m2.winner_id.isSome = true)
    (hlv : m2.loser_id.isSome = true)
    (hst : ¬ t.status = "completed") :
    Inv (step_pipeline t loc m2) := by
  simp only [step_pipeline]
  exact Inv_step t hInv loc m2 hok ha hb hw0 hwv hlv hst _ _ _ rfl rfl rfl

/-- Preservation: a playable submission through `apply_result` keeps the
bracket invariant. -/
theorem Inv_apply_result (t : Tournament) (hInv : Inv t) (mid : Nat)
    (side : String) (bid : Option Nat) (m : TMatch) (loc : Loc)
    (hfind : find_match t mid = some (m, loc))
    (ha : m.item_a_id.isSome = true) (hb : m.item_b_id.isSome = true)
    (hw0 : m.winner_id = none)
    (hst : ¬ t.status = "completed") :
    Inv (apply_result t mid side bid) := by
  obtain ⟨hok, hmat⟩ := find_match_spec t mid m loc hfind
  rw [apply_result_eq t mid side bid m loc hfind]
  refine Inv_step_pipeline t hInv loc _ hok ?_ ?_ ?_ ?_ ?_ hst
  · rw [hmat]
    exact ha
  · rw [hmat]
    exact hb
  · rw [hmat]
    exact hw0
  · by_cases hside : side = "a" <;> simp [hside, ha, hb]
  · by_cases hside : side = "a" <;> simp [hside, ha, hb]

/-- Tournament states reachable from creation by submissions that
address a playable match (both slots filled, winner null) of an
uncompleted tournament — the operating regime the spec describes. -/
inductive ReachableT : Tournament → Prop
  | create (p : Project) (ids : List String) (nm : Option String)
      (store' : Option Project) (t : Tournament)
      (hcreate : create_tournament (some p) ids nm = (store', some t)) :
      ReachableT t
  | step (t : Tournament) (mid : Nat) (side : String) (bid : Option Nat)
      (m : TMatch) (loc : Loc) (hreach : ReachableT t)
      (hst : ¬ t.status = "completed")
      (hfind : find_match t mid = some (m, loc))
      (ha : m.item_a_id.isSome = true) (hb : m.item_b_id.isSome = true)
      (hw0 : m.winner_id = none) :
      ReachableT (apply_result t mid side bid)

/-- Every reachable tournament state satisfies the bracket invariant. -/
theorem Inv_reachable (t : Tournament) (h : ReachableT t) : Inv t := by
  induction h with
  | create p ids nm store' t hcreate => exact Inv_create p ids nm store' t hcreate
  | step t mid side bid m loc hreach hst hfind ha hb hw0 ih =>
    exact Inv_apply_result t ih mid side bid m loc hfind ha hb hw0 hst

/-! ## C5 — correspondence of `get_next_match` with the spec play order -/

theorem find_playable_sound (ms : List TMatch) :
    ∀ (k j : Nat) (m : TMatch), find_playable ms k = some (j, m) →
      k ≤ j ∧ j - k < ms.length ∧ ms.getD (j - k) dummy_match = m ∧
        (m.winner_id.isNone && m.item_a_id.isSome &&
          m.item_b_id.isSome) = true := by
  induction ms with
  | nil =>
    intro k j m h
    simp [find_playable] at h
  | cons a rest ih =>
    intro k j m h
    unfold find_playable at h
    by_cases hc : (a.winner_id.isNone && a.item_a_id.isSome &&
        a.item_b_id.isSome) = true
    · rw [if_pos hc] at h
      obtain ⟨hj, hm⟩ := Prod.mk.inj (Option.some.inj h)
      subst hj
      subst hm
      exact ⟨le_refl _, by simp, by simp, hc⟩
    · rw [if_neg hc] at h
      obtain ⟨h1, h2, h3, h4⟩ := ih (k + 1) j m h
      refine ⟨by omega, by simp only [List.length_cons]; omega, ?_, h4⟩
      have hjk : j - k = (j - (k + 1)) + 1 := by omega
      rw [hjk]
      simpa using h3

theorem playableB_comm (m : TMatch) :
    (m.winner_id.isNone && m.item_a_id.isSome && m.item_b_id.isSome) =
      playableB m := by
  unfold playableB
  cases m.winner_id.isNone <;> cases m.item_a_id.isSome <;>
    cases m.item_b_id.isSome <;> rfl

theorem find_playable_map_find (t : Tournament) (f : Nat → Loc) :
    ∀ (ms : List TMatch) (k : Nat),
      (∀ j, j < ms.length → mAt t (f (k + j)) = ms.getD j dummy_match) →
      ((List.range ms.length).map (fun j => f (k + j))).find?
          (fun lc => playableB (mAt t lc)) =
        (find_playable ms k).map (fun ji => f ji.1) := by
  intro ms
  induction ms with
  | nil =>
    intro k h
    rfl
  | cons m rest ih =>
    intro k h
    have h0 : mAt t (f (k + 0)) = m := by
      simpa using h 0 (by simp)
    rw [List.length_cons, List.range_succ_eq_map]
    simp only [List.map_cons, List.map_map, Function.comp_def]
    rw [List.find?_cons]
    rw [h0]
    unfold find_playable
    rw [playableB_comm m]
    cases hpm : playableB m
    · simp only []
      rw [if_neg (by simp)]
      have hmaps : List.map (fun j => f (k + Nat.succ j))
          (List.range rest.length) =
          List.map (fun j => f ((k + 1) + j)) (List.range rest.length) := by
        apply List.map_congr_left
        intro j hj
        congr 1
        omega
      rw [hmaps]
      apply ih (k + 1)
      intro j hj
      have hh := h (j + 1) (by simpa using Nat.succ_lt_succ hj)
      have hkj : k + (j + 1) = (k + 1) + j := by omega
      rw [hkj] at hh
      simpa using hh
    · simp

/-- The correspondence relation between the engine scan and the spec
play order: the engine scan of `entries` returns exactly the first
playable match of `locs` (with its location). -/
def nextP (t : Tournament) (p : Project) (entries : List (String × Nat))
    (locs : List Loc) : Prop :=
  (get_next_match_go t p entries).map (fun info => (info.m, info_loc info)) =
    (locs.find? (fun lc => playableB (mAt t lc))).map
      (fun lc => (mAt t lc, lc))

theorem nextP_nil (t : Tournament) (p : Project) : nextP t p [] [] := rfl

theorem nextP_w (t : Tournament) (p : Project) (hInv : Inv t) (r : Nat)
    (hr : r < 4) (rest : List (String × Nat)) (locs : List Loc)
    (hnext : nextP t p rest locs) :
    nextP t p (("w", r) :: rest)
      (((List.range (wb_size r)).map (fun j => Loc.w r j)) ++ locs) := by
  unfold nextP at hnext ⊢
  have hms : ∀ j, j < (t.winners_bracket.getD r []).length →
      mAt t (Loc.w r (0 + j)) =
        (t.winners_bracket.getD r []).getD j dummy_match := by
    intro j hj
    rw [Nat.zero_add]
    rfl
  have hseg := find_playable_map_find t (fun j => Loc.w r j)
    (t.winners_bracket.getD r []) 0 hms
  rw [hInv.wb_round_length r] at hseg
  have hmapeq : List.map (fun j => Loc.w r (0 + j))
      (List.range (wb_size r)) =
      List.map (fun j => Loc.w r j) (List.range (wb_size r)) := by
    apply List.map_congr_left
    intro j hj
    rw [Nat.zero_add]
  rw [hmapeq] at hseg
  rw [List.find?_append, hseg]
  rw [get_next_match_go]
  rw [if_pos rfl]
  simp only []
  cases hf : find_playable (t.winners_bracket.getD r []) 0 with
  | none =>
    simpa using hnext
  | some ji =>
    obtain ⟨mi, mm⟩ := ji
    obtain ⟨-, h2, h3, -⟩ :=
      find_playable_sound (t.winners_bracket.getD r []) 0 mi mm hf
    simp only [Nat.sub_zero] at h2 h3
    simp [info_loc, show mAt t (Loc.w r mi) = mm from h3]

theorem nextP_l (t : Tournament) (p : Project) (hInv : Inv t) (r : Nat)
    (hr : r < 6) (rest : List (String × Nat)) (locs : List Loc)
    (hnext : nextP t p rest locs) :
    nextP t p (("l", r) :: rest)
      (((List.range (lb_size r)).map (fun j => Loc.l r j)) ++ locs) := by
  unfold nextP at hnext ⊢
  have hms : ∀ j, j < (t.losers_bracket.getD r []).length →
      mAt t (Loc.l r (0 + j)) =
        (t.losers_bracket.getD r []).getD j dummy_match := by
    intro j hj
    rw [Nat.zero_add]
    rfl
  have hseg := find_playable_map_find t (fun j => Loc.l r j)
    (t.losers_bracket.getD r []) 0 hms
  rw [hInv.lb_round_length r] at hseg
  have hmapeq : List.map (fun j => Loc.l r (0 + j))
      (List.range (lb_size r)) =
      List.map (fun j => Loc.l r j) (List.range (lb_size r)) := by
    apply List.map_congr_left
    intro j hj
    rw [Nat.zero_add]
  rw [hmapeq] at hseg
  rw [List.find?_append, hseg]
  rw [get_next_match_go]
  rw [if_neg (by simp), if_pos rfl]
  simp only []
  cases hf : find_playable (t.losers_bracket.getD r []) 0 with
  | none =>
    simpa using hnext
  | some ji =>
    obtain ⟨mi, mm⟩ := ji
    obtain ⟨-, h2, h3, -⟩ :=
      find_playable_sound (t.losers_bracket.getD r []) 0 mi mm hf
    simp only [Nat.sub_zero] at h2 h3
    simp [info_loc, show mAt t (Loc.l r mi) = mm from h3]

theorem nextP_gf (t : Tournament) (p : Project)
    (rest : List (String × Nat)) (locs : List Loc)
    (hnext : nextP t p rest locs) :
    nextP t p (("gf", 0) :: rest) (Loc.gf :: locs) := by
  unfold nextP at hnext ⊢
  rw [get_next_match_go]
  rw [if_neg (by simp), if_neg (by simp), if_pos rfl]
  rw [List.find?_cons]
  have hcomm := playableB_comm (t.grand_final.gf_match)
  cases hpm : playableB (mAt t Loc.gf)
  · have hc2 : (t.grand_final.gf_match.winner_id.isNone &&
        t.grand_final.gf_match.item_a_id.isSome &&
        t.grand_final.gf_match.item_b_id.isSome) = false := by
      rw [hcomm]
      exact hpm
    simp only [hc2]
    simpa using hnext
  · have hc2 : (t.grand_final.gf_match.winner_id.isNone &&
        t.grand_final.gf_match.item_a_id.isSome &&
        t.grand_final.gf_match.item_b_id.isSome) = true := by
      rw [hcomm]
      exact hpm
    simp only [hc2]
    simp [info_loc, mAt]

theorem nextP_reset (t : Tournament) (p : Project) (hInv : Inv t)
    (rest : List (String × Nat)) (locs : List Loc)
    (hnext : nextP t p rest locs) :
    nextP t p (("reset", 0) :: rest) (Loc.reset :: locs) := by
  unfold nextP at hnext ⊢
  rw [get_next_match_go]
  rw [if_neg (by simp), if_neg (by simp), if_neg (by simp), if_pos rfl]
  rw [List.find?_cons]
  cases hrs : t.grand_final.reset_match with
  | none =>
    rw [show playableB (mAt t Loc.reset) = false from by
      simp [mAt, hrs, playableB, dummy_match, create_match]]
    simpa using hnext
  | some rm =>
    have hmr : mAt t Loc.reset = rm := by
      simp [mAt, hrs]
    have hfill := hInv.rs_filled rm hrs
    have hpm : playableB (mAt t Loc.reset) = rm.winner_id.isNone := by
      rw [hmr]
      unfold playableB
      rw [hfill.1, hfill.2]
      cases rm.winner_id.isNone <;> rfl
    rw [hpm]
    simp only []
    cases hw : rm.winner_id.isNone
    · have hne : rm.winner_id ≠ none := by
        cases hx : rm.winner_id
        · rw [hx] at hw
          simp at hw
        · simp
      first
      | rw [if_neg (show ¬(false = true) from by simp)]
      | rw [if_neg hne]
      | rw [if_neg (show ¬ rm.winner_id.isNone = true from by simp [hw])]
      simpa using hnext
    · have heq : rm.winner_id = none := by
        cases hx : rm.winner_id
        · rfl
        · rw [hx] at hw
          simp at hw
      first
      | rw [if_pos (show (true = true) from rfl)]
      | rw [if_pos heq]
      | rw [if_pos hw]
      simp [info_loc, hmr]

/-- The engine scan over `PLAY_ORDER` computes exactly the first
playable location of the spec play order (with that location's match),
for any tournament satisfying the bracket invariant. -/
theorem go_spec (t : Tournament) (p : Project) (hInv : Inv t) :
    nextP t p PLAY_ORDER play_order_locs := by
  have h0 : play_order_locs =
      ((List.range (wb_size 0)).map (fun j => Loc.w 0 j)) ++
      (((List.range (lb_size 0)).map (fun j => Loc.l 0 j)) ++
      (((List.range (wb_size 1)).map (fun j => Loc.w 1 j)) ++
      (((List.range (lb_size 1)).map (fun j => Loc.l 1 j)) ++
      (((List.range (lb_size 2)).map (fun j => Loc.l 2 j)) ++
      (((List.range (wb_size 2)).map (fun j => Loc.w 2 j)) ++
      (((List.range (lb_size 3)).map (fun j => Loc.l 3 j)) ++
      (((List.range (lb_size 4)).map (fun j => Loc.l 4 j)) ++
      (((List.range (wb_size 3)).map (fun j => Loc.w 3 j)) ++
      (((List.range (lb_size 5)).map (fun j => Loc.l 5 j)) ++
      (Loc.gf :: (Loc.reset :: ([] : List Loc)))))))))))) := by
    rfl
  rw [h0]
  exact nextP_w t p hInv 0 (by omega) _ _
    (nextP_l t p hInv 0 (by omega) _ _
    (nextP_w t p hInv 1 (by omega) _ _
    (nextP_l t p hInv 1 (by omega) _ _
    (nextP_l t p hInv 2 (by omega) _ _
    (nextP_w t p hInv 2 (by omega) _ _
    (nextP_l t p hInv 3 (by omega) _ _
    (nextP_l t p hInv 4 (by omega) _ _
    (nextP_w t p hInv 3 (by omega) _ _
    (nextP_l t p hInv 5 (by omega) _ _
    (nextP_gf t p _ _
    (nextP_reset t p hInv _ _
    (nextP_nil t p))))))))))))

theorem playable_decided {m : TMatch} (hA : m.item_a_id.isSome = true)
    (hB : m.item_b_id.isSome = true) (hp : playableB m = false) :
    decidedM m := by
  unfold playableB at hp
  rw [hA, hB] at hp
  unfold decidedM
  cases hmw : m.winner_id with
  | none =>
    rw [hmw] at hp
    simp at hp
  | some x =>
    simp [hmw]

/-- Progress: under the bracket invariant, if no location in the play
order is playable then the tournament is complete. -/
theorem spec_progress (t : Tournament) (hInv : Inv t)
    (hnone : spec_next_loc t = none) : is_complete t = true := by
  have hall := List.find?_eq_none.mp hnone
  have hallf : ∀ lc ∈ play_order_locs, playableB (mAt t lc) = false := by
    intro lc hlc
    have hh := hall lc hlc
    simpa using hh
  have hW0 : ∀ j, j < 8 → decidedM (mAt t (Loc.w 0 j)) := by
    intro j hj
    refine playable_decided (hInv.wb0 j hj).1 (hInv.wb0 j hj).2 ?_
    interval_cases j <;> exact hallf _ (by decide)
  have hW1 : ∀ j, j < 4 → decidedM (mAt t (Loc.w 1 j)) := by
    intro j hj
    have hlink := hInv.wbl 0 j (by omega) (by simpa [wb_size] using hj)
    refine playable_decided (hlink.1.mpr (hW0 (2 * j) (by omega)))
      (hlink.2.mpr (hW0 (2 * j + 1) (by omega))) ?_
    interval_cases j <;> exact hallf _ (by decide)
  have hW2 : ∀ j, j < 2 → decidedM (mAt t (Loc.w 2 j)) := by
    intro j hj
    have hlink := hInv.wbl 1 j (by omega) (by simpa [wb_size] using hj)
    refine playable_decided (hlink.1.mpr (hW1 (2 * j) (by omega)))
      (hlink.2.mpr (hW1 (2 * j + 1) (by omega))) ?_
    interval_cases j <;> exact hallf _ (by decide)
  have hW3 : decidedM (mAt t (Loc.w 3 0)) := by
    have hlink := hInv.wbl 2 0 (by omega) (by simp [wb_size])
    refine playable_decided (hlink.1.mpr (hW2 0 (by omega)))
      (hlink.2.mpr (hW2 1 (by omega))) ?_
    exact hallf _ (by decide)
  have hL0 : ∀ j, j < 4 → decidedM (mAt t (Loc.l 0 j)) := by
    intro j hj
    have hlink := hInv.lb0 j hj
    refine playable_decided (hlink.1.mpr (hW0 (2 * j) (by omega)))
      (hlink.2.mpr (hW0 (2 * j + 1) (by omega))) ?_
    interval_cases j <;> exact hallf _ (by decide)
  have hL1 : ∀ j, j < 4 → decidedM (mAt t (Loc.l 1 j)) := by
    intro j hj
    have hlink := hInv.lb1 j hj
    refine playable_decided (hlink.1.mpr (hL0 j hj))
      (hlink.2.mpr (hW1 j hj)) ?_
    interval_cases j <;> exact hallf _ (by decide)
  have hL2 : ∀ j, j < 2 → decidedM (mAt t (Loc.l 2 j)) := by
    intro j hj
    have hlink := hInv.lb2 j hj
    refine playable_decided (hlink.1.mpr (hL1 (2 * j) (by omega)))
      (hlink.2.mpr (hL1 (2 * j + 1) (by omega))) ?_
    interval_cases j <;> exact hallf _ (by decide)
  have hL3 : ∀ j, j < 2 → decidedM (mAt t (Loc.l 3 j)) := by
    intro j hj
    have hlink := hInv.lb3 j hj
    refine playable_decided (hlink.1.mpr (hL2 j hj))
      (hlink.2.mpr (hW2 j hj)) ?_
    interval_cases j <;> exact hallf _ (by decide)
  have hL4 : decidedM (mAt t (Loc.l 4 0)) := by
    refine playable_decided (hInv.lb4.1.mpr (hL3 0 (by omega)))
      (hInv.lb4.2.mpr (hL3 1 (by omega))) ?_
    exact hallf _ (by decide)
  have hL5 : decidedM (mAt t (Loc.l 5 0)) := by
    refine playable_decided (hInv.lb5.1.mpr hL4)
      (hInv.lb5.2.mpr hW3) ?_
    exact hallf _ (by decide)
  have hGF : decidedM (mAt t Loc.gf) := by
    refine playable_decided (hInv.gfa.mpr hW3) (hInv.gfb.mpr hL5) ?_
    exact hallf _ (by decide)
  unfold decidedM at hGF
  have hwne : ¬ t.grand_final.gf_match.winner_id = none := by
    show ¬ (mAt t Loc.gf).winner_id = none
    intro hx
    rw [hx] at hGF
    simp at hGF
  simp only [is_complete]
  rw [if_neg hwne]
  by_cases heq : t.grand_final.gf_match.winner_id =
      t.grand_final.gf_match.item_a_id
  · rw [if_pos heq]
  · rw [if_neg heq]
    have hrs := hInv.rs_exists hGF heq
    obtain ⟨rm, hrm⟩ := Option.isSome_iff_exists.mp hrs
    rw [hrm]
    have hfill := hInv.rs_filled rm hrm
    have hmr : mAt t Loc.reset = rm := by
      simp [mAt, hrm]
    have hdec : decidedM rm := by
      rw [← hmr]
      refine playable_decided ?_ ?_ (hallf _ (by decide))
      · rw [hmr]
        exact hfill.1
      · rw [hmr]
        exact hfill.2
    exact hdec

/-- **C5** (corrected: restricted to reachable states).  For every
tournament state reachable from creation by submissions addressing a
playable match of an uncompleted tournament, `get_next_match` returns
none exactly when `status == "completed"`; and when it returns a match
context, the returned match is the match stored at the context's
location, both its slots are non-null, its winner is null, and its
location is the first playable location in the fixed global play order
WB R1, LB R1, WB R2, LB R2, LB R3, WB R3, LB R4, LB R5, WB R4, LB R6,
Grand Final, Reset (matches in round order within each stage, as
computed by `spec_next_loc`).  (On unrestricted states the claim is
false: see the C5 counterexample, where a trace of engine-accepted
unplayable submissions makes `get_next_match` return a reset match with
a null slot while the tournament is in progress.) -/
theorem c5_next_match_on_reachable (t : Tournament) (p : Project)
    (h : ReachableT t) :
    ((get_next_match t p = none) ↔ t.status = "completed") ∧
    (∀ info, get_next_match t p = some info →
      info.m = mAt t (info_loc info) ∧
      info.m.item_a_id.isSome = true ∧
      info.m.item_b_id.isSome = true ∧
      info.m.winner_id = none ∧
      spec_next_loc t = some (info_loc info)) := by
  have hInv := Inv_reachable t h
  by_cases hst : t.status = "completed"
  · constructor
    · constructor
      · intro hn
        exact hst
      · intro hc
        rw [get_next_match, if_pos hst]
    · intro info hinfo
      rw [get_next_match, if_pos hst] at hinfo
      exact Option.noConfusion hinfo
  · have hgo := go_spec t p hInv
    unfold nextP at hgo
    have hget : get_next_match t p = get_next_match_go t p PLAY_ORDER := by
      rw [get_next_match, if_neg hst]
    constructor
    · constructor
      · intro hn
        have hgon : get_next_match_go t p PLAY_ORDER = none := by
          rw [← hget]
          exact hn
        rw [hgon] at hgo
        have hspn : spec_next_loc t = none := by
          cases hsp : spec_next_loc t with
          | none => rfl
          | some lc =>
            rw [show play_order_locs.find?
              (fun lc => playableB (mAt t lc)) = some lc from hsp] at hgo
            simp at hgo
        exact hInv.st.mpr (spec_progress t hInv hspn)
      · intro hc
        exact absurd hc hst
    · intro info hinfo
      have hgos : get_next_match_go t p PLAY_ORDER = some info := by
        rw [← hget]
        exact hinfo
      rw [hgos] at hgo
      cases hsp : spec_next_loc t with
      | none =>
        rw [show play_order_locs.find?
          (fun lc => playableB (mAt t lc)) = none from hsp] at hgo
        simp at hgo
      | some lc =>
        rw [show play_order_locs.find?
          (fun lc => playableB (mAt t lc)) = some lc from hsp] at hgo
        simp only [Option.map_some'] at hgo
        obtain ⟨hm, hloc⟩ := Prod.mk.inj (Option.some.inj hgo)
        have hplay0 := List.find?_some (show play_order_locs.find?
          (fun lc => playableB (mAt t lc)) = some lc from hsp)
        have hplay : playableB (mAt t lc) = true := hplay0
        unfold playableB at hplay
        rw [Bool.and_eq_true, Bool.and_eq_true] at hplay
        obtain ⟨⟨hpa, hpb⟩, hpw⟩ := hplay
        refine ⟨by rw [hloc]; exact hm, ?_, ?_, ?_, ?_⟩
        · rw [hm]
          exact hpa
        · rw [hm]
          exact hpb
        · rw [hm]
          exact Option.isNone_iff_eq_none.mp hpw
        · rw [hloc]

def junk_info : MatchInfo :=
  { m := dummy_match, bracket := "", bracket_label := "", round_idx := 0,
    round_name := "", match_idx := 0, match_number := 0,
    total_in_round := 0, item_a := none, item_b := none }

/-- **C5 witness.**  The freshly created demo tournament is reachable;
on it, `get_next_match` is not none (the status is not completed), and
the returned context is the first playable match of the play order with
both slots filled. -/
theorem c5_next_match_on_reachable_witness :
    ReachableT demo_t ∧
    ((get_next_match demo_t demo_project = none) ↔
      demo_t.status = "completed") ∧
    (((get_next_match demo_t demo_project).getD junk_info).m =
      mAt demo_t (info_loc
        ((get_next_match demo_t demo_project).getD junk_info)) ∧
    ((get_next_match demo_t demo_project).getD
      junk_info).m.item_a_id.isSome = true ∧
    ((get_next_match demo_t demo_project).getD
      junk_info).m.item_b_id.isSome = true ∧
    ((get_next_match demo_t demo_project).getD
      junk_info).m.winner_id = none ∧
    spec_next_loc demo_t = some (info_loc
      ((get_next_match demo_t demo_project).getD junk_info))) := by
  have hr : ReachableT demo_t :=
    ReachableT.create demo_project demo_ids none
      (create_tournament (some demo_project) demo_ids none).1 demo_t
      (by decide)
  have hmain := c5_next_match_on_reachable demo_t demo_project hr
  exact ⟨hr, hmain.1, hmain.2 _ (by decide)⟩

end RankRumble
